import Mathlib

/-!
# Popsink Terraform provider: API client and resource handlers

A shallow embedding of `internal/client` (client.go, env.go, team.go, pipeline.go) and of
the handlers of `internal/provider`, followed by the properties proved about them.

Modelling conventions.

* A Go `string` is a `String`; a Go `int` status code is an `Int`.
* A Go `error` is its message (`GoError`); `fmt.Errorf("...: %w", err)` is concatenation.
* A Go pointer `*T` is `Option T` (`none` is `nil`).  A result pair `(*T, error)` is kept as
  two options, so that "nil record and nil error" is a value the model can express.
* The Go standard library and the network are the environment of the program.  They are
  collected in `Runtime` and every theorem holds for every runtime.
* `encoding/json` is split the way the library itself works: a syntax layer between text and
  JSON values (`Runtime.parse`, `Runtime.marshal`), and the value layer that maps JSON values
  to and from the structs of the repository, following their `json:"..."` tags.  The value
  layer is defined here.
* Every client call returns, next to its Go results, the list `sent` of the requests it handed
  to `HTTPClient.Do`.
-/

set_option autoImplicit false

/-! ## JSON values -/

/-- JSON values.  A number is carried as its literal; the program never inspects one, and the
range check `encoding/json` makes when it stores a number into an `any` is not modelled. -/
inductive Json where
  | null
  | bool (b : Bool)
  | num (lit : String)
  | str (s : String)
  | arr (items : List Json)
  | obj (members : List (String × Json))

namespace Json

/-- The word `encoding/json` uses for the kind of a value in an `UnmarshalTypeError`. -/
def kind : Json → String
  | null => "null"
  | bool _ => "bool"
  | num _ => "number"
  | str _ => "string"
  | arr _ => "array"
  | obj _ => "object"

/-- The member names of an object, in order; empty for any other value. -/
def keys : Json → List String
  | obj ms => ms.map Prod.fst
  | _ => []

end Json

/-- A Go `error`, identified with its message. -/
abbrev GoError := String

/-- Go `map[string]any` as decoded from or encoded to JSON: `none` is the nil map, `some es`
a map with entries `es`, kept sorted by key and without duplicate keys by `GoMap.set`. -/
abbrev GoMap := Option (List (String × Json))

/-- Go `[]any`: `none` is the nil slice. -/
abbrev GoSlice := Option (List Json)

namespace GoMap

/-- The assignment `m[k] = v` on the entries of a non-nil map. -/
def set (k : String) (v : Json) : List (String × Json) → List (String × Json)
  | [] => [(k, v)]
  | (k1, v1) :: rest =>
    if k = k1 then (k, v) :: rest
    else if k.data < k1.data then (k, v) :: (k1, v1) :: rest
    else (k1, v1) :: set k v rest

/-- Stores the members of a JSON object into a map, one assignment per member, in order. -/
def setAll (es : List (String × Json)) (ms : List (String × Json)) : List (String × Json) :=
  ms.foldl (fun m kv => set kv.1 kv.2 m) es

/-- The JSON value `json.Marshal` produces for a map: `null` for the nil map, else an object
with one member per key, keys in sorted order. -/
def toJson : GoMap → Json
  | none => Json.null
  | some es => Json.obj (setAll [] es)

end GoMap

/-- The JSON value `json.Marshal` produces for a `[]any`. -/
def GoSlice.toJson : GoSlice → Json
  | none => Json.null
  | some xs => Json.arr xs

/-! ## The value layer of `json.Unmarshal` -/

namespace gojson

/-- Simple case folding of one rune, restricted to what can fold onto an ASCII letter:
`A`..`Z`, the Kelvin sign (onto `k`) and the long s (onto `s`). -/
def foldRune (c : Char) : Char :=
  if c = Char.ofNat 0x212A then 'k'
  else if c = Char.ofNat 0x017F then 's'
  else c.toLower

/-- The folded form of an object key.  A key selects the struct field tagged `t` (a tag of
lower-case ASCII letters and `_`) when it equals `t` exactly or under case folding, that is
when `foldName key = t`. -/
def foldName (key : String) : String :=
  String.mk (key.data.map foldRune)

/-- The message of an `UnmarshalTypeError` for a struct field. -/
def typeError (v : Json) (field ty : String) : GoError :=
  "json: cannot unmarshal " ++ v.kind ++ " into Go struct field " ++ field ++ " of type " ++ ty

/-- The message of an `UnmarshalTypeError` for the top-level value. -/
def typeErrorTop (v : Json) (ty : String) : GoError :=
  "json: cannot unmarshal " ++ v.kind ++ " into Go value of type " ++ ty

/-- Decoding into a field of kind `string`: `null` leaves the field as it is. -/
def intoString (field ty : String) (cur : String) : Json → Except GoError String
  | Json.null => .ok cur
  | Json.str s => .ok s
  | v => .error (typeError v field ty)

/-- Decoding into a field of kind `bool`. -/
def intoBool (field : String) (cur : Bool) : Json → Except GoError Bool
  | Json.null => .ok cur
  | Json.bool b => .ok b
  | v => .error (typeError v field "bool")

/-- Decoding into a field of type `*string`: `null` sets the pointer to nil. -/
def intoStringPtr (field : String) : Json → Except GoError (Option String)
  | Json.null => .ok none
  | Json.str s => .ok (some s)
  | v => .error (typeError v field "string")

/-- Decoding into a `map[string]any`: `null` sets the map to nil, an object is stored into the
map (allocated when nil), member by member. -/
def intoMap (field ty : String) (cur : GoMap) : Json → Except GoError GoMap
  | Json.null => .ok none
  | Json.obj ms => .ok (some (GoMap.setAll (cur.getD []) ms))
  | v => .error (typeError v field ty)

/-- Decoding into a pointer to a `map[string]any`: `null` sets the pointer to nil, an object
is stored into the pointed-to map (pointer and map allocated when nil). -/
def intoMapPtr (field ty : String) (cur : Option GoMap) : Json → Except GoError (Option GoMap)
  | Json.null => .ok none
  | Json.obj ms => .ok (some (some (GoMap.setAll ((cur.getD none).getD []) ms)))
  | v => .error (typeError v field ty)

/-- Decoding into a `[]any`: `null` sets the slice to nil, an array replaces its elements. -/
def intoSlice (field : String) : Json → Except GoError GoSlice
  | Json.null => .ok none
  | Json.arr xs => .ok (some xs)
  | v => .error (typeError v field "[]interface {}")

/-- Decoding the members of an object into a struct: each member in order is handed to the
field setter; the first type error is the error reported. -/
def object {α : Type} (setField : α → String → Json → Except GoError α) :
    α → List (String × Json) → Except GoError α
  | a, [] => .ok a
  | a, (k, v) :: rest =>
    match setField a k v with
    | .error e => .error e
    | .ok a1 => object setField a1 rest

/-- Decoding a JSON value into a struct variable holding `cur`: `null` has no effect, an
object is decoded member by member, anything else is a type error. -/
def intoStruct {α : Type} (ty : String) (setField : α → String → Json → Except GoError α)
    (cur : α) : Json → Except GoError α
  | Json.null => .ok cur
  | Json.obj ms => object setField cur ms
  | v => .error (typeErrorTop v ty)

end gojson

/-! ## HTTP and the runtime -/

/-- An `http.Header` restricted to single-valued keys, as a list of entries.  The keys the
client sets are already in canonical form. -/
structure Header where
  entries : List (String × String)
deriving DecidableEq

namespace Header

/-- The header of a fresh request. -/
def empty : Header := ⟨[]⟩

/-- Models `Header.Set`: replaces the value stored under the key. -/
def Set (h : Header) (key value : String) : Header :=
  ⟨h.entries.filter (fun e => e.1 ≠ key) ++ [(key, value)]⟩

/-- Models `Header.Get`: the value stored under the key, `""` when there is none. -/
def Get (h : Header) (key : String) : String :=
  match h.entries.find? (fun e => e.1 = key) with
  | some e => e.2
  | none => ""

end Header

/-- An outgoing `http.Request`.  `Body` is the JSON value whose `json.Marshal` text is the
request body; `none` is a request without body. -/
structure Request where
  Method : String
  URL : String
  Header : Header
  Body : Option Json

/-- A response body as `io.ReadAll` sees it: the text read, and the error (if any) that
ended the read. -/
structure ResponseBody where
  data : String
  readErr : Option GoError
deriving DecidableEq

/-- The part of an `http.Response` the client looks at. -/
structure Response where
  StatusCode : Int
  Body : ResponseBody
deriving DecidableEq

/-- The environment of the client: the Go standard library and the network. -/
structure Runtime where
  /-- The error of `http.NewRequestWithContext` for a method and a URL; `none` when the
  request is created. -/
  newRequestErr : String → String → Option GoError
  /-- Models `HTTPClient.Do`: the network, the server, the timeout and the context. -/
  roundTrip : Request → Except GoError Response
  /-- The text layer of `json.Marshal`. -/
  marshal : Json → Except GoError String
  /-- The syntax layer of `json.Unmarshal`: the JSON value a text denotes. -/
  parse : String → Except GoError Json

def http.MethodGet : String := "GET"
def http.MethodPost : String := "POST"
def http.MethodPatch : String := "PATCH"
def http.MethodDelete : String := "DELETE"
def http.StatusNotFound : Int := 404
def http.StatusForbidden : Int := 403

/-- Models `io.ReadAll`: the bytes read and the error. -/
def io.ReadAll (b : ResponseBody) : String × Option GoError := (b.data, b.readErr)

namespace client

/-- The results `(*T, error)` of a client call, and the requests it issued. -/
structure Call (α : Type) where
  sent : List Request
  val : Option α
  err : Option GoError

/-- The result `error` of a delete call, and the requests it issued. -/
structure CallErr where
  sent : List Request
  err : Option GoError

/-- Client manages communication with the Popsink API.  Its `HTTPClient` is
`Runtime.roundTrip`. -/
structure Client where
  BaseURL : String
  Token : String
deriving DecidableEq

/-- NewClient creates a new Popsink API client. -/
def NewClient (baseURL token : String) : Client :=
  { BaseURL := baseURL, Token := token }

/-- The request `doRequest` hands to `HTTPClient.Do` (client.go lines 42-50). -/
def buildRequest (c : Client) (method path : String) (body : Option Json) : Request :=
  let url := c.BaseURL ++ path
  let header := Header.empty
  let header := header.Set "Authorization" ("Bearer " ++ c.Token)
  let header := header.Set "Content-Type" "application/json"
  let header := header.Set "Accept" "application/json"
  { Method := method, URL := url, Header := header, Body := body }

/-- The error of marshalling the request body, when there is a body and it fails. -/
def marshalErr (rt : Runtime) : Option Json → Option GoError
  | none => none
  | some v =>
    match rt.marshal v with
    | .error e => some e
    | .ok _ => none

/-- The results `(*http.Response, error)` of `doRequest`, of which exactly one is non-nil,
and the requests it issued. -/
structure Exchange where
  sent : List Request
  result : Except GoError Response

/-- doRequest performs an HTTP request with authentication. -/
def doRequest (rt : Runtime) (c : Client) (method path : String) (body : Option Json) :
    Exchange :=
  match marshalErr rt body with
  | some e => ⟨[], .error ("failed to marshal request body: " ++ e)⟩
  | none =>
    match rt.newRequestErr method (c.BaseURL ++ path) with
    | some e => ⟨[], .error ("failed to create request: " ++ e)⟩
    | none =>
      let req := buildRequest c method path body
      match rt.roundTrip req with
      | .error e => ⟨[req], .error ("failed to perform request: " ++ e)⟩
      | .ok resp => ⟨[req], .ok resp⟩

/-- checkResponse checks the API response for errors. -/
def checkResponse (resp : Response) : Option GoError :=
  if resp.StatusCode ≥ 200 ∧ resp.StatusCode < 300 then none
  else
    let bodyBytes := (io.ReadAll resp.Body).1
    some ("API request failed with status " ++ toString resp.StatusCode ++ ": " ++ bodyBytes)

/-- The statement `json.Unmarshal(body, &result)` for a struct variable: the syntax layer,
then the value layer. -/
def unmarshal {α : Type} (rt : Runtime) (ty : String)
    (setField : α → String → Json → Except GoError α) (body : String) (result : α) :
    Except GoError α :=
  match rt.parse body with
  | .error e => .error e
  | .ok v => gojson.intoStruct ty setField result v

/-- The common tail of the create, get and update calls, after the status has been
accepted: read the body, decode it into a zero-valued `result`, return its address. -/
def readResult {α : Type} (rt : Runtime) (ty : String)
    (setField : α → String → Json → Except GoError α) (zero : α)
    (sent : List Request) (resp : Response) : Call α :=
  match io.ReadAll resp.Body with
  | (_, some e) => ⟨sent, none, some ("failed to read response body: " ++ e)⟩
  | (body, none) =>
    match unmarshal rt ty setField body zero with
    | .error e => ⟨sent, none, some ("failed to unmarshal response: " ++ e)⟩
    | .ok result => ⟨sent, some result, none⟩

end client

/-! ## internal/client: environments (env.go) -/

namespace client

/-- BrokerConfiguration represents the retention configuration for an environment. -/
abbrev BrokerConfiguration := GoMap

/-- The JSON value `json.Marshal` produces for a pointer: `null` for nil. -/
def ptrJson {α : Type} (toJson : α → Json) : Option α → Json
  | none => Json.null
  | some a => toJson a

/-- The member of a field tagged `omitempty` whose Go type is a pointer: absent for nil. -/
def omitEmpty {α : Type} (key : String) (toJson : α → Json) : Option α → List (String × Json)
  | none => []
  | some a => [(key, toJson a)]

/-- EnvCreate represents the request structure for creating an environment. -/
structure EnvCreate where
  Name : String
  UseRetention : Bool
  RetentionConfiguration : Option BrokerConfiguration

/-- EnvRead represents the response structure for reading an environment. -/
structure EnvRead where
  ID : String
  Name : String
  UseRetention : Bool
  RetentionConfiguration : Option BrokerConfiguration

/-- EnvUpdate represents the request structure for updating an environment. -/
structure EnvUpdate where
  Name : Option String
  UseRetention : Option Bool
  RetentionConfiguration : Option BrokerConfiguration

def EnvCreate.toJson (e : EnvCreate) : Json :=
  Json.obj ([("name", Json.str e.Name), ("use_retention", Json.bool e.UseRetention)]
    ++ omitEmpty "retention_configuration" GoMap.toJson e.RetentionConfiguration)

def EnvRead.toJson (e : EnvRead) : Json :=
  Json.obj ([("id", Json.str e.ID), ("name", Json.str e.Name),
      ("use_retention", Json.bool e.UseRetention)]
    ++ omitEmpty "retention_configuration" GoMap.toJson e.RetentionConfiguration)

def EnvUpdate.toJson (e : EnvUpdate) : Json :=
  Json.obj (omitEmpty "name" Json.str e.Name
    ++ omitEmpty "use_retention" Json.bool e.UseRetention
    ++ omitEmpty "retention_configuration" GoMap.toJson e.RetentionConfiguration)

/-- The zero value of `EnvRead` (`var result EnvRead`). -/
def EnvRead.zero : EnvRead :=
  { ID := "", Name := "", UseRetention := false, RetentionConfiguration := none }

/-- Decoding one object member into an `EnvRead`, by the `json` tags of its fields; a key
that selects no field is skipped. -/
def EnvRead.setField (r : EnvRead) (key : String) (v : Json) : Except GoError EnvRead :=
  let k := gojson.foldName key
  if k = "id" then
    (gojson.intoString "EnvRead.id" "string" r.ID v).map (fun x => { r with ID := x })
  else if k = "name" then
    (gojson.intoString "EnvRead.name" "string" r.Name v).map (fun x => { r with Name := x })
  else if k = "use_retention" then
    (gojson.intoBool "EnvRead.use_retention" r.UseRetention v).map
      (fun x => { r with UseRetention := x })
  else if k = "retention_configuration" then
    (gojson.intoMapPtr "EnvRead.retention_configuration" "client.BrokerConfiguration"
      r.RetentionConfiguration v).map (fun x => { r with RetentionConfiguration := x })
  else .ok r

/-- CreateEnv creates a new environment. -/
def CreateEnv (rt : Runtime) (c : Client) (env : Option EnvCreate) : Call EnvRead :=
  match doRequest rt c http.MethodPost "/envs/" (some (ptrJson EnvCreate.toJson env)) with
  | ⟨sent, .error err⟩ => ⟨sent, none, some err⟩
  | ⟨sent, .ok resp⟩ =>
    match checkResponse resp with
    | some err => ⟨sent, none, some err⟩
    | none => readResult rt "client.EnvRead" EnvRead.setField EnvRead.zero sent resp

/-- GetEnv retrieves an environment by ID. -/
def GetEnv (rt : Runtime) (c : Client) (envID : String) : Call EnvRead :=
  match doRequest rt c http.MethodGet ("/envs/" ++ envID) none with
  | ⟨sent, .error err⟩ => ⟨sent, none, some err⟩
  | ⟨sent, .ok resp⟩ =>
    if resp.StatusCode = http.StatusNotFound then ⟨sent, none, none⟩
    else
      match checkResponse resp with
      | some err => ⟨sent, none, some err⟩
      | none => readResult rt "client.EnvRead" EnvRead.setField EnvRead.zero sent resp

/-- UpdateEnv updates an existing environment. -/
def UpdateEnv (rt : Runtime) (c : Client) (envID : String) (env : Option EnvUpdate) :
    Call EnvRead :=
  match doRequest rt c http.MethodPatch ("/envs/" ++ envID)
      (some (ptrJson EnvUpdate.toJson env)) with
  | ⟨sent, .error err⟩ => ⟨sent, none, some err⟩
  | ⟨sent, .ok resp⟩ =>
    match checkResponse resp with
    | some err => ⟨sent, none, some err⟩
    | none => readResult rt "client.EnvRead" EnvRead.setField EnvRead.zero sent resp

end client

/-! ## internal/client: teams (team.go) -/

namespace client

/-- TeamCreate represents the request to create a team. -/
structure TeamCreate where
  Name : String
  Description : String
  EnvID : Option String
deriving DecidableEq

/-- TeamUpdate represents the request to update a team. -/
structure TeamUpdate where
  Name : Option String
  Description : Option String
  EnvID : Option String
deriving DecidableEq

/-- TeamRead represents a team response. -/
structure TeamRead where
  ID : String
  Name : String
  Description : String
  EnvID : Option String
deriving DecidableEq

def TeamCreate.toJson (t : TeamCreate) : Json :=
  Json.obj ([("name", Json.str t.Name), ("description", Json.str t.Description)]
    ++ omitEmpty "env_id" Json.str t.EnvID)

def TeamUpdate.toJson (t : TeamUpdate) : Json :=
  Json.obj (omitEmpty "name" Json.str t.Name
    ++ omitEmpty "description" Json.str t.Description
    ++ omitEmpty "env_id" Json.str t.EnvID)

def TeamRead.toJson (t : TeamRead) : Json :=
  Json.obj [("id", Json.str t.ID), ("name", Json.str t.Name),
    ("description", Json.str t.Description), ("env_id", ptrJson Json.str t.EnvID)]

/-- The zero value of `TeamRead`. -/
def TeamRead.zero : TeamRead :=
  { ID := "", Name := "", Description := "", EnvID := none }

/-- Decoding one object member into a `TeamRead`, by the `json` tags of its fields. -/
def TeamRead.setField (r : TeamRead) (key : String) (v : Json) : Except GoError TeamRead :=
  let k := gojson.foldName key
  if k = "id" then
    (gojson.intoString "TeamRead.id" "string" r.ID v).map (fun x => { r with ID := x })
  else if k = "name" then
    (gojson.intoString "TeamRead.name" "string" r.Name v).map (fun x => { r with Name := x })
  else if k = "description" then
    (gojson.intoString "TeamRead.description" "string" r.Description v).map
      (fun x => { r with Description := x })
  else if k = "env_id" then
    (gojson.intoStringPtr "TeamRead.env_id" v).map (fun x => { r with EnvID := x })
  else .ok r

/-- CreateTeam creates a new team. -/
def CreateTeam (rt : Runtime) (c : Client) (team : Option TeamCreate) : Call TeamRead :=
  match doRequest rt c http.MethodPost "/teams/" (some (ptrJson TeamCreate.toJson team)) with
  | ⟨sent, .error err⟩ => ⟨sent, none, some err⟩
  | ⟨sent, .ok resp⟩ =>
    match checkResponse resp with
    | some err => ⟨sent, none, some err⟩
    | none => readResult rt "client.TeamRead" TeamRead.setField TeamRead.zero sent resp

/-- GetTeam retrieves a team by ID. -/
def GetTeam (rt : Runtime) (c : Client) (teamID : String) : Call TeamRead :=
  let path := "/teams/" ++ teamID
  match doRequest rt c http.MethodGet path none with
  | ⟨sent, .error err⟩ => ⟨sent, none, some err⟩
  | ⟨sent, .ok resp⟩ =>
    if resp.StatusCode = http.StatusNotFound then ⟨sent, none, none⟩
    else
      match checkResponse resp with
      | some err => ⟨sent, none, some err⟩
      | none => readResult rt "client.TeamRead" TeamRead.setField TeamRead.zero sent resp

/-- UpdateTeam updates an existing team. -/
def UpdateTeam (rt : Runtime) (c : Client) (teamID : String) (team : Option TeamUpdate) :
    Call TeamRead :=
  let path := "/teams/" ++ teamID
  match doRequest rt c http.MethodPatch path (some (ptrJson TeamUpdate.toJson team)) with
  | ⟨sent, .error err⟩ => ⟨sent, none, some err⟩
  | ⟨sent, .ok resp⟩ =>
    match checkResponse resp with
    | some err => ⟨sent, none, some err⟩
    | none => readResult rt "client.TeamRead" TeamRead.setField TeamRead.zero sent resp

/-- DeleteTeam deletes a team by ID. -/
def DeleteTeam (rt : Runtime) (c : Client) (teamID : String) : CallErr :=
  let path := "/teams/" ++ teamID
  match doRequest rt c http.MethodDelete path none with
  | ⟨sent, .error err⟩ => ⟨sent, some err⟩
  | ⟨sent, .ok resp⟩ =>
    if resp.StatusCode = http.StatusNotFound then ⟨sent, none⟩
    else
      match checkResponse resp with
      | some err => ⟨sent, some err⟩
      | none => ⟨sent, none⟩

end client

/-! ## internal/client: pipelines (pipeline.go) -/

namespace client

/-- PipelineState represents the state of a pipeline. -/
abbrev PipelineState := String

def PipelineStateDraft : PipelineState := "draft"
def PipelineStatePaused : PipelineState := "paused"
def PipelineStateLive : PipelineState := "live"
def PipelineStateError : PipelineState := "error"
def PipelineStateBuilding : PipelineState := "building"

/-- PipelineConfiguration represents the configuration structure for a pipeline. -/
structure PipelineConfiguration where
  SourceName : String
  SourceType : Option String
  SourceConfig : GoMap
  TargetName : String
  TargetType : Option String
  TargetConfig : GoMap
  SMTName : String
  SMTConfig : GoSlice
  DraftStep : String

/-- PipelineCreate represents the request to create a pipeline. -/
structure PipelineCreate where
  Name : String
  TeamID : String
  State : PipelineState
  JSONConfiguration : Option PipelineConfiguration

/-- PipelineUpdate represents the request to update a pipeline. -/
structure PipelineUpdate where
  Name : Option String
  TeamID : Option String
  State : Option PipelineState
  JSONConfiguration : Option PipelineConfiguration

/-- PipelineRead represents a pipeline response. -/
structure PipelineRead where
  ID : String
  Name : String
  State : PipelineState
  TeamID : String
  TeamName : String
  JSONConfiguration : Option PipelineConfiguration

def PipelineConfiguration.toJson (p : PipelineConfiguration) : Json :=
  Json.obj ([("source_name", Json.str p.SourceName)]
    ++ omitEmpty "source_type" Json.str p.SourceType
    ++ [("source_config", GoMap.toJson p.SourceConfig), ("target_name", Json.str p.TargetName)]
    ++ omitEmpty "target_type" Json.str p.TargetType
    ++ [("target_config", GoMap.toJson p.TargetConfig), ("smt_name", Json.str p.SMTName),
        ("smt_config", GoSlice.toJson p.SMTConfig), ("draft_step", Json.str p.DraftStep)])

def PipelineCreate.toJson (p : PipelineCreate) : Json :=
  Json.obj [("name", Json.str p.Name), ("team_id", Json.str p.TeamID),
    ("state", Json.str p.State),
    ("json_configuration", ptrJson PipelineConfiguration.toJson p.JSONConfiguration)]

def PipelineUpdate.toJson (p : PipelineUpdate) : Json :=
  Json.obj (omitEmpty "name" Json.str p.Name
    ++ omitEmpty "team_id" Json.str p.TeamID
    ++ omitEmpty "state" Json.str p.State
    ++ omitEmpty "json_configuration" PipelineConfiguration.toJson p.JSONConfiguration)

def PipelineRead.toJson (p : PipelineRead) : Json :=
  Json.obj [("id", Json.str p.ID), ("name", Json.str p.Name), ("state", Json.str p.State),
    ("team_id", Json.str p.TeamID), ("team_name", Json.str p.TeamName),
    ("json_configuration", ptrJson PipelineConfiguration.toJson p.JSONConfiguration)]

/-- The zero value of `PipelineConfiguration`. -/
def PipelineConfiguration.zero : PipelineConfiguration :=
  { SourceName := "", SourceType := none, SourceConfig := none, TargetName := "",
    TargetType := none, TargetConfig := none, SMTName := "", SMTConfig := none,
    DraftStep := "" }

/-- The zero value of `PipelineRead`. -/
def PipelineRead.zero : PipelineRead :=
  { ID := "", Name := "", State := "", TeamID := "", TeamName := "",
    JSONConfiguration := none }

/-- Decoding one object member into a `PipelineConfiguration`, by the `json` tags. -/
def PipelineConfiguration.setField (r : PipelineConfiguration) (key : String) (v : Json) :
    Except GoError PipelineConfiguration :=
  let k := gojson.foldName key
  if k = "source_name" then
    (gojson.intoString "PipelineConfiguration.source_name" "string" r.SourceName v).map
      (fun x => { r with SourceName := x })
  else if k = "source_type" then
    (gojson.intoStringPtr "PipelineConfiguration.source_type" v).map
      (fun x => { r with SourceType := x })
  else if k = "source_config" then
    (gojson.intoMap "PipelineConfiguration.source_config" "map[string]interface {}"
      r.SourceConfig v).map (fun x => { r with SourceConfig := x })
  else if k = "target_name" then
    (gojson.intoString "PipelineConfiguration.target_name" "string" r.TargetName v).map
      (fun x => { r with TargetName := x })
  else if k = "target_type" then
    (gojson.intoStringPtr "PipelineConfiguration.target_type" v).map
      (fun x => { r with TargetType := x })
  else if k = "target_config" then
    (gojson.intoMap "PipelineConfiguration.target_config" "map[string]interface {}"
      r.TargetConfig v).map (fun x => { r with TargetConfig := x })
  else if k = "smt_name" then
    (gojson.intoString "PipelineConfiguration.smt_name" "string" r.SMTName v).map
      (fun x => { r with SMTName := x })
  else if k = "smt_config" then
    (gojson.intoSlice "PipelineConfiguration.smt_config" v).map
      (fun x => { r with SMTConfig := x })
  else if k = "draft_step" then
    (gojson.intoString "PipelineConfiguration.draft_step" "string" r.DraftStep v).map
      (fun x => { r with DraftStep := x })
  else .ok r

/-- Decoding into a field of type `*PipelineConfiguration`: `null` sets the pointer to nil, an
object is decoded into the pointed-to struct (allocated, zero-valued, when the pointer is
nil). -/
def intoConfigPtr (field : String) (cur : Option PipelineConfiguration) :
    Json → Except GoError (Option PipelineConfiguration)
  | Json.null => .ok none
  | Json.obj ms =>
    (gojson.object PipelineConfiguration.setField (cur.getD PipelineConfiguration.zero) ms).map
      some
  | v => .error (gojson.typeError v field "client.PipelineConfiguration")

/-- Decoding one object member into a `PipelineRead`, by the `json` tags of its fields. -/
def PipelineRead.setField (r : PipelineRead) (key : String) (v : Json) :
    Except GoError PipelineRead :=
  let k := gojson.foldName key
  if k = "id" then
    (gojson.intoString "PipelineRead.id" "string" r.ID v).map (fun x => { r with ID := x })
  else if k = "name" then
    (gojson.intoString "PipelineRead.name" "string" r.Name v).map
      (fun x => { r with Name := x })
  else if k = "state" then
    (gojson.intoString "PipelineRead.state" "client.PipelineState" r.State v).map
      (fun x => { r with State := x })
  else if k = "team_id" then
    (gojson.intoString "PipelineRead.team_id" "string" r.TeamID v).map
      (fun x => { r with TeamID := x })
  else if k = "team_name" then
    (gojson.intoString "PipelineRead.team_name" "string" r.TeamName v).map
      (fun x => { r with TeamName := x })
  else if k = "json_configuration" then
    (intoConfigPtr "PipelineRead.json_configuration" r.JSONConfiguration v).map
      (fun x => { r with JSONConfiguration := x })
  else .ok r

/-- CreatePipeline creates a new pipeline. -/
def CreatePipeline (rt : Runtime) (c : Client) (pipeline : Option PipelineCreate) :
    Call PipelineRead :=
  match doRequest rt c http.MethodPost "/pipelines/"
      (some (ptrJson PipelineCreate.toJson pipeline)) with
  | ⟨sent, .error err⟩ => ⟨sent, none, some err⟩
  | ⟨sent, .ok resp⟩ =>
    match checkResponse resp with
    | some err => ⟨sent, none, some err⟩
    | none =>
      readResult rt "client.PipelineRead" PipelineRead.setField PipelineRead.zero sent resp

/-- GetPipeline retrieves a pipeline by ID. -/
def GetPipeline (rt : Runtime) (c : Client) (pipelineID : String) : Call PipelineRead :=
  let path := "/pipelines/" ++ pipelineID
  match doRequest rt c http.MethodGet path none with
  | ⟨sent, .error err⟩ => ⟨sent, none, some err⟩
  | ⟨sent, .ok resp⟩ =>
    if resp.StatusCode = http.StatusNotFound ∨ resp.StatusCode = http.StatusForbidden then
      ⟨sent, none, none⟩
    else
      match checkResponse resp with
      | some err => ⟨sent, none, some err⟩
      | none =>
        readResult rt "client.PipelineRead" PipelineRead.setField PipelineRead.zero sent resp

/-- UpdatePipeline updates an existing pipeline. -/
def UpdatePipeline (rt : Runtime) (c : Client) (pipelineID : String)
    (pipeline : Option PipelineUpdate) : Call PipelineRead :=
  let path := "/pipelines/" ++ pipelineID
  match doRequest rt c http.MethodPatch path
      (some (ptrJson PipelineUpdate.toJson pipeline)) with
  | ⟨sent, .error err⟩ => ⟨sent, none, some err⟩
  | ⟨sent, .ok resp⟩ =>
    match checkResponse resp with
    | some err => ⟨sent, none, some err⟩
    | none =>
      readResult rt "client.PipelineRead" PipelineRead.setField PipelineRead.zero sent resp

/-- DeletePipeline deletes a pipeline by ID. -/
def DeletePipeline (rt : Runtime) (c : Client) (pipelineID : String) : CallErr :=
  let path := "/pipelines/" ++ pipelineID
  match doRequest rt c http.MethodDelete path none with
  | ⟨sent, .error err⟩ => ⟨sent, some err⟩
  | ⟨sent, .ok resp⟩ =>
    if resp.StatusCode = http.StatusNotFound then ⟨sent, none⟩
    else
      match checkResponse resp with
      | some err => ⟨sent, some err⟩
      | none => ⟨sent, none⟩

end client

/-! ## Terraform plugin framework: attribute values, diagnostics, handler responses -/

/-- An attribute value of the framework (`types.String`, `types.Bool`, which name `basetypes.StringValue`
and `basetypes.BoolValue`): null, unknown, or a
known value. -/
inductive basetypes.Attr (α : Type) where
  | null
  | unknown
  | known (v : α)
deriving DecidableEq

abbrev basetypes.StringValue := basetypes.Attr String
abbrev basetypes.BoolValue := basetypes.Attr Bool

def types.StringValue (s : String) : basetypes.StringValue := .known s
def types.StringNull : basetypes.StringValue := .null
def types.BoolValue (b : Bool) : basetypes.BoolValue := .known b

namespace basetypes.Attr

def IsNull {α : Type} : basetypes.Attr α → Bool
  | null => true
  | _ => false

def IsUnknown {α : Type} : basetypes.Attr α → Bool
  | unknown => true
  | _ => false

/-- Equal: same null, unknown or known status and, when known, the same value. -/
def Equal {α : Type} [DecidableEq α] (a b : basetypes.Attr α) : Bool := decide (a = b)

/-- ValueString: the known value, `""` for null and unknown. -/
def ValueString : basetypes.Attr String → String
  | known v => v
  | _ => ""

/-- ValueBool: the known value, `false` for null and unknown. -/
def ValueBool : basetypes.Attr Bool → Bool
  | known v => v
  | _ => false

end basetypes.Attr

namespace diag

inductive Severity where
  | Error
  | Warning
deriving DecidableEq

/-- One diagnostic; `Path` is the attribute path of an attribute diagnostic. -/
structure Diagnostic where
  Severity : Severity
  Summary : String
  Detail : String
  Path : Option String
deriving DecidableEq

abbrev Diagnostics := List Diagnostic

def AddError (ds : Diagnostics) (summary detail : String) : Diagnostics :=
  ds ++ [⟨Severity.Error, summary, detail, none⟩]

def AddAttributeError (ds : Diagnostics) (path summary detail : String) : Diagnostics :=
  ds ++ [⟨Severity.Error, summary, detail, some path⟩]

def AddWarning (ds : Diagnostics) (summary detail : String) : Diagnostics :=
  ds ++ [⟨Severity.Warning, summary, detail, none⟩]

def HasError (ds : Diagnostics) : Bool :=
  ds.any (fun d => d.Severity = Severity.Error)

end diag

namespace provider

/-- What a handler did to `resp.State`: left it as the framework passed it, wrote a model
with `State.Set`, or called `State.RemoveResource`. -/
inductive StateEffect (M : Type) where
  | kept
  | set (m : M)
  | removed

/-- What a handler leaves behind: its diagnostics, its effect on the tracked state, the
requests it issued, and whether it stopped on a nil pointer dereference.  The handlers take
the plan and the state as the models `req.Plan.Get` and `req.State.Get` decode. -/
structure Outcome (M : Type) where
  Diagnostics : diag.Diagnostics
  State : StateEffect M
  sent : List Request
  panicked : Bool

end provider

/-! ## internal/provider: the team resource (team_resource.go) -/

namespace provider

/-- The model teamResourceModel describes the resource data model. -/
structure teamResourceModel where
  ID : basetypes.StringValue
  Name : basetypes.StringValue
  Description : basetypes.StringValue
  EnvID : basetypes.StringValue
deriving DecidableEq

/-- The update request `teamResource.Update` builds from plan and state
(team_resource.go lines 185-206). -/
def teamResource.updateReq (plan state : teamResourceModel) : client.TeamUpdate :=
  let updateReq : client.TeamUpdate := { Name := none, Description := none, EnvID := none }
  let updateReq :=
    if !plan.Name.Equal state.Name then { updateReq with Name := some plan.Name.ValueString }
    else updateReq
  let updateReq :=
    if !plan.Description.Equal state.Description then
      { updateReq with Description := some plan.Description.ValueString }
    else updateReq
  let updateReq :=
    if !plan.EnvID.Equal state.EnvID then
      if !plan.EnvID.IsNull then { updateReq with EnvID := some plan.EnvID.ValueString }
      else { updateReq with EnvID := none }
    else updateReq
  updateReq

/-- The tracked state the team handlers write from a response, over the model `m`
(team_resource.go lines 219-226). -/
def teamResource.fromRead (m : teamResourceModel) (team : client.TeamRead) :
    teamResourceModel :=
  let m := { m with ID := types.StringValue team.ID }
  let m := { m with Name := types.StringValue team.Name }
  let m := { m with Description := types.StringValue team.Description }
  match team.EnvID with
  | some envID => { m with EnvID := types.StringValue envID }
  | none => { m with EnvID := types.StringNull }

/-- Update updates the resource. -/
def teamResource.Update (rt : Runtime) (c : client.Client) (plan state : teamResourceModel) :
    Outcome teamResourceModel :=
  let updateReq := teamResource.updateReq plan state
  match client.UpdateTeam rt c state.ID.ValueString (some updateReq) with
  | ⟨sent, _, some err⟩ =>
    { Diagnostics := diag.AddError [] "Error Updating Team"
        ("Could not update team " ++ state.ID.ValueString ++ ": " ++ err),
      State := .kept, sent := sent, panicked := false }
  | ⟨sent, none, none⟩ =>
    { Diagnostics := [], State := .kept, sent := sent, panicked := true }
  | ⟨sent, some team, none⟩ =>
    { Diagnostics := [], State := .set (teamResource.fromRead plan team), sent := sent,
      panicked := false }

end provider

/-! ## internal/provider: the environment resource (env_resource.go) -/

namespace provider

/-- The test `value == nil || value == ""` on a value of type `any`. -/
def isNilOrEmptyString : Json → Bool
  | Json.null => true
  | Json.str s => decide (s = "")
  | _ => false

/-- normalizeRetentionConfig filters the API response to only include non-empty/non-null
fields that would be meaningful in the Terraform configuration. -/
def normalizeRetentionConfig (config : client.BrokerConfiguration) : GoMap :=
  some ((config.getD []).foldl
    (fun normalized kv =>
      if isNilOrEmptyString kv.2 then normalized else GoMap.set kv.1 kv.2 normalized)
    [])

/-- The maps a program has allocated, by address.  A Go value of map type is a reference:
nil (`none`) or the address of one of these maps, so two values may name the same map. -/
abbrev MapHeap := List (List (String × Json))

/-- The map a value of map type refers to, as a value: nil stays nil. -/
def MapHeap.read (h : MapHeap) : Option Nat → GoMap
  | none => none
  | some a => some (h.getD a [])

/-- The entries `range` visits on a value of map type: none on the nil map. -/
def MapHeap.entries (h : MapHeap) (m : Option Nat) : List (String × Json) :=
  (h.read m).getD []

/-- The expression `make(map[string]any)`: a new, empty map at an address not in use. -/
def MapHeap.make (h : MapHeap) : MapHeap × Nat :=
  (h ++ [[]], h.length)

/-- The assignment `m[k] = v` through the reference `a`. -/
def MapHeap.assign (h : MapHeap) (a : Nat) (k : String) (v : Json) : MapHeap :=
  h.set a (GoMap.set k v (h.getD a []))

/-- The function normalizeRetentionConfig run on the program's memory, `config` being a
reference into it: the memory afterwards and the reference returned.  The statements are
those of the source, in order: `make`, the `range` over `config`, the `continue` on a nil or
empty value, the assignment into `normalized`. -/
def normalizeRetentionConfig.inMemory (h : MapHeap) (config : Option Nat) : MapHeap × Nat :=
  let made := h.make
  ((made.1.entries config).foldl
    (fun hp kv =>
      if isNilOrEmptyString kv.2 then hp else hp.assign made.2 kv.1 kv.2)
    made.1, made.2)

/-- The model envResourceModel describes the resource data model. -/
structure envResourceModel where
  ID : basetypes.StringValue
  Name : basetypes.StringValue
  UseRetention : basetypes.BoolValue
  RetentionConfiguration : basetypes.StringValue
deriving DecidableEq

/-- The statement `json.Unmarshal(..., &retentionConfig)` on a nil `BrokerConfiguration`:
`null` leaves the map nil, an object fills a new map, anything else is a type error. -/
def unmarshalBrokerConfiguration (rt : Runtime) (text : String) :
    Except GoError client.BrokerConfiguration :=
  match rt.parse text with
  | .error e => .error e
  | .ok Json.null => .ok none
  | .ok (Json.obj ms) => .ok (some (GoMap.setAll [] ms))
  | .ok v => .error (gojson.typeErrorTop v "client.BrokerConfiguration")

/-- The update request `envResource.Update` builds from plan and state, or the diagnostic
with which it returns early (env_resource.go lines 237-266). -/
def envResource.updateReq (rt : Runtime) (plan state : envResourceModel) :
    Except diag.Diagnostic client.EnvUpdate :=
  let updateReq : client.EnvUpdate :=
    { Name := none, UseRetention := none, RetentionConfiguration := none }
  let updateReq :=
    if !plan.Name.Equal state.Name then { updateReq with Name := some plan.Name.ValueString }
    else updateReq
  let updateReq :=
    if !plan.UseRetention.Equal state.UseRetention then
      { updateReq with UseRetention := some plan.UseRetention.ValueBool }
    else updateReq
  if !plan.RetentionConfiguration.Equal state.RetentionConfiguration then
    if !plan.RetentionConfiguration.IsNull && !plan.RetentionConfiguration.IsUnknown
        && plan.RetentionConfiguration.ValueString != "" then
      match unmarshalBrokerConfiguration rt plan.RetentionConfiguration.ValueString with
      | .error err =>
        .error ⟨diag.Severity.Error, "Invalid JSON",
          "Could not parse retention_configuration as JSON: " ++ err,
          some "retention_configuration"⟩
      | .ok retentionConfig =>
        .ok { updateReq with RetentionConfiguration := some retentionConfig }
    else .ok { updateReq with RetentionConfiguration := none }
  else .ok updateReq

/-- The tracked state the environment handlers write from a response, over the model `m`
whose ID has been set already, or the error of marshalling the retention configuration
(env_resource.go lines 279-295). -/
def envResource.fromRead (rt : Runtime) (m : envResourceModel) (env : client.EnvRead) :
    Except GoError envResourceModel :=
  let m := { m with Name := types.StringValue env.Name }
  let m := { m with UseRetention := types.BoolValue env.UseRetention }
  match env.RetentionConfiguration with
  | some config =>
    let normalizedConfig := normalizeRetentionConfig config
    match rt.marshal (GoMap.toJson normalizedConfig) with
    | .error err => .error err
    | .ok retentionJSON => .ok { m with RetentionConfiguration := types.StringValue retentionJSON }
  | none => .ok { m with RetentionConfiguration := types.StringNull }

/-- Update updates the resource. -/
def envResource.Update (rt : Runtime) (c : client.Client) (plan state : envResourceModel) :
    Outcome envResourceModel :=
  match envResource.updateReq rt plan state with
  | .error d => { Diagnostics := [d], State := .kept, sent := [], panicked := false }
  | .ok updateReq =>
    match client.UpdateEnv rt c state.ID.ValueString (some updateReq) with
    | ⟨sent, _, some err⟩ =>
      { Diagnostics := diag.AddError [] "Error Updating Environment"
          ("Could not update environment " ++ state.ID.ValueString ++ ": " ++ err),
        State := .kept, sent := sent, panicked := false }
    | ⟨sent, none, none⟩ =>
      { Diagnostics := [], State := .kept, sent := sent, panicked := true }
    | ⟨sent, some env, none⟩ =>
      match envResource.fromRead rt { plan with ID := types.StringValue env.ID } env with
      | .error err =>
        { Diagnostics := diag.AddError [] "Error Marshaling Retention Configuration"
            ("Could not marshal retention configuration: " ++ err),
          State := .kept, sent := sent, panicked := false }
      | .ok m => { Diagnostics := [], State := .set m, sent := sent, panicked := false }

end provider

/-! ## internal/provider: the pipeline resource (pipeline_resource.go) -/

namespace provider

/-- The model pipelineResourceModel describes the resource data model. -/
structure pipelineResourceModel where
  ID : basetypes.StringValue
  Name : basetypes.StringValue
  TeamID : basetypes.StringValue
  TeamName : basetypes.StringValue
  State : basetypes.StringValue
  JSONConfiguration : basetypes.StringValue
deriving DecidableEq

/-- The update request `pipelineResource.Update` builds from plan, state and the parsed
configuration (pipeline_resource.go lines 309-329). -/
def pipelineResource.updateReq (plan state : pipelineResourceModel)
    (config : client.PipelineConfiguration) : client.PipelineUpdate :=
  let updateReq : client.PipelineUpdate :=
    { Name := none, TeamID := none, State := none, JSONConfiguration := none }
  let updateReq :=
    if !plan.Name.Equal state.Name then { updateReq with Name := some plan.Name.ValueString }
    else updateReq
  let updateReq :=
    if !plan.TeamID.Equal state.TeamID then
      { updateReq with TeamID := some plan.TeamID.ValueString }
    else updateReq
  let updateReq :=
    if !plan.State.Equal state.State then
      { updateReq with State := some plan.State.ValueString }
    else updateReq
  let updateReq :=
    if !plan.JSONConfiguration.Equal state.JSONConfiguration then
      { updateReq with JSONConfiguration := some config }
    else updateReq
  updateReq

/-- The tracked state the pipeline handlers write from a response, over the model `m`
(pipeline_resource.go lines 342-346). -/
def pipelineResource.fromRead (m : pipelineResourceModel) (pipeline : client.PipelineRead) :
    pipelineResourceModel :=
  let m := { m with ID := types.StringValue pipeline.ID }
  let m := { m with Name := types.StringValue pipeline.Name }
  let m := { m with TeamID := types.StringValue pipeline.TeamID }
  let m := { m with TeamName := types.StringValue pipeline.TeamName }
  { m with State := types.StringValue pipeline.State }

/-- Update updates the resource. -/
def pipelineResource.Update (rt : Runtime) (c : client.Client)
    (plan state : pipelineResourceModel) : Outcome pipelineResourceModel :=
  match client.unmarshal rt "client.PipelineConfiguration"
      client.PipelineConfiguration.setField plan.JSONConfiguration.ValueString
      client.PipelineConfiguration.zero with
  | .error err =>
    { Diagnostics := diag.AddError [] "Invalid JSON Configuration"
        ("Could not parse json_configuration: " ++ err),
      State := .kept, sent := [], panicked := false }
  | .ok config =>
    let updateReq := pipelineResource.updateReq plan state config
    match client.UpdatePipeline rt c state.ID.ValueString (some updateReq) with
    | ⟨sent, _, some err⟩ =>
      { Diagnostics := diag.AddError [] "Error Updating Pipeline"
          ("Could not update pipeline " ++ state.ID.ValueString ++ ": " ++ err),
        State := .kept, sent := sent, panicked := false }
    | ⟨sent, none, none⟩ =>
      { Diagnostics := [], State := .kept, sent := sent, panicked := true }
    | ⟨sent, some pipeline, none⟩ =>
      { Diagnostics := [], State := .set (pipelineResource.fromRead plan pipeline),
        sent := sent, panicked := false }

end provider

/-! ## internal/provider: Create, Read and Delete of the team resource -/

namespace provider

/-- The create request `teamResource.Create` builds from the plan
(team_resource.go lines 101-110). -/
def teamResource.createReq (plan : teamResourceModel) : client.TeamCreate :=
  let createReq : client.TeamCreate :=
    { Name := plan.Name.ValueString, Description := plan.Description.ValueString,
      EnvID := none }
  if !plan.EnvID.IsNull then { createReq with EnvID := some plan.EnvID.ValueString }
  else createReq

/-- Create creates the resource. -/
def teamResource.Create (rt : Runtime) (c : client.Client) (plan : teamResourceModel) :
    Outcome teamResourceModel :=
  let createReq := teamResource.createReq plan
  match client.CreateTeam rt c (some createReq) with
  | ⟨sent, _, some err⟩ =>
    { Diagnostics := diag.AddError [] "Error Creating Team"
        ("Could not create team: " ++ err),
      State := .kept, sent := sent, panicked := false }
  | ⟨sent, none, none⟩ =>
    { Diagnostics := [], State := .kept, sent := sent, panicked := true }
  | ⟨sent, some team, none⟩ =>
    { Diagnostics := [], State := .set (teamResource.fromRead plan team), sent := sent,
      panicked := false }

/-- Read refreshes the resource state. -/
def teamResource.Read (rt : Runtime) (c : client.Client) (state : teamResourceModel) :
    Outcome teamResourceModel :=
  match client.GetTeam rt c state.ID.ValueString with
  | ⟨sent, _, some err⟩ =>
    { Diagnostics := diag.AddError [] "Error Reading Team"
        ("Could not read team " ++ state.ID.ValueString ++ ": " ++ err),
      State := .kept, sent := sent, panicked := false }
  | ⟨sent, none, none⟩ =>
    { Diagnostics := [], State := .removed, sent := sent, panicked := false }
  | ⟨sent, some team, none⟩ =>
    let state := { state with Name := types.StringValue team.Name }
    let state := { state with Description := types.StringValue team.Description }
    let state :=
      match team.EnvID with
      | some envID => { state with EnvID := types.StringValue envID }
      | none => { state with EnvID := types.StringNull }
    { Diagnostics := [], State := .set state, sent := sent, panicked := false }

/-- Delete deletes the resource. -/
def teamResource.Delete (rt : Runtime) (c : client.Client) (state : teamResourceModel) :
    Outcome teamResourceModel :=
  match client.DeleteTeam rt c state.ID.ValueString with
  | ⟨sent, some err⟩ =>
    { Diagnostics := diag.AddError [] "Error Deleting Team"
        ("Could not delete team " ++ state.ID.ValueString ++ ": " ++ err),
      State := .kept, sent := sent, panicked := false }
  | ⟨sent, none⟩ => { Diagnostics := [], State := .kept, sent := sent, panicked := false }

end provider

/-! ## internal/provider: Read and Delete of the environment resource -/

namespace provider

/-- Read refreshes the resource state. -/
def envResource.Read (rt : Runtime) (c : client.Client) (state : envResourceModel) :
    Outcome envResourceModel :=
  match client.GetEnv rt c state.ID.ValueString with
  | ⟨sent, _, some err⟩ =>
    { Diagnostics := diag.AddError [] "Error Reading Environment"
        ("Could not read environment " ++ state.ID.ValueString ++ ": " ++ err),
      State := .kept, sent := sent, panicked := false }
  | ⟨sent, none, none⟩ =>
    { Diagnostics := [], State := .removed, sent := sent, panicked := false }
  | ⟨sent, some env, none⟩ =>
    match envResource.fromRead rt state env with
    | .error err =>
      { Diagnostics := diag.AddError [] "Error Marshaling Retention Configuration"
          ("Could not marshal retention configuration: " ++ err),
        State := .kept, sent := sent, panicked := false }
    | .ok m => { Diagnostics := [], State := .set m, sent := sent, panicked := false }

/-- Delete deletes the resource.  There is no call to the client in it; the runtime and the
client are parameters only because the handler has them at hand. -/
def envResource.Delete (_rt : Runtime) (_c : client.Client) (state : envResourceModel) :
    Outcome envResourceModel :=
  { Diagnostics := diag.AddWarning [] "Environment Deletion Not Supported"
      ("The Popsink API does not support deleting environments. Environment "
        ++ state.ID.ValueString
        ++ " has been removed from Terraform state but still exists in the API. "
        ++ "Please manage environment deletion through the Popsink web interface "
        ++ "or API directly."),
    State := .kept, sent := [], panicked := false }

end provider

/-! ## internal/provider: Read and Delete of the pipeline resource, its validators -/

namespace provider

/-- Read refreshes the resource state. -/
def pipelineResource.Read (rt : Runtime) (c : client.Client) (state : pipelineResourceModel) :
    Outcome pipelineResourceModel :=
  match client.GetPipeline rt c state.ID.ValueString with
  | ⟨sent, _, some err⟩ =>
    { Diagnostics := diag.AddError [] "Error Reading Pipeline"
        ("Could not read pipeline " ++ state.ID.ValueString ++ ": " ++ err),
      State := .kept, sent := sent, panicked := false }
  | ⟨sent, none, none⟩ =>
    { Diagnostics := [], State := .removed, sent := sent, panicked := false }
  | ⟨sent, some pipeline, none⟩ =>
    let state := { state with Name := types.StringValue pipeline.Name }
    let state := { state with TeamID := types.StringValue pipeline.TeamID }
    let state := { state with TeamName := types.StringValue pipeline.TeamName }
    let state := { state with State := types.StringValue pipeline.State }
    { Diagnostics := [], State := .set state, sent := sent, panicked := false }

/-- Delete deletes the resource. -/
def pipelineResource.Delete (rt : Runtime) (c : client.Client)
    (state : pipelineResourceModel) : Outcome pipelineResourceModel :=
  match client.DeletePipeline rt c state.ID.ValueString with
  | ⟨sent, some err⟩ =>
    { Diagnostics := diag.AddError [] "Error Deleting Pipeline"
        ("Could not delete pipeline " ++ state.ID.ValueString ++ ": " ++ err),
      State := .kept, sent := sent, panicked := false }
  | ⟨sent, none⟩ => { Diagnostics := [], State := .kept, sent := sent, panicked := false }

/-- Valid connector types based on the OpenAPI schema. -/
def validConnectorTypes : List String :=
  ["JOB_SMT", "KAFKA_SOURCE", "ORACLE_TARGET"]

/-- Valid pipeline states. -/
def validPipelineStates : List String :=
  ["draft", "paused", "live", "error", "building"]

/-- The text the verb `%v` prints for a `[]string`. -/
def fmtStrings (xs : List String) : String :=
  "[" ++ " ".intercalate xs ++ "]"

/-- The loop over `validConnectorTypes` that looks for a connector type
(pipeline_resource.go lines 53-59 and 71-77). -/
def isValidConnectorType (connectorType : String) : Bool :=
  validConnectorTypes.any (fun validType => connectorType = validType)

/-- ValidateString performs the validation.  The result is the list of diagnostics it adds
to the response; `path` is `request.Path`. -/
def jsonConnectorTypeValidator.ValidateString (rt : Runtime) (path : String)
    (configValue : basetypes.StringValue) : diag.Diagnostics :=
  if configValue.IsNull || configValue.IsUnknown then []
  else
    let jsonStr := configValue.ValueString
    match client.unmarshal rt "client.PipelineConfiguration"
        client.PipelineConfiguration.setField jsonStr client.PipelineConfiguration.zero with
    | .error err =>
      diag.AddAttributeError [] path "Invalid JSON"
        ("Configuration must be valid JSON: " ++ err)
    | .ok config =>
      let diagnostics : diag.Diagnostics := []
      let diagnostics :=
        match config.SourceType with
        | some sourceType =>
          if !isValidConnectorType sourceType then
            diag.AddAttributeError diagnostics path "Invalid Source Type"
              ("source_type must be one of: " ++ fmtStrings validConnectorTypes
                ++ ", got: " ++ sourceType)
          else diagnostics
        | none => diagnostics
      let diagnostics :=
        match config.TargetType with
        | some targetType =>
          if !isValidConnectorType targetType then
            diag.AddAttributeError diagnostics path "Invalid Target Type"
              ("target_type must be one of: " ++ fmtStrings validConnectorTypes
                ++ ", got: " ++ targetType)
          else diagnostics
        | none => diagnostics
      diagnostics

end provider

/-- The check of `stringvalidator.OneOf(values...)` on a known string: the value is accepted
when it equals one of the values. -/
def stringvalidator.OneOf (values : List String) (value : String) : Bool :=
  values.any (fun v => value = v)

/-! ## internal/provider: the provider (provider.go) -/

namespace provider

/-- The model popsinkProviderModel describes the provider data model. -/
structure popsinkProviderModel where
  BaseURL : basetypes.StringValue
  Token : basetypes.StringValue
deriving DecidableEq

/-- What `Configure` leaves in its response: the diagnostics, and the client made available
to resources and data sources (`none` when the fields are left unset). -/
structure ConfigureResponse where
  Diagnostics : diag.Diagnostics
  DataSourceData : Option client.Client
  ResourceData : Option client.Client
deriving DecidableEq

/-- The base URL and the token `Configure` works with: the environment variables,
overridden by the provider configuration if set (provider.go lines 74-85).  `getenv` is
`os.Getenv`. -/
def popsinkProvider.resolve (getenv : String → String) (config : popsinkProviderModel) :
    String × String :=
  let baseURL := getenv "POPSINK_BASE_URL"
  let token := getenv "POPSINK_TOKEN"
  let baseURL := if !config.BaseURL.IsNull then config.BaseURL.ValueString else baseURL
  let token := if !config.Token.IsNull then config.Token.ValueString else token
  (baseURL, token)

/-- Configure prepares the provider with the user-provided configuration.  It takes the
configuration as the model `req.Config.Get` decodes. -/
def popsinkProvider.Configure (getenv : String → String) (config : popsinkProviderModel) :
    ConfigureResponse :=
  let (baseURL, token) := popsinkProvider.resolve getenv config
  let diagnostics : diag.Diagnostics := []
  let diagnostics :=
    if baseURL = "" then
      diag.AddAttributeError diagnostics "base_url" "Missing Base URL"
        ("The provider cannot create the Popsink API client as there is a missing or empty "
          ++ "value for the base URL. "
          ++ "Set the base_url value in the configuration or use the POPSINK_BASE_URL "
          ++ "environment variable. "
          ++ "If either is already set, ensure the value is not empty.")
    else diagnostics
  let diagnostics :=
    if token = "" then
      diag.AddAttributeError diagnostics "token" "Missing API Token"
        ("The provider cannot create the Popsink API client as there is a missing or empty "
          ++ "value for the API token. "
          ++ "Set the token value in the configuration or use the POPSINK_TOKEN "
          ++ "environment variable. "
          ++ "If either is already set, ensure the value is not empty.")
    else diagnostics
  if diag.HasError diagnostics then
    { Diagnostics := diagnostics, DataSourceData := none, ResourceData := none }
  else
    let c := client.NewClient baseURL token
    { Diagnostics := diagnostics, DataSourceData := some c, ResourceData := some c }

end provider

/-! ## internal/provider: Create of the pipeline resource -/

namespace provider

/-- Create creates the resource. -/
def pipelineResource.Create (rt : Runtime) (c : client.Client) (plan : pipelineResourceModel) :
    Outcome pipelineResourceModel :=
  match client.unmarshal rt "client.PipelineConfiguration"
      client.PipelineConfiguration.setField plan.JSONConfiguration.ValueString
      client.PipelineConfiguration.zero with
  | .error err =>
    { Diagnostics := diag.AddError [] "Invalid JSON Configuration"
        ("Could not parse json_configuration: " ++ err),
      State := .kept, sent := [], panicked := false }
  | .ok config =>
    let createReq : client.PipelineCreate :=
      { Name := plan.Name.ValueString, TeamID := plan.TeamID.ValueString,
        State := plan.State.ValueString, JSONConfiguration := some config }
    match client.CreatePipeline rt c (some createReq) with
    | ⟨sent, _, some err⟩ =>
      { Diagnostics := diag.AddError [] "Error Creating Pipeline"
          ("Could not create pipeline: " ++ err),
        State := .kept, sent := sent, panicked := false }
    | ⟨sent, none, none⟩ =>
      { Diagnostics := [], State := .kept, sent := sent, panicked := true }
    | ⟨sent, some pipeline, none⟩ =>
      { Diagnostics := [], State := .set (pipelineResource.fromRead plan pipeline),
        sent := sent, panicked := false }

end provider

/-! ## internal/client: the operations the client offers -/

namespace client

/-- The exported operations of the client, with their arguments: the methods declared on
`*Client` in env.go, team.go and pipeline.go.  (env.go declares no delete operation; its
closing note says that DeleteEnv is not implemented.) -/
inductive Operation where
  | CreateEnv (env : Option EnvCreate)
  | GetEnv (envID : String)
  | UpdateEnv (envID : String) (env : Option EnvUpdate)
  | CreateTeam (team : Option TeamCreate)
  | GetTeam (teamID : String)
  | UpdateTeam (teamID : String) (team : Option TeamUpdate)
  | DeleteTeam (teamID : String)
  | CreatePipeline (pipeline : Option PipelineCreate)
  | GetPipeline (pipelineID : String)
  | UpdatePipeline (pipelineID : String) (pipeline : Option PipelineUpdate)
  | DeletePipeline (pipelineID : String)

/-- The requests an operation of the client issues. -/
def Operation.sent (rt : Runtime) (c : Client) : Operation → List Request
  | .CreateEnv env => (client.CreateEnv rt c env).sent
  | .GetEnv envID => (client.GetEnv rt c envID).sent
  | .UpdateEnv envID env => (client.UpdateEnv rt c envID env).sent
  | .CreateTeam team => (client.CreateTeam rt c team).sent
  | .GetTeam teamID => (client.GetTeam rt c teamID).sent
  | .UpdateTeam teamID team => (client.UpdateTeam rt c teamID team).sent
  | .DeleteTeam teamID => (client.DeleteTeam rt c teamID).sent
  | .CreatePipeline pipeline => (client.CreatePipeline rt c pipeline).sent
  | .GetPipeline pipelineID => (client.GetPipeline rt c pipelineID).sent
  | .UpdatePipeline pipelineID pipeline => (client.UpdatePipeline rt c pipelineID pipeline).sent
  | .DeletePipeline pipelineID => (client.DeletePipeline rt c pipelineID).sent

end client

/-! ## Vocabulary of the statements -/

/-- The exchange the statements speak of as "the server answers with `resp`": the request
`method path` with this body is created, handed to `HTTPClient.Do`, and answered by `resp`. -/
def client.Answered (rt : Runtime) (c : client.Client) (method path : String)
    (body : Option Json) (resp : Response) : Prop :=
  client.marshalErr rt body = none ∧
  rt.newRequestErr method (c.BaseURL ++ path) = none ∧
  rt.roundTrip (client.buildRequest c method path body) = .ok resp

/-- The request `method path` with this body gets as far as `HTTPClient.Do`: its body
marshals and `http.NewRequestWithContext` accepts method and URL. -/
def client.Created (rt : Runtime) (c : client.Client) (method path : String)
    (body : Option Json) : Prop :=
  client.marshalErr rt body = none ∧ rt.newRequestErr method (c.BaseURL ++ path) = none

instance client.Created.decidable (rt : Runtime) (c : client.Client) (method path : String)
    (body : Option Json) : Decidable (client.Created rt c method path body) :=
  inferInstanceAs (Decidable (_ ∧ _))

/-- The requests `sent` by a call amount to issuing `method path` with this body: every
request sent has this method, the URL base URL ++ path and this body; exactly one request is
sent when the request gets as far as `HTTPClient.Do`, and none otherwise. -/
def client.Issues (rt : Runtime) (c : client.Client) (sent : List Request)
    (method path : String) (body : Option Json) : Prop :=
  (∀ req ∈ sent, req.Method = method ∧ req.URL = c.BaseURL ++ path ∧ req.Body = body) ∧
  (client.Created rt c method path body → ∃ req, sent = [req]) ∧
  (¬ client.Created rt c method path body → sent = [])

/-- The guarantee of `json.Marshal` on data that came from JSON: it does not fail. -/
def MarshalTotal (rt : Runtime) : Prop :=
  ∀ v : Json, ∃ text : String, rt.marshal v = .ok text

/-- The members of an object, in order; empty for any other value. -/
def Json.members : Json → List (String × Json)
  | Json.obj ms => ms
  | _ => []

/-- A runtime in the manner of the `httptest` servers of the client tests: every request is
created and is answered with the given status and body text; `value` is the result of the
JSON syntax layer on that text. -/
def testRuntime (status : Int) (body : String) (value : Except GoError Json) : Runtime :=
  { newRequestErr := fun _ _ => none
    roundTrip := fun _ => .ok ⟨status, ⟨body, none⟩⟩
    marshal := fun _ => .ok "(request body)"
    parse := fun text => if text = body then value else .error "invalid character" }

/-- The client of the client tests. -/
def testClient : client.Client := client.NewClient "https://api.example.com" "test-token"

/-- The number a string of decimal digits denotes. -/
def decimalValue (cs : List Char) : Nat :=
  cs.foldl (fun a c => 10 * a + (c.toNat - 48)) 0

/-- The integer a decimal numeral with an optional leading minus sign denotes: the reading
of what the verb `%d` prints. -/
def decimalInt : List Char → Int
  | '-' :: cs => - (decimalValue cs : Int)
  | cs => (decimalValue cs : Int)

/-! ## Sample inputs -/

namespace sample

/-- A server that accepts an update: status 200, body `{}`. -/
def okRuntime : Runtime := testRuntime 200 "\x7b\x7d" (.ok (Json.obj []))

/-- A tracked team and a plan that changes its description only. -/
def teamState : provider.teamResourceModel :=
  { ID := .known "team-123", Name := .known "test-team", Description := .known "old",
    EnvID := .null }

def teamPlan : provider.teamResourceModel :=
  { ID := .known "team-123", Name := .known "test-team", Description := .known "new",
    EnvID := .null }

/-- A tracked environment and a plan that switches retention on only. -/
def envState : provider.envResourceModel :=
  { ID := .known "env-123", Name := .known "test-env", UseRetention := .known false,
    RetentionConfiguration := .null }

def envPlan : provider.envResourceModel :=
  { ID := .known "env-123", Name := .known "test-env", UseRetention := .known true,
    RetentionConfiguration := .null }

/-- A tracked pipeline and a plan that changes its state only. -/
def pipelineState : provider.pipelineResourceModel :=
  { ID := .known "pipeline-123", Name := .known "test-pipeline", TeamID := .known "team-123",
    TeamName := .known "Test Team", State := .known "draft",
    JSONConfiguration := .known "\x7b\x7d" }

def pipelinePlan : provider.pipelineResourceModel :=
  { ID := .known "pipeline-123", Name := .known "test-pipeline", TeamID := .known "team-123",
    TeamName := .unknown, State := .known "live", JSONConfiguration := .known "\x7b\x7d" }

/-- The create and update requests of the client tests. -/
def envCreate : client.EnvCreate :=
  { Name := "test-env", UseRetention := true, RetentionConfiguration := none }

def envUpdate : client.EnvUpdate :=
  { Name := some "updated-env", UseRetention := none, RetentionConfiguration := none }

def teamCreate : client.TeamCreate :=
  { Name := "test-team", Description := "Test Description", EnvID := none }

def teamUpdate : client.TeamUpdate :=
  { Name := some "updated-team", Description := none, EnvID := none }

def pipelineCreate : client.PipelineCreate :=
  { Name := "test-pipeline", TeamID := "team-123", State := client.PipelineStateDraft,
    JSONConfiguration := none }

def pipelineUpdate : client.PipelineUpdate :=
  { Name := some "updated-pipeline", TeamID := none, State := none,
    JSONConfiguration := none }

/-- A server that refuses every request: status 403, body `forbidden`. -/
def forbiddenRuntime : Runtime := testRuntime 403 "forbidden" (.error "invalid character")

/-- The record the server of TestCreatePipeline answers with, and that server: status 201
and the JSON text of the record. -/
def pipelineRead : client.PipelineRead :=
  { ID := "pipeline-123", Name := "test-pipeline", State := client.PipelineStateDraft,
    TeamID := "team-123", TeamName := "Test Team", JSONConfiguration := none }

def createdRuntime : Runtime :=
  testRuntime 201
    ("\x7b\"id\":\"pipeline-123\",\"name\":\"test-pipeline\",\"state\":\"draft\","
      ++ "\"team_id\":\"team-123\",\"team_name\":\"Test Team\","
      ++ "\"json_configuration\":null\x7d\n")
    (.ok (client.PipelineRead.toJson pipelineRead))

/-- A server that answers a create request with status 201 and the body `{}`. -/
def emptyObjectRuntime : Runtime := testRuntime 201 "\x7b\x7d" (.ok (Json.obj []))

/-- A server that knows no resource: status 404, empty body (TestGetEnv_NotFound). -/
def notFoundRuntime : Runtime := testRuntime 404 "" (.error "unexpected end of JSON input")

/-- The record the server of TestCreateTeam answers with, and that server: status 201 and
the JSON text of the record. -/
def teamRead : client.TeamRead :=
  { ID := "team-123", Name := "test-team", Description := "Test Description", EnvID := none }

def teamCreatedRuntime : Runtime :=
  testRuntime 201
    ("\x7b\"id\":\"team-123\",\"name\":\"test-team\","
      ++ "\"description\":\"Test Description\",\"env_id\":null\x7d\n")
    (.ok (client.TeamRead.toJson teamRead))

/-- The plan of a new team without environment: the identifier is not known yet. -/
def newTeamPlan : provider.teamResourceModel :=
  { ID := .unknown, Name := .known "test-team", Description := .known "Test Description",
    EnvID := .null }

/-- An environment in which both variables of the provider are set. -/
def getenv (name : String) : String :=
  if name = "POPSINK_BASE_URL" then "https://env.example.com"
  else if name = "POPSINK_TOKEN" then "env-token"
  else ""

/-- A provider configuration that sets base_url to the empty string and leaves token out. -/
def emptyBaseConfig : provider.popsinkProviderModel :=
  { BaseURL := .known "", Token := .null }

/-- A provider configuration that sets base_url and leaves token out. -/
def baseOnlyConfig : provider.popsinkProviderModel :=
  { BaseURL := .known "https://api.example.com", Token := .null }

/-- An environment in which no variable is set, and a provider configuration that sets
nothing. -/
def noEnv (_name : String) : String := ""

def noConfig : provider.popsinkProviderModel :=
  { BaseURL := .null, Token := .null }

/-- A json_configuration that names two valid connector types, and a runtime whose JSON
layer reads that text (and no other). -/
def connectorText : String :=
  "\x7b\"source_type\":\"KAFKA_SOURCE\",\"target_type\":\"ORACLE_TARGET\"\x7d"

def connectorRuntime : Runtime :=
  testRuntime 200 connectorText
    (.ok (Json.obj [("source_type", Json.str "KAFKA_SOURCE"),
      ("target_type", Json.str "ORACLE_TARGET")]))

/-- A server that deleted something: status 204, empty body (TestDeleteEnv). -/
def noContentRuntime : Runtime := testRuntime 204 "" (.error "unexpected end of JSON input")

/-- A tracked team attached to an environment, and a plan that detaches it (env_id null)
and changes nothing else. -/
def attachedTeamState : provider.teamResourceModel :=
  { ID := .known "team-123", Name := .known "test-team", Description := .known "old",
    EnvID := .known "env-123" }

def detachTeamPlan : provider.teamResourceModel :=
  { ID := .known "team-123", Name := .known "test-team", Description := .known "old",
    EnvID := .null }

/-- A tracked environment with a retention configuration, and a plan that drops the
configuration (null) and changes nothing else. -/
def retainingEnvState : provider.envResourceModel :=
  { ID := .known "env-123", Name := .known "test-env", UseRetention := .known true,
    RetentionConfiguration := .known "\x7b\"retention.ms\":\"1000\"\x7d" }

def dropRetentionPlan : provider.envResourceModel :=
  { ID := .known "env-123", Name := .known "test-env", UseRetention := .known true,
    RetentionConfiguration := .null }

/-- A tracked pipeline whose json_configuration is not JSON; the plan equals the state. -/
def brokenPipelineState : provider.pipelineResourceModel :=
  { ID := .known "pipeline-123", Name := .known "test-pipeline", TeamID := .known "team-123",
    TeamName := .known "Test Team", State := .known "draft",
    JSONConfiguration := .known "not json" }

/-- A retention configuration as an API response carries it. -/
def retentionConfig : client.BrokerConfiguration :=
  some [("cleanup.policy", Json.str "delete"), ("max.bytes", Json.null),
    ("note", Json.str ""), ("retention.ms", Json.num "1000")]

/-- A memory holding two maps, the second being `retentionConfig`, and the reference to
that second map. -/
def retentionHeap : provider.MapHeap :=
  [[("owner", Json.str "data")],
    [("cleanup.policy", Json.str "delete"), ("max.bytes", Json.null),
      ("note", Json.str ""), ("retention.ms", Json.num "1000")]]

end sample

/-! ## Shared lemmas -/

theorem client.doRequest_of_answered {rt : Runtime} {c : client.Client} {method path : String}
    {body : Option Json} {resp : Response} (h : client.Answered rt c method path body resp) :
    client.doRequest rt c method path body
      = ⟨[client.buildRequest c method path body], .ok resp⟩ := by
  obtain ⟨h1, h2, h3⟩ := h
  simp [client.doRequest, h1, h2, h3]

theorem client.checkResponse_eq_none_iff (resp : Response) :
    client.checkResponse resp = none ↔ 200 ≤ resp.StatusCode ∧ resp.StatusCode < 300 := by
  unfold client.checkResponse
  split_ifs with h
  · simpa using h
  · simp only [reduceCtorEq, false_iff]
    simpa using h

theorem client.checkResponse_of_not_2xx {resp : Response}
    (h : resp.StatusCode < 200 ∨ 300 ≤ resp.StatusCode) :
    client.checkResponse resp = some ("API request failed with status "
      ++ toString resp.StatusCode ++ ": " ++ resp.Body.data) := by
  unfold client.checkResponse
  rw [if_neg (by omega)]
  rfl

theorem testRuntime_answered (status : Int) (body : String) (value : Except GoError Json)
    (c : client.Client) (method path : String) (payload : Option Json) :
    client.Answered (testRuntime status body value) c method path payload
      ⟨status, ⟨body, none⟩⟩ := by
  refine ⟨?_, rfl, rfl⟩
  cases payload <;> rfl

/-! ## Theorems -/

/-- C1: for GetEnv, GetTeam and GetPipeline and every identifier, when the server answers
with status 404 the operation returns a nil record and a nil error, whatever the body. -/
theorem C1_get_404_is_absence (rt : Runtime) (c : client.Client) (id : String)
    (resp : Response) (h404 : resp.StatusCode = 404) :
    (client.Answered rt c "GET" ("/envs/" ++ id) none resp →
      (client.GetEnv rt c id).val = none ∧ (client.GetEnv rt c id).err = none) ∧
    (client.Answered rt c "GET" ("/teams/" ++ id) none resp →
      (client.GetTeam rt c id).val = none ∧ (client.GetTeam rt c id).err = none) ∧
    (client.Answered rt c "GET" ("/pipelines/" ++ id) none resp →
      (client.GetPipeline rt c id).val = none ∧ (client.GetPipeline rt c id).err = none) := by
  refine ⟨fun h => ?_, fun h => ?_, fun h => ?_⟩
  · simp [client.GetEnv, http.MethodGet, client.doRequest_of_answered h, h404,
      http.StatusNotFound]
  · simp [client.GetTeam, http.MethodGet, client.doRequest_of_answered h, h404,
      http.StatusNotFound]
  · simp [client.GetPipeline, http.MethodGet, client.doRequest_of_answered h, h404,
      http.StatusNotFound]

/-- Witness of C1: a server answering 404 with a non-empty body, read with identifier
"nonexistent" as in TestGetEnv_NotFound. -/
theorem C1_get_404_is_absence_witness :
    ((client.GetEnv (testRuntime 404 "no such thing" (.error "invalid character"))
        testClient "nonexistent").val = none ∧
      (client.GetEnv (testRuntime 404 "no such thing" (.error "invalid character"))
        testClient "nonexistent").err = none) ∧
    ((client.GetTeam (testRuntime 404 "no such thing" (.error "invalid character"))
        testClient "nonexistent").val = none ∧
      (client.GetTeam (testRuntime 404 "no such thing" (.error "invalid character"))
        testClient "nonexistent").err = none) ∧
    ((client.GetPipeline (testRuntime 404 "no such thing" (.error "invalid character"))
        testClient "nonexistent").val = none ∧
      (client.GetPipeline (testRuntime 404 "no such thing" (.error "invalid character"))
        testClient "nonexistent").err = none) :=
  have h := C1_get_404_is_absence (testRuntime 404 "no such thing" (.error "invalid character"))
    testClient "nonexistent" ⟨404, ⟨"no such thing", none⟩⟩ rfl
  ⟨h.1 (testRuntime_answered _ _ _ _ _ _ _), h.2.1 (testRuntime_answered _ _ _ _ _ _ _),
    h.2.2 (testRuntime_answered _ _ _ _ _ _ _)⟩

/-- C2: for DeleteTeam and DeletePipeline and every identifier, when the server answers with
status 404 the operation returns a nil error. -/
theorem C2_delete_404_is_no_error (rt : Runtime) (c : client.Client) (id : String)
    (resp : Response) (h404 : resp.StatusCode = 404) :
    (client.Answered rt c "DELETE" ("/teams/" ++ id) none resp →
      (client.DeleteTeam rt c id).err = none) ∧
    (client.Answered rt c "DELETE" ("/pipelines/" ++ id) none resp →
      (client.DeletePipeline rt c id).err = none) := by
  refine ⟨fun h => ?_, fun h => ?_⟩
  · simp [client.DeleteTeam, http.MethodDelete, client.doRequest_of_answered h, h404,
      http.StatusNotFound]
  · simp [client.DeletePipeline, http.MethodDelete, client.doRequest_of_answered h, h404,
      http.StatusNotFound]

/-- Witness of C2: a server answering 404, deleting "nonexistent" as in
TestDeletePipeline_NotFound. -/
theorem C2_delete_404_is_no_error_witness :
    (client.DeleteTeam (testRuntime 404 "" (.error "unexpected end of JSON input"))
        testClient "nonexistent").err = none ∧
    (client.DeletePipeline (testRuntime 404 "" (.error "unexpected end of JSON input"))
        testClient "nonexistent").err = none :=
  have h := C2_delete_404_is_no_error
    (testRuntime 404 "" (.error "unexpected end of JSON input")) testClient "nonexistent"
    ⟨404, ⟨"", none⟩⟩ rfl
  ⟨h.1 (testRuntime_answered _ _ _ _ _ _ _), h.2 (testRuntime_answered _ _ _ _ _ _ _)⟩

/-! ### Which requests a call issues -/

theorem client.doRequest_sent (rt : Runtime) (c : client.Client) (method path : String)
    (body : Option Json) :
    (client.doRequest rt c method path body).sent
      = if client.Created rt c method path body then [client.buildRequest c method path body]
        else [] := by
  by_cases h : client.Created rt c method path body
  · rw [if_pos h]
    obtain ⟨h1, h2⟩ := h
    simp only [client.doRequest, h1, h2]
    split <;> rfl
  · rw [if_neg h]
    unfold client.doRequest
    split
    · rfl
    · split
      · rfl
      · exact absurd ⟨‹_›, ‹_›⟩ h

theorem client.readResult_sent {α : Type} (rt : Runtime) (ty : String)
    (setField : α → String → Json → Except GoError α) (zero : α) (sent : List Request)
    (resp : Response) : (client.readResult rt ty setField zero sent resp).sent = sent := by
  unfold client.readResult
  split
  · rfl
  · split <;> rfl

theorem client.CreateEnv_sent (rt : Runtime) (c : client.Client)
    (env : Option client.EnvCreate) :
    (client.CreateEnv rt c env).sent = (client.doRequest rt c "POST" "/envs/"
      (some (client.ptrJson client.EnvCreate.toJson env))).sent := by
  unfold client.CreateEnv http.MethodPost
  generalize client.doRequest rt c "POST" _ _ = ex
  rcases ex with ⟨sent, e | resp⟩ <;> dsimp only
  split <;> simp [client.readResult_sent]

theorem client.GetEnv_sent (rt : Runtime) (c : client.Client) (id : String) :
    (client.GetEnv rt c id).sent
      = (client.doRequest rt c "GET" ("/envs/" ++ id) none).sent := by
  unfold client.GetEnv http.MethodGet
  generalize client.doRequest rt c "GET" _ _ = ex
  rcases ex with ⟨sent, e | resp⟩ <;> dsimp only
  split_ifs
  · rfl
  · split <;> simp [client.readResult_sent]

theorem client.UpdateEnv_sent (rt : Runtime) (c : client.Client) (id : String)
    (env : Option client.EnvUpdate) :
    (client.UpdateEnv rt c id env).sent = (client.doRequest rt c "PATCH" ("/envs/" ++ id)
      (some (client.ptrJson client.EnvUpdate.toJson env))).sent := by
  unfold client.UpdateEnv http.MethodPatch
  generalize client.doRequest rt c "PATCH" _ _ = ex
  rcases ex with ⟨sent, e | resp⟩ <;> dsimp only
  split <;> simp [client.readResult_sent]

theorem client.CreateTeam_sent (rt : Runtime) (c : client.Client)
    (team : Option client.TeamCreate) :
    (client.CreateTeam rt c team).sent = (client.doRequest rt c "POST" "/teams/"
      (some (client.ptrJson client.TeamCreate.toJson team))).sent := by
  unfold client.CreateTeam http.MethodPost
  generalize client.doRequest rt c "POST" _ _ = ex
  rcases ex with ⟨sent, e | resp⟩ <;> dsimp only
  split <;> simp [client.readResult_sent]

theorem client.GetTeam_sent (rt : Runtime) (c : client.Client) (id : String) :
    (client.GetTeam rt c id).sent
      = (client.doRequest rt c "GET" ("/teams/" ++ id) none).sent := by
  unfold client.GetTeam http.MethodGet
  dsimp only
  generalize client.doRequest rt c "GET" _ _ = ex
  rcases ex with ⟨sent, e | resp⟩ <;> dsimp only
  split_ifs
  · rfl
  · split <;> simp [client.readResult_sent]

theorem client.UpdateTeam_sent (rt : Runtime) (c : client.Client) (id : String)
    (team : Option client.TeamUpdate) :
    (client.UpdateTeam rt c id team).sent = (client.doRequest rt c "PATCH" ("/teams/" ++ id)
      (some (client.ptrJson client.TeamUpdate.toJson team))).sent := by
  unfold client.UpdateTeam http.MethodPatch
  dsimp only
  generalize client.doRequest rt c "PATCH" _ _ = ex
  rcases ex with ⟨sent, e | resp⟩ <;> dsimp only
  split <;> simp [client.readResult_sent]

theorem client.DeleteTeam_sent (rt : Runtime) (c : client.Client) (id : String) :
    (client.DeleteTeam rt c id).sent
      = (client.doRequest rt c "DELETE" ("/teams/" ++ id) none).sent := by
  unfold client.DeleteTeam http.MethodDelete
  dsimp only
  generalize client.doRequest rt c "DELETE" _ _ = ex
  rcases ex with ⟨sent, e | resp⟩ <;> dsimp only
  split_ifs
  · rfl
  · split <;> rfl

theorem client.CreatePipeline_sent (rt : Runtime) (c : client.Client)
    (pipeline : Option client.PipelineCreate) :
    (client.CreatePipeline rt c pipeline).sent = (client.doRequest rt c "POST" "/pipelines/"
      (some (client.ptrJson client.PipelineCreate.toJson pipeline))).sent := by
  unfold client.CreatePipeline http.MethodPost
  generalize client.doRequest rt c "POST" _ _ = ex
  rcases ex with ⟨sent, e | resp⟩ <;> dsimp only
  split <;> simp [client.readResult_sent]

theorem client.GetPipeline_sent (rt : Runtime) (c : client.Client) (id : String) :
    (client.GetPipeline rt c id).sent
      = (client.doRequest rt c "GET" ("/pipelines/" ++ id) none).sent := by
  unfold client.GetPipeline http.MethodGet
  dsimp only
  generalize client.doRequest rt c "GET" _ _ = ex
  rcases ex with ⟨sent, e | resp⟩ <;> dsimp only
  split_ifs
  · rfl
  · split <;> simp [client.readResult_sent]

theorem client.UpdatePipeline_sent (rt : Runtime) (c : client.Client) (id : String)
    (pipeline : Option client.PipelineUpdate) :
    (client.UpdatePipeline rt c id pipeline).sent
      = (client.doRequest rt c "PATCH" ("/pipelines/" ++ id)
          (some (client.ptrJson client.PipelineUpdate.toJson pipeline))).sent := by
  unfold client.UpdatePipeline http.MethodPatch
  dsimp only
  generalize client.doRequest rt c "PATCH" _ _ = ex
  rcases ex with ⟨sent, e | resp⟩ <;> dsimp only
  split <;> simp [client.readResult_sent]

theorem client.DeletePipeline_sent (rt : Runtime) (c : client.Client) (id : String) :
    (client.DeletePipeline rt c id).sent
      = (client.doRequest rt c "DELETE" ("/pipelines/" ++ id) none).sent := by
  unfold client.DeletePipeline http.MethodDelete
  dsimp only
  generalize client.doRequest rt c "DELETE" _ _ = ex
  rcases ex with ⟨sent, e | resp⟩ <;> dsimp only
  split_ifs
  · rfl
  · split <;> rfl

theorem client.body_of_mem_doRequest_sent {rt : Runtime} {c : client.Client}
    {method path : String} {body : Option Json} {req : Request}
    (h : req ∈ (client.doRequest rt c method path body).sent) :
    req = client.buildRequest c method path body := by
  rw [client.doRequest_sent] at h
  split_ifs at h
  · simpa using h
  · simp at h

theorem provider.teamUpdate_sent (rt : Runtime) (c : client.Client)
    (plan state : provider.teamResourceModel) :
    (provider.teamResource.Update rt c plan state).sent
      = (client.UpdateTeam rt c state.ID.ValueString
          (some (provider.teamResource.updateReq plan state))).sent := by
  unfold provider.teamResource.Update
  dsimp only
  generalize client.UpdateTeam rt c _ _ = call
  rcases call with ⟨sent, _ | team, _ | err⟩ <;> rfl

theorem provider.envUpdate_sent (rt : Runtime) (c : client.Client)
    (plan state : provider.envResourceModel) (updateReq : client.EnvUpdate)
    (h : provider.envResource.updateReq rt plan state = .ok updateReq) :
    (provider.envResource.Update rt c plan state).sent
      = (client.UpdateEnv rt c state.ID.ValueString (some updateReq)).sent := by
  unfold provider.envResource.Update
  rw [h]
  dsimp only
  generalize client.UpdateEnv rt c _ _ = call
  rcases call with ⟨sent, _ | env, _ | err⟩ <;> try rfl
  dsimp only
  split <;> rfl

theorem provider.envUpdate_sent_of_error (rt : Runtime) (c : client.Client)
    (plan state : provider.envResourceModel) (d : diag.Diagnostic)
    (h : provider.envResource.updateReq rt plan state = .error d) :
    (provider.envResource.Update rt c plan state).sent = [] := by
  unfold provider.envResource.Update
  rw [h]

theorem provider.pipelineUpdate_sent (rt : Runtime) (c : client.Client)
    (plan state : provider.pipelineResourceModel) (config : client.PipelineConfiguration)
    (h : client.unmarshal rt "client.PipelineConfiguration"
      client.PipelineConfiguration.setField plan.JSONConfiguration.ValueString
      client.PipelineConfiguration.zero = .ok config) :
    (provider.pipelineResource.Update rt c plan state).sent
      = (client.UpdatePipeline rt c state.ID.ValueString
          (some (provider.pipelineResource.updateReq plan state config))).sent := by
  unfold provider.pipelineResource.Update
  rw [h]
  dsimp only
  generalize client.UpdatePipeline rt c _ _ = call
  rcases call with ⟨sent, _ | p, _ | err⟩ <;> rfl

theorem provider.pipelineUpdate_sent_of_error (rt : Runtime) (c : client.Client)
    (plan state : provider.pipelineResourceModel) (e : GoError)
    (h : client.unmarshal rt "client.PipelineConfiguration"
      client.PipelineConfiguration.setField plan.JSONConfiguration.ValueString
      client.PipelineConfiguration.zero = .error e) :
    (provider.pipelineResource.Update rt c plan state).sent = [] := by
  unfold provider.pipelineResource.Update
  rw [h]

/-! ### Update requests -/

theorem client.teamUpdate_absent_of_unset (u : client.TeamUpdate) :
    (u.Name = none → "name" ∉ Json.keys u.toJson) ∧
    (u.Description = none → "description" ∉ Json.keys u.toJson) ∧
    (u.EnvID = none → "env_id" ∉ Json.keys u.toJson) := by
  rcases u with ⟨_ | n, _ | d, _ | e⟩ <;>
    simp [client.TeamUpdate.toJson, client.omitEmpty, Json.keys]

theorem client.envUpdate_absent_of_unset (u : client.EnvUpdate) :
    (u.Name = none → "name" ∉ Json.keys u.toJson) ∧
    (u.UseRetention = none → "use_retention" ∉ Json.keys u.toJson) ∧
    (u.RetentionConfiguration = none → "retention_configuration" ∉ Json.keys u.toJson) := by
  rcases u with ⟨_ | n, _ | d, _ | e⟩ <;>
    simp [client.EnvUpdate.toJson, client.omitEmpty, Json.keys]

theorem client.pipelineUpdate_absent_of_unset (u : client.PipelineUpdate) :
    (u.Name = none → "name" ∉ Json.keys u.toJson) ∧
    (u.TeamID = none → "team_id" ∉ Json.keys u.toJson) ∧
    (u.State = none → "state" ∉ Json.keys u.toJson) ∧
    (u.JSONConfiguration = none → "json_configuration" ∉ Json.keys u.toJson) := by
  rcases u with ⟨_ | n, _ | d, _ | e, _ | f⟩ <;>
    simp [client.PipelineUpdate.toJson, client.omitEmpty, Json.keys]

theorem provider.teamUpdateReq_unset (plan state : provider.teamResourceModel) :
    (plan.Name = state.Name → (provider.teamResource.updateReq plan state).Name = none) ∧
    (plan.Description = state.Description →
      (provider.teamResource.updateReq plan state).Description = none) ∧
    (plan.EnvID = state.EnvID → (provider.teamResource.updateReq plan state).EnvID = none) := by
  refine ⟨fun h => ?_, fun h => ?_, fun h => ?_⟩ <;>
    simp only [provider.teamResource.updateReq, basetypes.Attr.Equal, h] <;>
    simp <;> split_ifs <;> simp

theorem provider.envUpdateReq_unset (rt : Runtime)
    (plan state : provider.envResourceModel) (u : client.EnvUpdate)
    (hu : provider.envResource.updateReq rt plan state = .ok u) :
    (plan.Name = state.Name → u.Name = none) ∧
    (plan.UseRetention = state.UseRetention → u.UseRetention = none) ∧
    (plan.RetentionConfiguration = state.RetentionConfiguration →
      u.RetentionConfiguration = none) := by
  unfold provider.envResource.updateReq at hu
  refine ⟨fun h => ?_, fun h => ?_, fun h => ?_⟩ <;>
    simp only [basetypes.Attr.Equal, h, decide_True, Bool.not_true, Bool.false_eq_true,
      if_false] at hu <;>
    (split_ifs at hu <;> (try split at hu) <;> simp at hu <;> subst hu <;> rfl)

theorem provider.pipelineUpdateReq_unset
    (plan state : provider.pipelineResourceModel) (config : client.PipelineConfiguration) :
    (plan.Name = state.Name →
      (provider.pipelineResource.updateReq plan state config).Name = none) ∧
    (plan.TeamID = state.TeamID →
      (provider.pipelineResource.updateReq plan state config).TeamID = none) ∧
    (plan.State = state.State →
      (provider.pipelineResource.updateReq plan state config).State = none) ∧
    (plan.JSONConfiguration = state.JSONConfiguration →
      (provider.pipelineResource.updateReq plan state config).JSONConfiguration = none) := by
  refine ⟨fun h => ?_, fun h => ?_, fun h => ?_, fun h => ?_⟩ <;>
    simp only [provider.pipelineResource.updateReq, basetypes.Attr.Equal, h] <;>
    simp <;> split_ifs <;> simp

/-- C3: in the Update handlers of the team, environment and pipeline resources, every
mutable field whose planned value equals its tracked-state value is left unset in the update
request, and is absent from the JSON payload of every request the handler sends. -/
theorem C3_update_omits_unchanged_fields (rt : Runtime) (c : client.Client) :
    (∀ plan state : provider.teamResourceModel,
      ((plan.Name = state.Name → (provider.teamResource.updateReq plan state).Name = none) ∧
        (plan.Description = state.Description →
          (provider.teamResource.updateReq plan state).Description = none) ∧
        (plan.EnvID = state.EnvID →
          (provider.teamResource.updateReq plan state).EnvID = none)) ∧
      ∀ req ∈ (provider.teamResource.Update rt c plan state).sent,
        ∃ payload, req.Body = some payload ∧
          payload = client.TeamUpdate.toJson (provider.teamResource.updateReq plan state) ∧
          (plan.Name = state.Name → "name" ∉ payload.keys) ∧
          (plan.Description = state.Description → "description" ∉ payload.keys) ∧
          (plan.EnvID = state.EnvID → "env_id" ∉ payload.keys)) ∧
    (∀ plan state : provider.envResourceModel,
      (∀ updateReq, provider.envResource.updateReq rt plan state = .ok updateReq →
        (plan.Name = state.Name → updateReq.Name = none) ∧
        (plan.UseRetention = state.UseRetention → updateReq.UseRetention = none) ∧
        (plan.RetentionConfiguration = state.RetentionConfiguration →
          updateReq.RetentionConfiguration = none)) ∧
      ∀ req ∈ (provider.envResource.Update rt c plan state).sent,
        ∃ updateReq payload, provider.envResource.updateReq rt plan state = .ok updateReq ∧
          req.Body = some payload ∧ payload = client.EnvUpdate.toJson updateReq ∧
          (plan.Name = state.Name → "name" ∉ payload.keys) ∧
          (plan.UseRetention = state.UseRetention → "use_retention" ∉ payload.keys) ∧
          (plan.RetentionConfiguration = state.RetentionConfiguration →
            "retention_configuration" ∉ payload.keys)) ∧
    (∀ plan state : provider.pipelineResourceModel,
      (∀ config,
        (plan.Name = state.Name →
          (provider.pipelineResource.updateReq plan state config).Name = none) ∧
        (plan.TeamID = state.TeamID →
          (provider.pipelineResource.updateReq plan state config).TeamID = none) ∧
        (plan.State = state.State →
          (provider.pipelineResource.updateReq plan state config).State = none) ∧
        (plan.JSONConfiguration = state.JSONConfiguration →
          (provider.pipelineResource.updateReq plan state config).JSONConfiguration = none)) ∧
      ∀ req ∈ (provider.pipelineResource.Update rt c plan state).sent,
        ∃ config payload,
          client.unmarshal rt "client.PipelineConfiguration"
            client.PipelineConfiguration.setField plan.JSONConfiguration.ValueString
            client.PipelineConfiguration.zero = .ok config ∧
          req.Body = some payload ∧
          payload = client.PipelineUpdate.toJson
            (provider.pipelineResource.updateReq plan state config) ∧
          (plan.Name = state.Name → "name" ∉ payload.keys) ∧
          (plan.TeamID = state.TeamID → "team_id" ∉ payload.keys) ∧
          (plan.State = state.State → "state" ∉ payload.keys) ∧
          (plan.JSONConfiguration = state.JSONConfiguration →
            "json_configuration" ∉ payload.keys)) := by
  refine ⟨fun plan state => ⟨provider.teamUpdateReq_unset plan state, ?_⟩,
    fun plan state => ⟨provider.envUpdateReq_unset rt plan state, ?_⟩,
    fun plan state => ⟨provider.pipelineUpdateReq_unset plan state, ?_⟩⟩
  · intro req hreq
    rw [provider.teamUpdate_sent, client.UpdateTeam_sent] at hreq
    have hb := client.body_of_mem_doRequest_sent hreq
    have hu := provider.teamUpdateReq_unset plan state
    have hk := client.teamUpdate_absent_of_unset (provider.teamResource.updateReq plan state)
    refine ⟨_, by rw [hb]; rfl, rfl, fun h => hk.1 (hu.1 h), fun h => hk.2.1 (hu.2.1 h),
      fun h => hk.2.2 (hu.2.2 h)⟩
  · intro req hreq
    cases hq : provider.envResource.updateReq rt plan state with
    | error d =>
      rw [provider.envUpdate_sent_of_error rt c plan state d hq] at hreq
      simp at hreq
    | ok updateReq =>
      rw [provider.envUpdate_sent rt c plan state updateReq hq,
        client.UpdateEnv_sent] at hreq
      have hb := client.body_of_mem_doRequest_sent hreq
      have hu := provider.envUpdateReq_unset rt plan state updateReq hq
      have hk := client.envUpdate_absent_of_unset updateReq
      refine ⟨updateReq, _, rfl, by rw [hb]; rfl, rfl, fun h => hk.1 (hu.1 h),
        fun h => hk.2.1 (hu.2.1 h), fun h => hk.2.2 (hu.2.2 h)⟩
  · intro req hreq
    cases hq : client.unmarshal rt "client.PipelineConfiguration"
        client.PipelineConfiguration.setField plan.JSONConfiguration.ValueString
        client.PipelineConfiguration.zero with
    | error e =>
      rw [provider.pipelineUpdate_sent_of_error rt c plan state e hq] at hreq
      simp at hreq
    | ok config =>
      rw [provider.pipelineUpdate_sent rt c plan state config hq,
        client.UpdatePipeline_sent] at hreq
      have hb := client.body_of_mem_doRequest_sent hreq
      have hu := provider.pipelineUpdateReq_unset plan state config
      have hk := client.pipelineUpdate_absent_of_unset
        (provider.pipelineResource.updateReq plan state config)
      refine ⟨config, _, rfl, by rw [hb]; rfl, rfl, fun h => hk.1 (hu.1 h),
        fun h => hk.2.1 (hu.2.1 h), fun h => hk.2.2.1 (hu.2.2.1 h),
        fun h => hk.2.2.2 (hu.2.2.2 h)⟩

/-- Witness of C3: a team plan that changes the description only, an environment plan that
changes use_retention only and a pipeline plan that changes the state only; each handler
sends one PATCH request whose payload has no member "name". -/
theorem C3_update_omits_unchanged_fields_witness :
    (sample.teamPlan.Name = sample.teamState.Name ∧
      client.buildRequest testClient "PATCH" "/teams/team-123"
          (some (Json.obj [("description", Json.str "new")]))
        ∈ (provider.teamResource.Update sample.okRuntime testClient sample.teamPlan
            sample.teamState).sent ∧
      ∃ payload, (client.buildRequest testClient "PATCH" "/teams/team-123"
          (some (Json.obj [("description", Json.str "new")]))).Body = some payload ∧
        "name" ∉ payload.keys) ∧
    (sample.envPlan.Name = sample.envState.Name ∧
      client.buildRequest testClient "PATCH" "/envs/env-123"
          (some (Json.obj [("use_retention", Json.bool true)]))
        ∈ (provider.envResource.Update sample.okRuntime testClient sample.envPlan
            sample.envState).sent ∧
      ∃ payload, (client.buildRequest testClient "PATCH" "/envs/env-123"
          (some (Json.obj [("use_retention", Json.bool true)]))).Body = some payload ∧
        "name" ∉ payload.keys) ∧
    (sample.pipelinePlan.Name = sample.pipelineState.Name ∧
      client.buildRequest testClient "PATCH" "/pipelines/pipeline-123"
          (some (Json.obj [("state", Json.str "live")]))
        ∈ (provider.pipelineResource.Update sample.okRuntime testClient sample.pipelinePlan
            sample.pipelineState).sent ∧
      ∃ payload, (client.buildRequest testClient "PATCH" "/pipelines/pipeline-123"
          (some (Json.obj [("state", Json.str "live")]))).Body = some payload ∧
        "name" ∉ payload.keys) := by
  have h := C3_update_omits_unchanged_fields sample.okRuntime testClient
  have hT : client.buildRequest testClient "PATCH" "/teams/team-123"
        (some (Json.obj [("description", Json.str "new")]))
      ∈ (provider.teamResource.Update sample.okRuntime testClient sample.teamPlan
          sample.teamState).sent := List.mem_singleton.mpr rfl
  have hE : client.buildRequest testClient "PATCH" "/envs/env-123"
        (some (Json.obj [("use_retention", Json.bool true)]))
      ∈ (provider.envResource.Update sample.okRuntime testClient sample.envPlan
          sample.envState).sent := List.mem_singleton.mpr rfl
  have hP : client.buildRequest testClient "PATCH" "/pipelines/pipeline-123"
        (some (Json.obj [("state", Json.str "live")]))
      ∈ (provider.pipelineResource.Update sample.okRuntime testClient sample.pipelinePlan
          sample.pipelineState).sent := List.mem_singleton.mpr rfl
  refine ⟨⟨rfl, hT, ?_⟩, ⟨rfl, hE, ?_⟩, ⟨rfl, hP, ?_⟩⟩
  · obtain ⟨payload, hb, _, hname, _⟩ := (h.1 sample.teamPlan sample.teamState).2 _ hT
    exact ⟨payload, hb, hname rfl⟩
  · obtain ⟨_, payload, _, hb, _, hname, _⟩ := (h.2.1 sample.envPlan sample.envState).2 _ hE
    exact ⟨payload, hb, hname rfl⟩
  · obtain ⟨_, payload, _, hb, _, hname, _⟩ :=
      (h.2.2 sample.pipelinePlan sample.pipelineState).2 _ hP
    exact ⟨payload, hb, hname rfl⟩

/-! ### Status dispatch of the create and update calls -/

theorem client.readResult_not_absent {α : Type} (rt : Runtime) (ty : String)
    (setField : α → String → Json → Except GoError α) (zero : α) (sent : List Request)
    (resp : Response) :
    ¬ ((client.readResult rt ty setField zero sent resp).val = none ∧
        (client.readResult rt ty setField zero sent resp).err = none) := by
  unfold client.readResult
  split
  · simp
  · split <;> simp

/-- C4: for CreateEnv, CreateTeam, CreatePipeline, UpdateEnv, UpdateTeam and UpdatePipeline,
every answer with a status outside 200..299 (404 and 403 included) yields a nil record and
the non-nil error of checkResponse; and in no run at all does one of these operations return
a nil record together with a nil error. -/
theorem C4_create_update_non_2xx_is_error (rt : Runtime) (c : client.Client) (id : String)
    (env : Option client.EnvCreate) (envU : Option client.EnvUpdate)
    (team : Option client.TeamCreate) (teamU : Option client.TeamUpdate)
    (pipeline : Option client.PipelineCreate) (pipelineU : Option client.PipelineUpdate) :
    (∀ resp : Response, resp.StatusCode < 200 ∨ 300 ≤ resp.StatusCode →
      (client.Answered rt c "POST" "/envs/" (some (client.ptrJson client.EnvCreate.toJson env))
          resp →
        (client.CreateEnv rt c env).val = none ∧ (client.CreateEnv rt c env).err ≠ none ∧
        (client.CreateEnv rt c env).err = client.checkResponse resp) ∧
      (client.Answered rt c "POST" "/teams/"
          (some (client.ptrJson client.TeamCreate.toJson team)) resp →
        (client.CreateTeam rt c team).val = none ∧ (client.CreateTeam rt c team).err ≠ none ∧
        (client.CreateTeam rt c team).err = client.checkResponse resp) ∧
      (client.Answered rt c "POST" "/pipelines/"
          (some (client.ptrJson client.PipelineCreate.toJson pipeline)) resp →
        (client.CreatePipeline rt c pipeline).val = none ∧
        (client.CreatePipeline rt c pipeline).err ≠ none ∧
        (client.CreatePipeline rt c pipeline).err = client.checkResponse resp) ∧
      (client.Answered rt c "PATCH" ("/envs/" ++ id)
          (some (client.ptrJson client.EnvUpdate.toJson envU)) resp →
        (client.UpdateEnv rt c id envU).val = none ∧
        (client.UpdateEnv rt c id envU).err ≠ none ∧
        (client.UpdateEnv rt c id envU).err = client.checkResponse resp) ∧
      (client.Answered rt c "PATCH" ("/teams/" ++ id)
          (some (client.ptrJson client.TeamUpdate.toJson teamU)) resp →
        (client.UpdateTeam rt c id teamU).val = none ∧
        (client.UpdateTeam rt c id teamU).err ≠ none ∧
        (client.UpdateTeam rt c id teamU).err = client.checkResponse resp) ∧
      (client.Answered rt c "PATCH" ("/pipelines/" ++ id)
          (some (client.ptrJson client.PipelineUpdate.toJson pipelineU)) resp →
        (client.UpdatePipeline rt c id pipelineU).val = none ∧
        (client.UpdatePipeline rt c id pipelineU).err ≠ none ∧
        (client.UpdatePipeline rt c id pipelineU).err = client.checkResponse resp)) ∧
    ¬ ((client.CreateEnv rt c env).val = none ∧ (client.CreateEnv rt c env).err = none) ∧
    ¬ ((client.CreateTeam rt c team).val = none ∧ (client.CreateTeam rt c team).err = none) ∧
    ¬ ((client.CreatePipeline rt c pipeline).val = none ∧
        (client.CreatePipeline rt c pipeline).err = none) ∧
    ¬ ((client.UpdateEnv rt c id envU).val = none ∧
        (client.UpdateEnv rt c id envU).err = none) ∧
    ¬ ((client.UpdateTeam rt c id teamU).val = none ∧
        (client.UpdateTeam rt c id teamU).err = none) ∧
    ¬ ((client.UpdatePipeline rt c id pipelineU).val = none ∧
        (client.UpdatePipeline rt c id pipelineU).err = none) := by
  refine ⟨fun resp hs => ⟨fun h => ?_, fun h => ?_, fun h => ?_, fun h => ?_, fun h => ?_,
    fun h => ?_⟩, ?_, ?_, ?_, ?_, ?_, ?_⟩
  · simp [client.CreateEnv, http.MethodPost, client.doRequest_of_answered h,
      client.checkResponse_of_not_2xx hs]
  · simp [client.CreateTeam, http.MethodPost, client.doRequest_of_answered h,
      client.checkResponse_of_not_2xx hs]
  · simp [client.CreatePipeline, http.MethodPost, client.doRequest_of_answered h,
      client.checkResponse_of_not_2xx hs]
  · simp [client.UpdateEnv, http.MethodPatch, client.doRequest_of_answered h,
      client.checkResponse_of_not_2xx hs]
  · simp [client.UpdateTeam, http.MethodPatch, client.doRequest_of_answered h,
      client.checkResponse_of_not_2xx hs]
  · simp [client.UpdatePipeline, http.MethodPatch, client.doRequest_of_answered h,
      client.checkResponse_of_not_2xx hs]
  · unfold client.CreateEnv
    generalize client.doRequest rt c _ _ _ = ex
    rcases ex with ⟨sent, e | resp⟩ <;> dsimp only
    · simp
    · split
      · simp
      · exact client.readResult_not_absent _ _ _ _ _ _
  · unfold client.CreateTeam
    generalize client.doRequest rt c _ _ _ = ex
    rcases ex with ⟨sent, e | resp⟩ <;> dsimp only
    · simp
    · split
      · simp
      · exact client.readResult_not_absent _ _ _ _ _ _
  · unfold client.CreatePipeline
    generalize client.doRequest rt c _ _ _ = ex
    rcases ex with ⟨sent, e | resp⟩ <;> dsimp only
    · simp
    · split
      · simp
      · exact client.readResult_not_absent _ _ _ _ _ _
  · unfold client.UpdateEnv
    generalize client.doRequest rt c _ _ _ = ex
    rcases ex with ⟨sent, e | resp⟩ <;> dsimp only
    · simp
    · split
      · simp
      · exact client.readResult_not_absent _ _ _ _ _ _
  · unfold client.UpdateTeam
    dsimp only
    generalize client.doRequest rt c _ _ _ = ex
    rcases ex with ⟨sent, e | resp⟩ <;> dsimp only
    · simp
    · split
      · simp
      · exact client.readResult_not_absent _ _ _ _ _ _
  · unfold client.UpdatePipeline
    dsimp only
    generalize client.doRequest rt c _ _ _ = ex
    rcases ex with ⟨sent, e | resp⟩ <;> dsimp only
    · simp
    · split
      · simp
      · exact client.readResult_not_absent _ _ _ _ _ _

/-- Witness of C4: against a server answering 403 with body "forbidden", each create and
update call returns a nil record and the error of checkResponse. -/
theorem C4_create_update_non_2xx_is_error_witness :
    ((client.CreateEnv sample.forbiddenRuntime testClient (some sample.envCreate)).val = none ∧
      (client.CreateEnv sample.forbiddenRuntime testClient (some sample.envCreate)).err
        = some "API request failed with status 403: forbidden") ∧
    ((client.CreateTeam sample.forbiddenRuntime testClient (some sample.teamCreate)).val = none ∧
      (client.CreateTeam sample.forbiddenRuntime testClient (some sample.teamCreate)).err
        = some "API request failed with status 403: forbidden") ∧
    ((client.CreatePipeline sample.forbiddenRuntime testClient
        (some sample.pipelineCreate)).val = none ∧
      (client.CreatePipeline sample.forbiddenRuntime testClient
        (some sample.pipelineCreate)).err
        = some "API request failed with status 403: forbidden") ∧
    ((client.UpdateEnv sample.forbiddenRuntime testClient "env-123"
        (some sample.envUpdate)).val = none ∧
      (client.UpdateEnv sample.forbiddenRuntime testClient "env-123"
        (some sample.envUpdate)).err
        = some "API request failed with status 403: forbidden") ∧
    ((client.UpdateTeam sample.forbiddenRuntime testClient "env-123"
        (some sample.teamUpdate)).val = none ∧
      (client.UpdateTeam sample.forbiddenRuntime testClient "env-123"
        (some sample.teamUpdate)).err
        = some "API request failed with status 403: forbidden") ∧
    ((client.UpdatePipeline sample.forbiddenRuntime testClient "env-123"
        (some sample.pipelineUpdate)).val = none ∧
      (client.UpdatePipeline sample.forbiddenRuntime testClient "env-123"
        (some sample.pipelineUpdate)).err
        = some "API request failed with status 403: forbidden") := by
  have h := (C4_create_update_non_2xx_is_error sample.forbiddenRuntime testClient "env-123"
    (some sample.envCreate) (some sample.envUpdate) (some sample.teamCreate)
    (some sample.teamUpdate) (some sample.pipelineCreate) (some sample.pipelineUpdate)).1
    ⟨403, ⟨"forbidden", none⟩⟩ (Or.inr (by decide))
  have hc : client.checkResponse ⟨403, ⟨"forbidden", none⟩⟩
      = some "API request failed with status 403: forbidden" := by decide
  rw [hc] at h
  obtain ⟨h1, h2, h3, h4, h5, h6⟩ := h
  exact ⟨⟨(h1 (testRuntime_answered _ _ _ _ _ _ _)).1, (h1 (testRuntime_answered _ _ _ _ _ _ _)).2.2⟩,
    ⟨(h2 (testRuntime_answered _ _ _ _ _ _ _)).1, (h2 (testRuntime_answered _ _ _ _ _ _ _)).2.2⟩,
    ⟨(h3 (testRuntime_answered _ _ _ _ _ _ _)).1, (h3 (testRuntime_answered _ _ _ _ _ _ _)).2.2⟩,
    ⟨(h4 (testRuntime_answered _ _ _ _ _ _ _)).1, (h4 (testRuntime_answered _ _ _ _ _ _ _)).2.2⟩,
    ⟨(h5 (testRuntime_answered _ _ _ _ _ _ _)).1, (h5 (testRuntime_answered _ _ _ _ _ _ _)).2.2⟩,
    ⟨(h6 (testRuntime_answered _ _ _ _ _ _ _)).1, (h6 (testRuntime_answered _ _ _ _ _ _ _)).2.2⟩⟩

/-- C5: checkResponse returns no error exactly when the status code s satisfies
200 <= s < 300; so 200 and 201 pass and 199, 300, 400 and 500 fail, whatever the body. -/
theorem C5_checkResponse_iff_2xx :
    (∀ resp : Response,
      client.checkResponse resp = none ↔ 200 ≤ resp.StatusCode ∧ resp.StatusCode < 300) ∧
    (∀ body : ResponseBody,
      client.checkResponse ⟨200, body⟩ = none ∧ client.checkResponse ⟨201, body⟩ = none ∧
      client.checkResponse ⟨400, body⟩ ≠ none ∧ client.checkResponse ⟨500, body⟩ ≠ none ∧
      client.checkResponse ⟨199, body⟩ ≠ none ∧ client.checkResponse ⟨300, body⟩ ≠ none) := by
  refine ⟨client.checkResponse_eq_none_iff, fun body => ⟨?_, ?_, ?_, ?_, ?_, ?_⟩⟩
  · exact (client.checkResponse_eq_none_iff _).2 (by simp)
  · exact (client.checkResponse_eq_none_iff _).2 (by simp)
  · exact fun h => absurd ((client.checkResponse_eq_none_iff _).1 h) (by simp)
  · exact fun h => absurd ((client.checkResponse_eq_none_iff _).1 h) (by simp)
  · exact fun h => absurd ((client.checkResponse_eq_none_iff _).1 h) (by simp)
  · exact fun h => absurd ((client.checkResponse_eq_none_iff _).1 h) (by simp)

/-! ### The decimal numeral of a status code -/

theorem digitChar_spec (m : Nat) (h : m < 10) :
    (Nat.digitChar m).toNat = 48 + m ∧ (Nat.digitChar m).isDigit = true := by
  interval_cases m <;> decide

theorem decimalValue_append (xs : List Char) (c : Char) :
    decimalValue (xs ++ [c]) = 10 * decimalValue xs + (c.toNat - 48) := by
  simp [decimalValue, List.foldl_append]

theorem toDigitsCore_spec (fuel : Nat) : ∀ (n : Nat) (ds : List Char), n < fuel →
    Nat.toDigitsCore 10 fuel n ds = Nat.toDigitsCore 10 fuel n [] ++ ds ∧
    decimalValue (Nat.toDigitsCore 10 fuel n []) = n ∧
    (∀ ch ∈ Nat.toDigitsCore 10 fuel n [], ch.isDigit = true) := by
  induction fuel with
  | zero => intro n ds h; omega
  | succ fuel ih =>
    intro n ds h
    have hd := digitChar_spec (n % 10) (Nat.mod_lt _ (by decide))
    by_cases h0 : n / 10 = 0
    · have hn : n % 10 = n := by omega
      simp only [Nat.toDigitsCore, h0, if_true]
      refine ⟨by simp, ?_, ?_⟩
      · rw [hn] at hd
        simp [decimalValue, hn, hd.1]
      · intro ch hch
        simp at hch
        rw [hch]; exact hd.2
    · have hlt : n / 10 < fuel := by omega
      simp only [Nat.toDigitsCore, h0, if_false]
      obtain ⟨e1, _, _⟩ := ih (n / 10) (Nat.digitChar (n % 10) :: ds) hlt
      obtain ⟨e2, v2, d2⟩ := ih (n / 10) [] hlt
      obtain ⟨e3, _, _⟩ := ih (n / 10) [Nat.digitChar (n % 10)] hlt
      refine ⟨?_, ?_, ?_⟩
      · rw [e1, e3]; simp
      · rw [e3, decimalValue_append, v2, hd.1]; omega
      · intro ch hch
        rw [e3] at hch
        simp at hch
        rcases hch with hch | hch
        · exact d2 ch hch
        · rw [hch]; exact hd.2

theorem toDigits_spec (n : Nat) :
    decimalValue (Nat.toDigits 10 n) = n ∧ (∀ ch ∈ Nat.toDigits 10 n, ch.isDigit = true) :=
  (toDigitsCore_spec (n + 1) n [] (Nat.lt_succ_self n)).2

theorem toString_int_data (s : Int) :
    decimalInt (toString s).data = s ∧ ':' ∉ (toString s).data := by
  cases s with
  | ofNat m =>
    obtain ⟨hv, hd⟩ := toDigits_spec m
    have hdata : (toString (Int.ofNat m)).data = Nat.toDigits 10 m := rfl
    rw [hdata]
    constructor
    · unfold decimalInt
      split
      · rename_i cs heq
        have := hd '-' (by rw [heq]; simp)
        exact absurd this (by decide)
      · simp [hv]
    · intro hmem
      exact absurd (hd _ hmem) (by decide)
  | negSucc m =>
    obtain ⟨hv, hd⟩ := toDigits_spec (m + 1)
    have hdata : (toString (Int.negSucc m)).data = '-' :: Nat.toDigits 10 (m + 1) := rfl
    rw [hdata]
    constructor
    · simp only [decimalInt, hv]
      rfl
    · intro hmem
      simp at hmem
      exact absurd (hd _ hmem) (by decide)

theorem append_sep_inj {α : Type} (a : α) : ∀ (xs ys r1 r2 : List α), a ∉ xs → a ∉ ys →
    xs ++ a :: r1 = ys ++ a :: r2 → xs = ys ∧ r1 = r2 := by
  intro xs
  induction xs with
  | nil =>
    intro ys r1 r2 _ hy h
    cases ys with
    | nil => simpa using h
    | cons y ys =>
      simp only [List.nil_append, List.cons_append, List.cons.injEq] at h
      exact absurd (h.1 ▸ List.mem_cons_self _ _) hy
  | cons x xs ih =>
    intro ys r1 r2 hx hy h
    cases ys with
    | nil =>
      simp only [List.nil_append, List.cons_append, List.cons.injEq] at h
      exact absurd (h.1 ▸ List.mem_cons_self _ _) hx
    | cons y ys =>
      simp only [List.cons_append, List.cons.injEq] at h
      obtain ⟨e1, e2⟩ := ih ys r1 r2 (fun hm => hx (List.mem_cons_of_mem _ hm))
        (fun hm => hy (List.mem_cons_of_mem _ hm)) h.2
      exact ⟨by rw [h.1, e1], e2⟩

/-- C6: for every response whose status s is outside 200..299 and whose body text is b, the
error of checkResponse is exactly "API request failed with status <s>: <b>", where <s> is
the decimal numeral of s and <b> the body text as read; status and body are recoverable:
two such responses with the same error have the same status and the same body text. -/
theorem C6_checkResponse_message :
    (∀ resp : Response, resp.StatusCode < 200 ∨ 300 ≤ resp.StatusCode →
      client.checkResponse resp = some ("API request failed with status "
        ++ toString resp.StatusCode ++ ": " ++ resp.Body.data)) ∧
    (∀ s : Int, decimalInt (toString s).data = s) ∧
    (∀ r1 r2 : Response, r1.StatusCode < 200 ∨ 300 ≤ r1.StatusCode →
      r2.StatusCode < 200 ∨ 300 ≤ r2.StatusCode →
      client.checkResponse r1 = client.checkResponse r2 →
      r1.StatusCode = r2.StatusCode ∧ r1.Body.data = r2.Body.data) := by
  refine ⟨fun resp h => client.checkResponse_of_not_2xx h,
    fun s => (toString_int_data s).1, fun r1 r2 h1 h2 h => ?_⟩
  rw [client.checkResponse_of_not_2xx h1, client.checkResponse_of_not_2xx h2] at h
  have hd := congrArg String.data (Option.some.inj h)
  simp only [String.data_append, List.append_assoc] at hd
  have hd2 := List.append_cancel_left hd
  simp only [List.cons_append, List.nil_append] at hd2
  obtain ⟨e1, e2⟩ := append_sep_inj ':' _ _ _ _ (toString_int_data r1.StatusCode).2
    (toString_int_data r2.StatusCode).2 hd2
  refine ⟨?_, ?_⟩
  · rw [← (toString_int_data r1.StatusCode).1, ← (toString_int_data r2.StatusCode).1, e1]
  · simp only [List.cons.injEq, true_and] at e2
    exact String.ext e2

/-- Witness of C6: status 404 with body "not found", and status 500 with an empty body. -/
theorem C6_checkResponse_message_witness :
    ((404 : Int) < 200 ∨ (300 : Int) ≤ 404) ∧
    client.checkResponse ⟨404, ⟨"not found", none⟩⟩
      = some "API request failed with status 404: not found" ∧
    client.checkResponse ⟨500, ⟨"", none⟩⟩ = some "API request failed with status 500: " :=
  ⟨Or.inr (by decide),
    C6_checkResponse_message.1 ⟨404, ⟨"not found", none⟩⟩ (Or.inr (by decide)),
    C6_checkResponse_message.1 ⟨500, ⟨"", none⟩⟩ (Or.inr (by decide))⟩

/-- C7: a 403 answer is treated as "not found" by GetPipeline alone: GetPipeline returns a
nil record and a nil error on status 403, whereas GetEnv and GetTeam return a nil record and
the non-nil error of checkResponse. -/
theorem C7_forbidden_is_absence_for_pipelines_only (rt : Runtime) (c : client.Client)
    (id : String) (resp : Response) (h403 : resp.StatusCode = 403) :
    (client.Answered rt c "GET" ("/pipelines/" ++ id) none resp →
      (client.GetPipeline rt c id).val = none ∧ (client.GetPipeline rt c id).err = none) ∧
    (client.Answered rt c "GET" ("/envs/" ++ id) none resp →
      (client.GetEnv rt c id).val = none ∧ (client.GetEnv rt c id).err ≠ none ∧
      (client.GetEnv rt c id).err = some ("API request failed with status 403: "
        ++ resp.Body.data)) ∧
    (client.Answered rt c "GET" ("/teams/" ++ id) none resp →
      (client.GetTeam rt c id).val = none ∧ (client.GetTeam rt c id).err ≠ none ∧
      (client.GetTeam rt c id).err = some ("API request failed with status 403: "
        ++ resp.Body.data)) := by
  have hs : resp.StatusCode < 200 ∨ 300 ≤ resp.StatusCode := by omega
  have hc := client.checkResponse_of_not_2xx hs
  rw [h403] at hc
  have hm : ("API request failed with status " ++ toString (403 : Int) ++ ": "
      ++ resp.Body.data) = "API request failed with status 403: " ++ resp.Body.data := by
    have : ("API request failed with status " ++ toString (403 : Int) ++ ": ")
        = "API request failed with status 403: " := by decide
    rw [this]
  rw [hm] at hc
  refine ⟨fun h => ?_, fun h => ?_, fun h => ?_⟩
  · simp [client.GetPipeline, http.MethodGet, client.doRequest_of_answered h, h403,
      http.StatusForbidden]
  · simp [client.GetEnv, http.MethodGet, client.doRequest_of_answered h, h403,
      http.StatusNotFound, hc]
  · simp [client.GetTeam, http.MethodGet, client.doRequest_of_answered h, h403,
      http.StatusNotFound, hc]

/-- Witness of C7: the three get calls against a server answering 403 with body
"forbidden". -/
theorem C7_forbidden_is_absence_for_pipelines_only_witness :
    ((client.GetPipeline sample.forbiddenRuntime testClient "pipeline-123").val = none ∧
      (client.GetPipeline sample.forbiddenRuntime testClient "pipeline-123").err = none) ∧
    (client.GetEnv sample.forbiddenRuntime testClient "env-123").err
      = some "API request failed with status 403: forbidden" ∧
    (client.GetTeam sample.forbiddenRuntime testClient "team-123").err
      = some "API request failed with status 403: forbidden" :=
  ⟨(C7_forbidden_is_absence_for_pipelines_only sample.forbiddenRuntime testClient
      "pipeline-123" ⟨403, ⟨"forbidden", none⟩⟩ rfl).1 (testRuntime_answered _ _ _ _ _ _ _),
    ((C7_forbidden_is_absence_for_pipelines_only sample.forbiddenRuntime testClient
      "env-123" ⟨403, ⟨"forbidden", none⟩⟩ rfl).2.1 (testRuntime_answered _ _ _ _ _ _ _)).2.2,
    ((C7_forbidden_is_absence_for_pipelines_only sample.forbiddenRuntime testClient
      "team-123" ⟨403, ⟨"forbidden", none⟩⟩ rfl).2.2 (testRuntime_answered _ _ _ _ _ _ _)).2.2⟩

/-! ### The request doRequest builds -/

theorem client.buildRequest_headers (c : client.Client) (method path : String)
    (body : Option Json) :
    (client.buildRequest c method path body).Header.Get "Authorization" = "Bearer " ++ c.Token ∧
    (client.buildRequest c method path body).Header.Get "Content-Type" = "application/json" ∧
    (client.buildRequest c method path body).Header.Get "Accept" = "application/json" := by
  simp [client.buildRequest, Header.Set, Header.Get, Header.empty, List.filter, List.find?]

/-- C8: for every client, method, path and body, every request doRequest builds and hands to
the HTTP client carries Authorization = "Bearer " followed by the token, Content-Type and
Accept both "application/json", and the URL base URL ++ path (with the given method and
body); and doRequest builds and issues exactly that one request whenever the body marshals
and the HTTP library accepts method and URL. -/
theorem C8_doRequest_headers_and_url (rt : Runtime) (c : client.Client) (method path : String)
    (body : Option Json) :
    (∀ req ∈ (client.doRequest rt c method path body).sent,
      req.Header.Get "Authorization" = "Bearer " ++ c.Token ∧
      req.Header.Get "Content-Type" = "application/json" ∧
      req.Header.Get "Accept" = "application/json" ∧
      req.URL = c.BaseURL ++ path ∧ req.Method = method ∧ req.Body = body) ∧
    (client.Created rt c method path body →
      ∃ req, (client.doRequest rt c method path body).sent = [req]) := by
  refine ⟨fun req hreq => ?_, fun hc => ?_⟩
  · rw [client.body_of_mem_doRequest_sent hreq]
    obtain ⟨h1, h2, h3⟩ := client.buildRequest_headers c method path body
    exact ⟨h1, h2, h3, rfl, rfl, rfl⟩
  · exact ⟨_, by rw [client.doRequest_sent, if_pos hc]⟩

/-- Witness of C8: the request of TestDoRequest, GET /test with token "test-token". -/
theorem C8_doRequest_headers_and_url_witness :
    client.Created (testRuntime 200 "ok" (.error "invalid character")) testClient "GET" "/test"
      none ∧
    ∃ req, (client.doRequest (testRuntime 200 "ok" (.error "invalid character")) testClient
        "GET" "/test" none).sent = [req] ∧
      req.Header.Get "Authorization" = "Bearer test-token" ∧
      req.Header.Get "Content-Type" = "application/json" ∧
      req.Header.Get "Accept" = "application/json" ∧
      req.URL = "https://api.example.com/test" := by
  have hc : client.Created (testRuntime 200 "ok" (.error "invalid character")) testClient
      "GET" "/test" none := ⟨rfl, rfl⟩
  have h := C8_doRequest_headers_and_url (testRuntime 200 "ok" (.error "invalid character"))
    testClient "GET" "/test" none
  obtain ⟨req, hreq⟩ := h.2 hc
  obtain ⟨h1, h2, h3, h4, _, _⟩ := h.1 req (by rw [hreq]; exact List.mem_singleton_self _)
  refine ⟨hc, req, hreq, ?_, h2, h3, ?_⟩
  · rw [h1]; decide
  · rw [h4]; decide

/-! ### Methods and paths -/

theorem client.issues_doRequest (rt : Runtime) (c : client.Client) (method path : String)
    (body : Option Json) :
    client.Issues rt c (client.doRequest rt c method path body).sent method path body := by
  refine ⟨fun req hreq => ?_, fun hc => ?_, fun hc => ?_⟩
  · rw [client.body_of_mem_doRequest_sent hreq]
    exact ⟨rfl, rfl, rfl⟩
  · exact ⟨_, by rw [client.doRequest_sent, if_pos hc]⟩
  · rw [client.doRequest_sent, if_neg hc]

/-- C9: for each resource type T in envs, teams, pipelines and every identifier id, create
issues POST to "/T/", get issues GET to "/T/" ++ id, update issues PATCH to "/T/" ++ id, and
(teams and pipelines) delete issues DELETE to "/T/" ++ id: every request the call sends has
that method and the URL base URL ++ path, and the call sends exactly one request whenever
the HTTP library lets the request be created (and none otherwise). -/
theorem C9_methods_and_paths (rt : Runtime) (c : client.Client) (id : String)
    (env : Option client.EnvCreate) (envU : Option client.EnvUpdate)
    (team : Option client.TeamCreate) (teamU : Option client.TeamUpdate)
    (pipeline : Option client.PipelineCreate) (pipelineU : Option client.PipelineUpdate) :
    client.Issues rt c (client.CreateEnv rt c env).sent "POST" "/envs/"
      (some (client.ptrJson client.EnvCreate.toJson env)) ∧
    client.Issues rt c (client.GetEnv rt c id).sent "GET" ("/envs/" ++ id) none ∧
    client.Issues rt c (client.UpdateEnv rt c id envU).sent "PATCH" ("/envs/" ++ id)
      (some (client.ptrJson client.EnvUpdate.toJson envU)) ∧
    client.Issues rt c (client.CreateTeam rt c team).sent "POST" "/teams/"
      (some (client.ptrJson client.TeamCreate.toJson team)) ∧
    client.Issues rt c (client.GetTeam rt c id).sent "GET" ("/teams/" ++ id) none ∧
    client.Issues rt c (client.UpdateTeam rt c id teamU).sent "PATCH" ("/teams/" ++ id)
      (some (client.ptrJson client.TeamUpdate.toJson teamU)) ∧
    client.Issues rt c (client.DeleteTeam rt c id).sent "DELETE" ("/teams/" ++ id) none ∧
    client.Issues rt c (client.CreatePipeline rt c pipeline).sent "POST" "/pipelines/"
      (some (client.ptrJson client.PipelineCreate.toJson pipeline)) ∧
    client.Issues rt c (client.GetPipeline rt c id).sent "GET" ("/pipelines/" ++ id) none ∧
    client.Issues rt c (client.UpdatePipeline rt c id pipelineU).sent "PATCH"
      ("/pipelines/" ++ id) (some (client.ptrJson client.PipelineUpdate.toJson pipelineU)) ∧
    client.Issues rt c (client.DeletePipeline rt c id).sent "DELETE" ("/pipelines/" ++ id)
      none := by
  refine ⟨?_, ?_, ?_, ?_, ?_, ?_, ?_, ?_, ?_, ?_, ?_⟩
  · rw [client.CreateEnv_sent]; exact client.issues_doRequest _ _ _ _ _
  · rw [client.GetEnv_sent]; exact client.issues_doRequest _ _ _ _ _
  · rw [client.UpdateEnv_sent]; exact client.issues_doRequest _ _ _ _ _
  · rw [client.CreateTeam_sent]; exact client.issues_doRequest _ _ _ _ _
  · rw [client.GetTeam_sent]; exact client.issues_doRequest _ _ _ _ _
  · rw [client.UpdateTeam_sent]; exact client.issues_doRequest _ _ _ _ _
  · rw [client.DeleteTeam_sent]; exact client.issues_doRequest _ _ _ _ _
  · rw [client.CreatePipeline_sent]; exact client.issues_doRequest _ _ _ _ _
  · rw [client.GetPipeline_sent]; exact client.issues_doRequest _ _ _ _ _
  · rw [client.UpdatePipeline_sent]; exact client.issues_doRequest _ _ _ _ _
  · rw [client.DeletePipeline_sent]; exact client.issues_doRequest _ _ _ _ _

/-- Witness of C9: against the test server, CreatePipeline sends one request, POST to
/pipelines/ (TestCreatePipeline), and DeleteTeam of "team-123" sends one request, DELETE to
/teams/team-123. -/
theorem C9_methods_and_paths_witness :
    (∃ req, (client.CreatePipeline sample.okRuntime testClient
        (some sample.pipelineCreate)).sent = [req] ∧
      req.Method = "POST" ∧ req.URL = "https://api.example.com/pipelines/") ∧
    (∃ req, (client.DeleteTeam sample.okRuntime testClient "team-123").sent = [req] ∧
      req.Method = "DELETE" ∧ req.URL = "https://api.example.com/teams/team-123") := by
  have h := C9_methods_and_paths sample.okRuntime testClient "team-123"
    (some sample.envCreate) (some sample.envUpdate) (some sample.teamCreate)
    (some sample.teamUpdate) (some sample.pipelineCreate) (some sample.pipelineUpdate)
  obtain ⟨_, _, _, _, _, _, hD, hP, _⟩ := h
  constructor
  · obtain ⟨req, hreq⟩ := hP.2.1 ⟨rfl, rfl⟩
    obtain ⟨h1, h2, _⟩ := hP.1 req (by rw [hreq]; exact List.mem_singleton_self _)
    exact ⟨req, hreq, h1, by rw [h2]; decide⟩
  · obtain ⟨req, hreq⟩ := hD.2.1 ⟨rfl, rfl⟩
    obtain ⟨h1, h2, _⟩ := hD.1 req (by rw [hreq]; exact List.mem_singleton_self _)
    exact ⟨req, hreq, h1, by rw [h2]; decide⟩

/-! ### Decoding the JSON encoding of a record -/

theorem gojson.foldName_tags :
    gojson.foldName "id" = "id" ∧ gojson.foldName "name" = "name" ∧
    gojson.foldName "description" = "description" ∧ gojson.foldName "env_id" = "env_id" ∧
    gojson.foldName "use_retention" = "use_retention" ∧
    gojson.foldName "retention_configuration" = "retention_configuration" ∧
    gojson.foldName "state" = "state" ∧ gojson.foldName "team_id" = "team_id" ∧
    gojson.foldName "team_name" = "team_name" ∧
    gojson.foldName "json_configuration" = "json_configuration" ∧
    gojson.foldName "source_name" = "source_name" ∧
    gojson.foldName "source_type" = "source_type" ∧
    gojson.foldName "source_config" = "source_config" ∧
    gojson.foldName "target_name" = "target_name" ∧
    gojson.foldName "target_type" = "target_type" ∧
    gojson.foldName "target_config" = "target_config" ∧
    gojson.foldName "smt_name" = "smt_name" ∧ gojson.foldName "smt_config" = "smt_config" ∧
    gojson.foldName "draft_step" = "draft_step" := by
  decide

theorem client.TeamRead_roundtrip (r : client.TeamRead) :
    gojson.intoStruct "client.TeamRead" client.TeamRead.setField client.TeamRead.zero
      (client.TeamRead.toJson r) = .ok r := by
  obtain ⟨h1, h2, h3, h4, -⟩ := gojson.foldName_tags
  rcases r with ⟨id, name, desc, _ | e⟩ <;>
    simp [gojson.intoStruct, client.TeamRead.toJson, gojson.object, client.TeamRead.setField,
      h1, h2, h3, h4, gojson.intoString, gojson.intoStringPtr, client.ptrJson, Except.map,
      client.TeamRead.zero]

theorem client.EnvRead_roundtrip (r : client.EnvRead) :
    ∃ r1, gojson.intoStruct "client.EnvRead" client.EnvRead.setField client.EnvRead.zero
        (client.EnvRead.toJson r) = .ok r1 ∧
      r1.ID = r.ID ∧ r1.Name = r.Name ∧ r1.UseRetention = r.UseRetention ∧
      (r.RetentionConfiguration = none → r1 = r) := by
  obtain ⟨h1, h2, -, -, h5, h6, -⟩ := gojson.foldName_tags
  rcases r with ⟨id, name, use, _ | _ | es⟩ <;>
    simp [gojson.intoStruct, client.EnvRead.toJson, gojson.object, client.EnvRead.setField,
      h1, h2, h5, h6, gojson.intoString, gojson.intoBool, gojson.intoMapPtr, client.omitEmpty,
      GoMap.toJson, Except.map, client.EnvRead.zero]

theorem client.PipelineConfiguration_decodes (p : client.PipelineConfiguration) :
    ∃ p1, client.intoConfigPtr "PipelineRead.json_configuration" none
      (client.PipelineConfiguration.toJson p) = .ok (some p1) := by
  obtain ⟨-, -, -, -, -, -, -, -, -, -, h1, h2, h3, h4, h5, h6, h7, h8, h9⟩ :=
    gojson.foldName_tags
  rcases p with ⟨sn, _ | st, _ | sc, tn, _ | tt, _ | tc, mn, _ | mc, ds⟩ <;>
    simp [client.intoConfigPtr, client.PipelineConfiguration.toJson, gojson.object,
      client.PipelineConfiguration.setField, h1, h2, h3, h4, h5, h6, h7, h8, h9,
      gojson.intoString, gojson.intoStringPtr, gojson.intoMap, gojson.intoSlice,
      client.omitEmpty, GoMap.toJson, GoSlice.toJson, Except.map,
      client.PipelineConfiguration.zero]

theorem client.PipelineRead_roundtrip (r : client.PipelineRead) :
    ∃ r1, gojson.intoStruct "client.PipelineRead" client.PipelineRead.setField
        client.PipelineRead.zero (client.PipelineRead.toJson r) = .ok r1 ∧
      r1.ID = r.ID ∧ r1.Name = r.Name ∧ r1.State = r.State ∧ r1.TeamID = r.TeamID ∧
      r1.TeamName = r.TeamName ∧ (r.JSONConfiguration = none → r1 = r) := by
  obtain ⟨h1, h2, -, -, -, -, h7, h8, h9, h10, -⟩ := gojson.foldName_tags
  rcases r with ⟨id, name, state, tid, tname, _ | cfg⟩
  · simp [gojson.intoStruct, client.PipelineRead.toJson, gojson.object,
      client.PipelineRead.setField, h1, h2, h7, h8, h9, h10, gojson.intoString,
      client.intoConfigPtr, client.ptrJson, Except.map, client.PipelineRead.zero]
  · obtain ⟨p1, hp⟩ := client.PipelineConfiguration_decodes cfg
    simp [gojson.intoStruct, client.PipelineRead.toJson, gojson.object,
      client.PipelineRead.setField, h1, h2, h7, h8, h9, h10, gojson.intoString,
      client.ptrJson, Except.map, client.PipelineRead.zero, hp]

theorem client.readResult_of_decoded {α : Type} (rt : Runtime) (ty : String)
    (setField : α → String → Json → Except GoError α) (zero : α) (sent : List Request)
    (resp : Response) (v : Json) (r : α) (hread : resp.Body.readErr = none)
    (hparse : rt.parse resp.Body.data = .ok v)
    (hdec : gojson.intoStruct ty setField zero v = .ok r) :
    client.readResult rt ty setField zero sent resp = ⟨sent, some r, none⟩ := by
  simp [client.readResult, io.ReadAll, hread, client.unmarshal, hparse, hdec]

/-- C10: for CreateEnv, CreateTeam and CreatePipeline and every request, when the server
answers with a 2xx status and a body that is the JSON encoding of a record r, the operation
returns a record with a nil error whose identifier, name (and use_retention, or state, team
and team name) are those of r; the record is r itself for teams, and for environments and
pipelines whose optional configuration is nil.  In particular, when r echoes the submitted
name, state and team, the returned values equal the submitted ones. -/
theorem C10_create_returns_decoded_record (rt : Runtime) (c : client.Client) (resp : Response)
    (h2xx : 200 ≤ resp.StatusCode ∧ resp.StatusCode < 300)
    (hread : resp.Body.readErr = none) :
    (∀ (env : Option client.EnvCreate) (r : client.EnvRead),
      client.Answered rt c "POST" "/envs/" (some (client.ptrJson client.EnvCreate.toJson env))
        resp →
      rt.parse resp.Body.data = .ok (client.EnvRead.toJson r) →
      (client.CreateEnv rt c env).err = none ∧
      ∃ r1, (client.CreateEnv rt c env).val = some r1 ∧ r1.ID = r.ID ∧ r1.Name = r.Name ∧
        r1.UseRetention = r.UseRetention ∧ (r.RetentionConfiguration = none → r1 = r)) ∧
    (∀ (team : Option client.TeamCreate) (r : client.TeamRead),
      client.Answered rt c "POST" "/teams/"
        (some (client.ptrJson client.TeamCreate.toJson team)) resp →
      rt.parse resp.Body.data = .ok (client.TeamRead.toJson r) →
      (client.CreateTeam rt c team).err = none ∧ (client.CreateTeam rt c team).val = some r) ∧
    (∀ (pipeline : Option client.PipelineCreate) (r : client.PipelineRead),
      client.Answered rt c "POST" "/pipelines/"
        (some (client.ptrJson client.PipelineCreate.toJson pipeline)) resp →
      rt.parse resp.Body.data = .ok (client.PipelineRead.toJson r) →
      (client.CreatePipeline rt c pipeline).err = none ∧
      ∃ r1, (client.CreatePipeline rt c pipeline).val = some r1 ∧ r1.ID = r.ID ∧
        r1.Name = r.Name ∧ r1.State = r.State ∧ r1.TeamID = r.TeamID ∧
        r1.TeamName = r.TeamName ∧ (r.JSONConfiguration = none → r1 = r) ∧
        ∀ p, pipeline = some p → r.Name = p.Name → r.State = p.State → r.TeamID = p.TeamID →
          r1.Name = p.Name ∧ r1.State = p.State ∧ r1.TeamID = p.TeamID) := by
  have hc := (client.checkResponse_eq_none_iff resp).2 h2xx
  refine ⟨fun env r ha hp => ?_, fun team r ha hp => ?_, fun pipeline r ha hp => ?_⟩
  · obtain ⟨r1, hdec, e1, e2, e3, e4⟩ := client.EnvRead_roundtrip r
    have hr := client.readResult_of_decoded rt "client.EnvRead" client.EnvRead.setField
      client.EnvRead.zero [client.buildRequest c "POST" "/envs/"
        (some (client.ptrJson client.EnvCreate.toJson env))] resp _ r1 hread hp hdec
    have hv : client.CreateEnv rt c env = ⟨[client.buildRequest c "POST" "/envs/"
        (some (client.ptrJson client.EnvCreate.toJson env))], some r1, none⟩ := by
      simp only [client.CreateEnv, http.MethodPost, client.doRequest_of_answered ha, hc, hr]
    rw [hv]
    exact ⟨rfl, r1, rfl, e1, e2, e3, e4⟩
  · have hdec := client.TeamRead_roundtrip r
    have hr := client.readResult_of_decoded rt "client.TeamRead" client.TeamRead.setField
      client.TeamRead.zero [client.buildRequest c "POST" "/teams/"
        (some (client.ptrJson client.TeamCreate.toJson team))] resp _ r hread hp hdec
    have hv : client.CreateTeam rt c team = ⟨[client.buildRequest c "POST" "/teams/"
        (some (client.ptrJson client.TeamCreate.toJson team))], some r, none⟩ := by
      simp only [client.CreateTeam, http.MethodPost, client.doRequest_of_answered ha, hc, hr]
    rw [hv]
    exact ⟨rfl, rfl⟩
  · obtain ⟨r1, hdec, e1, e2, e3, e4, e5, e6⟩ := client.PipelineRead_roundtrip r
    have hr := client.readResult_of_decoded rt "client.PipelineRead"
      client.PipelineRead.setField client.PipelineRead.zero
      [client.buildRequest c "POST" "/pipelines/"
        (some (client.ptrJson client.PipelineCreate.toJson pipeline))] resp _ r1 hread hp hdec
    have hv : client.CreatePipeline rt c pipeline
        = ⟨[client.buildRequest c "POST" "/pipelines/"
          (some (client.ptrJson client.PipelineCreate.toJson pipeline))], some r1, none⟩ := by
      simp only [client.CreatePipeline, http.MethodPost, client.doRequest_of_answered ha, hc,
        hr]
    rw [hv]
    refine ⟨rfl, r1, rfl, e1, e2, e3, e4, e5, e6, fun p _ n s t => ?_⟩
    exact ⟨e2.trans n, e3.trans s, e4.trans t⟩

/-- Witness of C10: TestCreatePipeline.  The server answers 201 with the encoding of the
record "pipeline-123" that echoes name "test-pipeline", state "draft" and team "team-123". -/
theorem C10_create_returns_decoded_record_witness :
    (200 ≤ (201 : Int) ∧ (201 : Int) < 300) ∧
    (client.CreatePipeline sample.createdRuntime testClient
      (some sample.pipelineCreate)).err = none ∧
    (client.CreatePipeline sample.createdRuntime testClient
      (some sample.pipelineCreate)).val = some sample.pipelineRead ∧
    sample.pipelineRead.Name = sample.pipelineCreate.Name ∧
    sample.pipelineRead.State = sample.pipelineCreate.State ∧
    sample.pipelineRead.TeamID = sample.pipelineCreate.TeamID := by
  have h := (C10_create_returns_decoded_record sample.createdRuntime testClient
    ⟨201, ⟨_, none⟩⟩ (by decide) rfl).2.2 (some sample.pipelineCreate) sample.pipelineRead
    (testRuntime_answered _ _ _ _ _ _ _) (by rfl)
  obtain ⟨herr, r1, hval, _, _, _, _, _, heq, _⟩ := h
  refine ⟨by decide, herr, ?_, rfl, rfl, rfl⟩
  rw [hval, heq rfl]

/-! ### The identifier a create call returns -/

theorem client.CreateEnv_not_absent (rt : Runtime) (c : client.Client)
    (env : Option client.EnvCreate) :
    ¬ ((client.CreateEnv rt c env).val = none ∧ (client.CreateEnv rt c env).err = none) := by
  unfold client.CreateEnv
  generalize client.doRequest rt c _ _ _ = ex
  rcases ex with ⟨sent, e | resp⟩ <;> dsimp only
  · simp
  · split
    · simp
    · exact client.readResult_not_absent _ _ _ _ _ _

theorem client.CreateTeam_not_absent (rt : Runtime) (c : client.Client)
    (team : Option client.TeamCreate) :
    ¬ ((client.CreateTeam rt c team).val = none ∧ (client.CreateTeam rt c team).err = none) := by
  unfold client.CreateTeam
  generalize client.doRequest rt c _ _ _ = ex
  rcases ex with ⟨sent, e | resp⟩ <;> dsimp only
  · simp
  · split
    · simp
    · exact client.readResult_not_absent _ _ _ _ _ _

theorem client.CreatePipeline_not_absent (rt : Runtime) (c : client.Client)
    (pipeline : Option client.PipelineCreate) :
    ¬ ((client.CreatePipeline rt c pipeline).val = none ∧
        (client.CreatePipeline rt c pipeline).err = none) := by
  unfold client.CreatePipeline
  generalize client.doRequest rt c _ _ _ = ex
  rcases ex with ⟨sent, e | resp⟩ <;> dsimp only
  · simp
  · split
    · simp
    · exact client.readResult_not_absent _ _ _ _ _ _

theorem client.CreateEnv_of_decoded (rt : Runtime) (c : client.Client)
    (env : Option client.EnvCreate) (resp : Response) (v : Json) (r : client.EnvRead)
    (ha : client.Answered rt c "POST" "/envs/"
      (some (client.ptrJson client.EnvCreate.toJson env)) resp)
    (h2xx : 200 ≤ resp.StatusCode ∧ resp.StatusCode < 300) (hread : resp.Body.readErr = none)
    (hparse : rt.parse resp.Body.data = .ok v)
    (hdec : gojson.intoStruct "client.EnvRead" client.EnvRead.setField client.EnvRead.zero v
      = .ok r) :
    client.CreateEnv rt c env = ⟨[client.buildRequest c "POST" "/envs/"
      (some (client.ptrJson client.EnvCreate.toJson env))], some r, none⟩ := by
  have hc := (client.checkResponse_eq_none_iff resp).2 h2xx
  have hr := client.readResult_of_decoded rt "client.EnvRead" client.EnvRead.setField
    client.EnvRead.zero [client.buildRequest c "POST" "/envs/"
      (some (client.ptrJson client.EnvCreate.toJson env))] resp v r hread hparse hdec
  simp only [client.CreateEnv, http.MethodPost, client.doRequest_of_answered ha, hc, hr]

theorem client.CreateTeam_of_decoded (rt : Runtime) (c : client.Client)
    (team : Option client.TeamCreate) (resp : Response) (v : Json) (r : client.TeamRead)
    (ha : client.Answered rt c "POST" "/teams/"
      (some (client.ptrJson client.TeamCreate.toJson team)) resp)
    (h2xx : 200 ≤ resp.StatusCode ∧ resp.StatusCode < 300) (hread : resp.Body.readErr = none)
    (hparse : rt.parse resp.Body.data = .ok v)
    (hdec : gojson.intoStruct "client.TeamRead" client.TeamRead.setField client.TeamRead.zero v
      = .ok r) :
    client.CreateTeam rt c team = ⟨[client.buildRequest c "POST" "/teams/"
      (some (client.ptrJson client.TeamCreate.toJson team))], some r, none⟩ := by
  have hc := (client.checkResponse_eq_none_iff resp).2 h2xx
  have hr := client.readResult_of_decoded rt "client.TeamRead" client.TeamRead.setField
    client.TeamRead.zero [client.buildRequest c "POST" "/teams/"
      (some (client.ptrJson client.TeamCreate.toJson team))] resp v r hread hparse hdec
  simp only [client.CreateTeam, http.MethodPost, client.doRequest_of_answered ha, hc, hr]

theorem client.CreatePipeline_of_decoded (rt : Runtime) (c : client.Client)
    (pipeline : Option client.PipelineCreate) (resp : Response) (v : Json)
    (r : client.PipelineRead)
    (ha : client.Answered rt c "POST" "/pipelines/"
      (some (client.ptrJson client.PipelineCreate.toJson pipeline)) resp)
    (h2xx : 200 ≤ resp.StatusCode ∧ resp.StatusCode < 300) (hread : resp.Body.readErr = none)
    (hparse : rt.parse resp.Body.data = .ok v)
    (hdec : gojson.intoStruct "client.PipelineRead" client.PipelineRead.setField
      client.PipelineRead.zero v = .ok r) :
    client.CreatePipeline rt c pipeline = ⟨[client.buildRequest c "POST" "/pipelines/"
      (some (client.ptrJson client.PipelineCreate.toJson pipeline))], some r, none⟩ := by
  have hc := (client.checkResponse_eq_none_iff resp).2 h2xx
  have hr := client.readResult_of_decoded rt "client.PipelineRead"
    client.PipelineRead.setField client.PipelineRead.zero
    [client.buildRequest c "POST" "/pipelines/"
      (some (client.ptrJson client.PipelineCreate.toJson pipeline))] resp v r hread hparse hdec
  simp only [client.CreatePipeline, http.MethodPost, client.doRequest_of_answered ha, hc, hr]

/-- Counterexample to C11: a server that answers each create request with status 201 and the
body `{}`.  CreateEnv, CreateTeam and CreatePipeline all return without error, and the record
returned has the empty string as identifier. -/
theorem C11_counterexample_empty_identifier :
    ((client.CreateEnv sample.emptyObjectRuntime testClient (some sample.envCreate)).err = none ∧
      ∃ r, (client.CreateEnv sample.emptyObjectRuntime testClient
        (some sample.envCreate)).val = some r ∧ r.ID = "") ∧
    ((client.CreateTeam sample.emptyObjectRuntime testClient (some sample.teamCreate)).err
        = none ∧
      ∃ r, (client.CreateTeam sample.emptyObjectRuntime testClient
        (some sample.teamCreate)).val = some r ∧ r.ID = "") ∧
    ((client.CreatePipeline sample.emptyObjectRuntime testClient
        (some sample.pipelineCreate)).err = none ∧
      ∃ r, (client.CreatePipeline sample.emptyObjectRuntime testClient
        (some sample.pipelineCreate)).val = some r ∧ r.ID = "") :=
  ⟨⟨rfl, client.EnvRead.zero, rfl, rfl⟩, ⟨rfl, client.TeamRead.zero, rfl, rfl⟩,
    ⟨rfl, client.PipelineRead.zero, rfl, rfl⟩⟩

/-- C11 (amended): every create call (CreateEnv, CreateTeam, CreatePipeline) that returns
without error returns a non-nil record, and its identifier is the one the response body
carries: when the server answers 2xx with the JSON encoding of a record r, the identifier
returned is r.ID, hence non-empty whenever r.ID is non-empty. -/
theorem C11_create_returns_identifier_of_body (rt : Runtime) (c : client.Client) :
    (∀ env : Option client.EnvCreate,
      ((client.CreateEnv rt c env).err = none → ∃ r, (client.CreateEnv rt c env).val = some r) ∧
      ∀ (resp : Response) (r : client.EnvRead),
        client.Answered rt c "POST" "/envs/"
          (some (client.ptrJson client.EnvCreate.toJson env)) resp →
        200 ≤ resp.StatusCode ∧ resp.StatusCode < 300 → resp.Body.readErr = none →
        rt.parse resp.Body.data = .ok (client.EnvRead.toJson r) →
        (client.CreateEnv rt c env).err = none ∧
        ∃ r1, (client.CreateEnv rt c env).val = some r1 ∧ r1.ID = r.ID ∧
          (r.ID ≠ "" → r1.ID ≠ "")) ∧
    (∀ team : Option client.TeamCreate,
      ((client.CreateTeam rt c team).err = none →
        ∃ r, (client.CreateTeam rt c team).val = some r) ∧
      ∀ (resp : Response) (r : client.TeamRead),
        client.Answered rt c "POST" "/teams/"
          (some (client.ptrJson client.TeamCreate.toJson team)) resp →
        200 ≤ resp.StatusCode ∧ resp.StatusCode < 300 → resp.Body.readErr = none →
        rt.parse resp.Body.data = .ok (client.TeamRead.toJson r) →
        (client.CreateTeam rt c team).err = none ∧
        ∃ r1, (client.CreateTeam rt c team).val = some r1 ∧ r1.ID = r.ID ∧
          (r.ID ≠ "" → r1.ID ≠ "")) ∧
    (∀ pipeline : Option client.PipelineCreate,
      ((client.CreatePipeline rt c pipeline).err = none →
        ∃ r, (client.CreatePipeline rt c pipeline).val = some r) ∧
      ∀ (resp : Response) (r : client.PipelineRead),
        client.Answered rt c "POST" "/pipelines/"
          (some (client.ptrJson client.PipelineCreate.toJson pipeline)) resp →
        200 ≤ resp.StatusCode ∧ resp.StatusCode < 300 → resp.Body.readErr = none →
        rt.parse resp.Body.data = .ok (client.PipelineRead.toJson r) →
        (client.CreatePipeline rt c pipeline).err = none ∧
        ∃ r1, (client.CreatePipeline rt c pipeline).val = some r1 ∧ r1.ID = r.ID ∧
          (r.ID ≠ "" → r1.ID ≠ "")) := by
  refine ⟨fun env => ⟨fun herr => ?_, fun resp r ha h2 hread hp => ?_⟩,
    fun team => ⟨fun herr => ?_, fun resp r ha h2 hread hp => ?_⟩,
    fun pipeline => ⟨fun herr => ?_, fun resp r ha h2 hread hp => ?_⟩⟩
  · cases hv : (client.CreateEnv rt c env).val with
    | none => exact absurd ⟨hv, herr⟩ (client.CreateEnv_not_absent rt c env)
    | some r => exact ⟨r, rfl⟩
  · obtain ⟨r1, hdec, e1, -⟩ := client.EnvRead_roundtrip r
    rw [client.CreateEnv_of_decoded rt c env resp _ r1 ha h2 hread hp hdec]
    exact ⟨rfl, r1, rfl, e1, fun h => e1 ▸ h⟩
  · cases hv : (client.CreateTeam rt c team).val with
    | none => exact absurd ⟨hv, herr⟩ (client.CreateTeam_not_absent rt c team)
    | some r => exact ⟨r, rfl⟩
  · have hdec := client.TeamRead_roundtrip r
    rw [client.CreateTeam_of_decoded rt c team resp _ r ha h2 hread hp hdec]
    exact ⟨rfl, r, rfl, rfl, fun h => h⟩
  · cases hv : (client.CreatePipeline rt c pipeline).val with
    | none => exact absurd ⟨hv, herr⟩ (client.CreatePipeline_not_absent rt c pipeline)
    | some r => exact ⟨r, rfl⟩
  · obtain ⟨r1, hdec, e1, -⟩ := client.PipelineRead_roundtrip r
    rw [client.CreatePipeline_of_decoded rt c pipeline resp _ r1 ha h2 hread hp hdec]
    exact ⟨rfl, r1, rfl, e1, fun h => e1 ▸ h⟩

/-- Witness of C11 (amended): the server of TestCreatePipeline answers 201 with the encoding
of the record "pipeline-123"; CreatePipeline returns without error a record whose identifier
is "pipeline-123". -/
theorem C11_create_returns_identifier_of_body_witness :
    (client.CreatePipeline sample.createdRuntime testClient
      (some sample.pipelineCreate)).err = none ∧
    sample.pipelineRead.ID ≠ "" ∧
    ∃ r1, (client.CreatePipeline sample.createdRuntime testClient
        (some sample.pipelineCreate)).val = some r1 ∧
      r1.ID = "pipeline-123" ∧ r1.ID ≠ "" := by
  have h := ((C11_create_returns_identifier_of_body sample.createdRuntime testClient).2.2
    (some sample.pipelineCreate)).2 ⟨201, ⟨_, none⟩⟩ sample.pipelineRead
    (testRuntime_answered _ _ _ _ _ _ _) (by decide) rfl (by rfl)
  obtain ⟨herr, r1, hval, hid, hne⟩ := h
  have hs : sample.pipelineRead.ID ≠ "" := by decide
  exact ⟨herr, hs, r1, hval, hid, hne hs⟩

/-! ### The Read handlers -/

theorem testRuntime_marshalTotal (status : Int) (body : String)
    (value : Except GoError Json) : MarshalTotal (testRuntime status body value) :=
  fun _ => ⟨_, rfl⟩

/-- C12: in the Read handlers of the environment, team and pipeline resources, when the
client's get operation returns a nil record with a nil error the handler removes the
resource from tracked state and adds no diagnostic; and the handler adds an error diagnostic
exactly when the get operation returns an error (for the environment resource: given that
json.Marshal does not fail on the retention configuration decoded from the response). -/
theorem C12_read_absent_removes_error_reports (rt : Runtime) (c : client.Client) :
    (∀ state : provider.envResourceModel,
      ((client.GetEnv rt c state.ID.ValueString).val = none ∧
          (client.GetEnv rt c state.ID.ValueString).err = none →
        (provider.envResource.Read rt c state).State = .removed ∧
        (provider.envResource.Read rt c state).Diagnostics = []) ∧
      ((client.GetEnv rt c state.ID.ValueString).err ≠ none →
        diag.HasError (provider.envResource.Read rt c state).Diagnostics = true) ∧
      (MarshalTotal rt →
        (diag.HasError (provider.envResource.Read rt c state).Diagnostics = true ↔
          (client.GetEnv rt c state.ID.ValueString).err ≠ none))) ∧
    (∀ state : provider.teamResourceModel,
      ((client.GetTeam rt c state.ID.ValueString).val = none ∧
          (client.GetTeam rt c state.ID.ValueString).err = none →
        (provider.teamResource.Read rt c state).State = .removed ∧
        (provider.teamResource.Read rt c state).Diagnostics = []) ∧
      (diag.HasError (provider.teamResource.Read rt c state).Diagnostics = true ↔
        (client.GetTeam rt c state.ID.ValueString).err ≠ none)) ∧
    (∀ state : provider.pipelineResourceModel,
      ((client.GetPipeline rt c state.ID.ValueString).val = none ∧
          (client.GetPipeline rt c state.ID.ValueString).err = none →
        (provider.pipelineResource.Read rt c state).State = .removed ∧
        (provider.pipelineResource.Read rt c state).Diagnostics = []) ∧
      (diag.HasError (provider.pipelineResource.Read rt c state).Diagnostics = true ↔
        (client.GetPipeline rt c state.ID.ValueString).err ≠ none)) := by
  refine ⟨fun state => ?_, fun state => ?_, fun state => ?_⟩
  · unfold provider.envResource.Read
    generalize client.GetEnv rt c state.ID.ValueString = call
    rcases call with ⟨sent, _ | env, _ | err⟩
    · simp [diag.HasError]
    · simp [diag.HasError, diag.AddError]
    · refine ⟨by simp, by simp, fun hm => ?_⟩
      dsimp only
      have hok : ∃ m, provider.envResource.fromRead rt state env = .ok m := by
        unfold provider.envResource.fromRead
        cases env.RetentionConfiguration with
        | none => exact ⟨_, rfl⟩
        | some config =>
          dsimp only
          obtain ⟨text, ht⟩ := hm (GoMap.toJson (provider.normalizeRetentionConfig config))
          rw [ht]
          exact ⟨_, rfl⟩
      obtain ⟨m, hmok⟩ := hok
      rw [hmok]
      simp [diag.HasError]
    · simp [diag.HasError, diag.AddError]
  · unfold provider.teamResource.Read
    generalize client.GetTeam rt c state.ID.ValueString = call
    rcases call with ⟨sent, _ | team, _ | err⟩ <;> simp [diag.HasError, diag.AddError]
  · unfold provider.pipelineResource.Read
    generalize client.GetPipeline rt c state.ID.ValueString = call
    rcases call with ⟨sent, _ | pipeline, _ | err⟩ <;> simp [diag.HasError, diag.AddError]

/-- Witness of C12: reading the team "team-123" from a server that answers 404 removes it
from state without diagnostic; reading the environment "env-123" from a server that answers
403 adds an error; reading it from a server that answers 200 adds none. -/
theorem C12_read_absent_removes_error_reports_witness :
    (((client.GetTeam sample.notFoundRuntime testClient "team-123").val = none ∧
        (client.GetTeam sample.notFoundRuntime testClient "team-123").err = none) ∧
      (provider.teamResource.Read sample.notFoundRuntime testClient sample.teamState).State
        = .removed ∧
      (provider.teamResource.Read sample.notFoundRuntime testClient
        sample.teamState).Diagnostics = []) ∧
    ((client.GetEnv sample.forbiddenRuntime testClient "env-123").err ≠ none ∧
      diag.HasError (provider.envResource.Read sample.forbiddenRuntime testClient
        sample.envState).Diagnostics = true) ∧
    (MarshalTotal sample.okRuntime ∧
      (client.GetEnv sample.okRuntime testClient "env-123").err = none ∧
      ¬ diag.HasError (provider.envResource.Read sample.okRuntime testClient
        sample.envState).Diagnostics = true) := by
  have hT := ((C12_read_absent_removes_error_reports sample.notFoundRuntime testClient).2.1
    sample.teamState).1
  have hF := ((C12_read_absent_removes_error_reports sample.forbiddenRuntime testClient).1
    sample.envState).2.1
  have hO := ((C12_read_absent_removes_error_reports sample.okRuntime testClient).1
    sample.envState).2.2 (testRuntime_marshalTotal _ _ _)
  have h1 : (client.GetTeam sample.notFoundRuntime testClient "team-123").val = none ∧
      (client.GetTeam sample.notFoundRuntime testClient "team-123").err = none := ⟨rfl, rfl⟩
  have h2 : (client.GetEnv sample.forbiddenRuntime testClient "env-123").err ≠ none := by
    decide
  have h3 : (client.GetEnv sample.okRuntime testClient "env-123").err = none := rfl
  exact ⟨⟨h1, hT h1⟩, ⟨h2, hF h2⟩, ⟨testRuntime_marshalTotal _ _ _, h3,
    fun h => (hO.1 h) h3⟩⟩

/-! ### The Delete handlers -/

/-- C13: the Delete handlers of the team and pipeline resources call the client's delete
operation once with the tracked identifier (the requests of the handler are those of that
one call, a DELETE to "/teams/" or "/pipelines/" followed by the identifier), and add an
error diagnostic if and only if that operation returns an error; so a 404 answer from the
server produces no diagnostic. -/
theorem C13_delete_reports_client_error (rt : Runtime) (c : client.Client) :
    (∀ state : provider.teamResourceModel,
      (provider.teamResource.Delete rt c state).sent
        = (client.DeleteTeam rt c state.ID.ValueString).sent ∧
      client.Issues rt c (provider.teamResource.Delete rt c state).sent "DELETE"
        ("/teams/" ++ state.ID.ValueString) none ∧
      (diag.HasError (provider.teamResource.Delete rt c state).Diagnostics = true ↔
        (client.DeleteTeam rt c state.ID.ValueString).err ≠ none) ∧
      ((client.DeleteTeam rt c state.ID.ValueString).err = none →
        (provider.teamResource.Delete rt c state).Diagnostics = []) ∧
      ∀ resp : Response,
        client.Answered rt c "DELETE" ("/teams/" ++ state.ID.ValueString) none resp →
        resp.StatusCode = 404 →
        (provider.teamResource.Delete rt c state).Diagnostics = []) ∧
    (∀ state : provider.pipelineResourceModel,
      (provider.pipelineResource.Delete rt c state).sent
        = (client.DeletePipeline rt c state.ID.ValueString).sent ∧
      client.Issues rt c (provider.pipelineResource.Delete rt c state).sent "DELETE"
        ("/pipelines/" ++ state.ID.ValueString) none ∧
      (diag.HasError (provider.pipelineResource.Delete rt c state).Diagnostics = true ↔
        (client.DeletePipeline rt c state.ID.ValueString).err ≠ none) ∧
      ((client.DeletePipeline rt c state.ID.ValueString).err = none →
        (provider.pipelineResource.Delete rt c state).Diagnostics = []) ∧
      ∀ resp : Response,
        client.Answered rt c "DELETE" ("/pipelines/" ++ state.ID.ValueString) none resp →
        resp.StatusCode = 404 →
        (provider.pipelineResource.Delete rt c state).Diagnostics = []) := by
  refine ⟨fun state => ?_, fun state => ?_⟩
  · have hsent : (provider.teamResource.Delete rt c state).sent
        = (client.DeleteTeam rt c state.ID.ValueString).sent := by
      unfold provider.teamResource.Delete
      generalize client.DeleteTeam rt c state.ID.ValueString = call
      rcases call with ⟨sent, _ | err⟩ <;> rfl
    have hdiag : (diag.HasError (provider.teamResource.Delete rt c state).Diagnostics = true ↔
          (client.DeleteTeam rt c state.ID.ValueString).err ≠ none) ∧
        ((client.DeleteTeam rt c state.ID.ValueString).err = none →
          (provider.teamResource.Delete rt c state).Diagnostics = []) := by
      unfold provider.teamResource.Delete
      generalize client.DeleteTeam rt c state.ID.ValueString = call
      rcases call with ⟨sent, _ | err⟩ <;> simp [diag.HasError, diag.AddError]
    refine ⟨hsent, ?_, hdiag.1, hdiag.2, fun resp ha h404 => hdiag.2 ?_⟩
    · rw [hsent, client.DeleteTeam_sent]
      exact client.issues_doRequest _ _ _ _ _
    · simp [client.DeleteTeam, http.MethodDelete, client.doRequest_of_answered ha, h404,
        http.StatusNotFound]
  · have hsent : (provider.pipelineResource.Delete rt c state).sent
        = (client.DeletePipeline rt c state.ID.ValueString).sent := by
      unfold provider.pipelineResource.Delete
      generalize client.DeletePipeline rt c state.ID.ValueString = call
      rcases call with ⟨sent, _ | err⟩ <;> rfl
    have hdiag : (diag.HasError (provider.pipelineResource.Delete rt c state).Diagnostics
            = true ↔ (client.DeletePipeline rt c state.ID.ValueString).err ≠ none) ∧
        ((client.DeletePipeline rt c state.ID.ValueString).err = none →
          (provider.pipelineResource.Delete rt c state).Diagnostics = []) := by
      unfold provider.pipelineResource.Delete
      generalize client.DeletePipeline rt c state.ID.ValueString = call
      rcases call with ⟨sent, _ | err⟩ <;> simp [diag.HasError, diag.AddError]
    refine ⟨hsent, ?_, hdiag.1, hdiag.2, fun resp ha h404 => hdiag.2 ?_⟩
    · rw [hsent, client.DeletePipeline_sent]
      exact client.issues_doRequest _ _ _ _ _
    · simp [client.DeletePipeline, http.MethodDelete, client.doRequest_of_answered ha, h404,
        http.StatusNotFound]

/-- Witness of C13: deleting the tracked team "team-123" and the tracked pipeline
"pipeline-123" on a server that answers 404 adds no diagnostic, and each handler sends one
request. -/
theorem C13_delete_reports_client_error_witness :
    ((provider.teamResource.Delete sample.notFoundRuntime testClient
        sample.teamState).Diagnostics = [] ∧
      ∃ req, (provider.teamResource.Delete sample.notFoundRuntime testClient
        sample.teamState).sent = [req]) ∧
    ((provider.pipelineResource.Delete sample.notFoundRuntime testClient
        sample.pipelineState).Diagnostics = [] ∧
      ∃ req, (provider.pipelineResource.Delete sample.notFoundRuntime testClient
        sample.pipelineState).sent = [req]) := by
  have hT := (C13_delete_reports_client_error sample.notFoundRuntime testClient).1
    sample.teamState
  have hP := (C13_delete_reports_client_error sample.notFoundRuntime testClient).2
    sample.pipelineState
  exact ⟨⟨hT.2.2.2.2 ⟨404, ⟨"", none⟩⟩ (testRuntime_answered _ _ _ _ _ _ _) rfl,
      hT.2.1.2.1 ⟨rfl, rfl⟩⟩,
    ⟨hP.2.2.2.2 ⟨404, ⟨"", none⟩⟩ (testRuntime_answered _ _ _ _ _ _ _) rfl,
      hP.2.1.2.1 ⟨rfl, rfl⟩⟩⟩

/-- C14: the environment resource's Delete handler is state-removal-only: for every tracked
state it issues no request, adds no error diagnostic, and adds exactly one diagnostic, a
warning titled "Environment Deletion Not Supported" whose text names the tracked
identifier. -/
theorem C14_env_delete_is_state_removal_only (rt : Runtime) (c : client.Client)
    (state : provider.envResourceModel) :
    (provider.envResource.Delete rt c state).sent = [] ∧
    diag.HasError (provider.envResource.Delete rt c state).Diagnostics = false ∧
    (provider.envResource.Delete rt c state).panicked = false ∧
    ∃ d, (provider.envResource.Delete rt c state).Diagnostics = [d] ∧
      d.Severity = diag.Severity.Warning ∧
      d.Summary = "Environment Deletion Not Supported" ∧
      d.Detail = "The Popsink API does not support deleting environments. Environment "
        ++ state.ID.ValueString
        ++ (" has been removed from Terraform state but still exists in the API. Please "
          ++ "manage environment deletion through the Popsink web interface or API "
          ++ "directly.") := by
  refine ⟨rfl, by simp [provider.envResource.Delete, diag.HasError, diag.AddWarning], rfl,
    _, rfl, rfl, rfl, ?_⟩
  have hs : (" has been removed from Terraform state but still exists in the API. "
        ++ "Please manage environment deletion through the Popsink web interface "
        ++ "or API directly.")
      = (" has been removed from Terraform state but still exists in the API. Please "
        ++ "manage environment deletion through the Popsink web interface or API "
        ++ "directly.") := by decide
  show _ ++ state.ID.ValueString ++ _ ++ _ ++ _ = _
  rw [← hs]
  simp only [String.append_assoc]

/-! ### The team Create handler -/

theorem provider.teamCreate_sent (rt : Runtime) (c : client.Client)
    (plan : provider.teamResourceModel) :
    (provider.teamResource.Create rt c plan).sent
      = (client.CreateTeam rt c (some (provider.teamResource.createReq plan))).sent := by
  unfold provider.teamResource.Create
  dsimp only
  generalize client.CreateTeam rt c _ = call
  rcases call with ⟨sent, _ | team, _ | err⟩ <;> rfl

/-- C15: in the team resource's Create handler, for every plan: the create payload carries
the planned name and description, and carries env_id exactly when the planned env_id is not
null; and for every record r that CreateTeam returns without error, the tracked state written
has id = r.ID, name = r.Name, description = r.Description, and env_id equal to r.EnvID when r
carries one and null when it does not. -/
theorem C15_team_create_payload_and_state (rt : Runtime) (c : client.Client)
    (plan : provider.teamResourceModel) :
    ((provider.teamResource.createReq plan).Name = plan.Name.ValueString ∧
      (provider.teamResource.createReq plan).Description = plan.Description.ValueString ∧
      (plan.EnvID = .null → (provider.teamResource.createReq plan).EnvID = none) ∧
      (plan.EnvID ≠ .null →
        (provider.teamResource.createReq plan).EnvID = some plan.EnvID.ValueString)) ∧
    (∀ req ∈ (provider.teamResource.Create rt c plan).sent,
      req.Method = "POST" ∧ req.URL = c.BaseURL ++ "/teams/" ∧
      req.Body = some (Json.obj ([("name", Json.str plan.Name.ValueString),
          ("description", Json.str plan.Description.ValueString)]
        ++ if plan.EnvID = .null then [] else [("env_id", Json.str plan.EnvID.ValueString)]))) ∧
    (∀ r : client.TeamRead,
      (client.CreateTeam rt c (some (provider.teamResource.createReq plan))).val = some r →
      (client.CreateTeam rt c (some (provider.teamResource.createReq plan))).err = none →
      (provider.teamResource.Create rt c plan).Diagnostics = [] ∧
      (provider.teamResource.Create rt c plan).State = .set
        { ID := .known r.ID, Name := .known r.Name, Description := .known r.Description,
          EnvID := match r.EnvID with
            | some envID => .known envID
            | none => .null }) := by
  have hreq : (provider.teamResource.createReq plan).Name = plan.Name.ValueString ∧
      (provider.teamResource.createReq plan).Description = plan.Description.ValueString ∧
      (plan.EnvID = .null → (provider.teamResource.createReq plan).EnvID = none) ∧
      (plan.EnvID ≠ .null →
        (provider.teamResource.createReq plan).EnvID = some plan.EnvID.ValueString) := by
    unfold provider.teamResource.createReq
    cases plan.EnvID <;> simp [basetypes.Attr.IsNull]
  refine ⟨hreq, fun req hreq2 => ?_, fun r hv he => ?_⟩
  · rw [provider.teamCreate_sent, client.CreateTeam_sent] at hreq2
    rw [client.body_of_mem_doRequest_sent hreq2]
    refine ⟨rfl, rfl, ?_⟩
    show some (client.ptrJson client.TeamCreate.toJson
      (some (provider.teamResource.createReq plan))) = _
    unfold provider.teamResource.createReq
    cases plan.EnvID <;>
      simp [basetypes.Attr.IsNull, client.ptrJson, client.TeamCreate.toJson, client.omitEmpty]
  · unfold provider.teamResource.Create
    dsimp only
    generalize client.CreateTeam rt c _ = call at hv he
    rcases call with ⟨sent, _ | team, _ | err⟩
    · simp at hv
    · simp at hv
    · simp only [Option.some.injEq] at hv
      subst hv
      refine ⟨rfl, ?_⟩
      dsimp only
      unfold provider.teamResource.fromRead
      cases team.EnvID <;> rfl
    · simp at he

/-- Witness of C15: the plan of TestCreateTeam (no environment) against a server that answers
201 with the record "team-123": the payload has exactly name and description, and the state
written is that record with a null env_id. -/
theorem C15_team_create_payload_and_state_witness :
    sample.newTeamPlan.EnvID = .null ∧
    (provider.teamResource.createReq sample.newTeamPlan).EnvID = none ∧
    client.buildRequest testClient "POST" "/teams/"
        (some (Json.obj [("name", Json.str "test-team"),
          ("description", Json.str "Test Description")]))
      ∈ (provider.teamResource.Create sample.teamCreatedRuntime testClient
          sample.newTeamPlan).sent ∧
    (client.CreateTeam sample.teamCreatedRuntime testClient
      (some (provider.teamResource.createReq sample.newTeamPlan))).val
      = some sample.teamRead ∧
    (provider.teamResource.Create sample.teamCreatedRuntime testClient
      sample.newTeamPlan).State = .set
        { ID := .known "team-123", Name := .known "test-team",
          Description := .known "Test Description", EnvID := .null } := by
  have h := C15_team_create_payload_and_state sample.teamCreatedRuntime testClient
    sample.newTeamPlan
  have hv : (client.CreateTeam sample.teamCreatedRuntime testClient
      (some (provider.teamResource.createReq sample.newTeamPlan))).val
      = some sample.teamRead := by rfl
  exact ⟨rfl, h.1.2.2.1 rfl, List.mem_singleton.mpr rfl, hv, (h.2.2 sample.teamRead hv rfl).2⟩

/-! ### Maps are kept sorted by key -/

theorem provider.resolve_eq (getenv : String → String)
    (config : provider.popsinkProviderModel) :
    provider.popsinkProvider.resolve getenv config
      = (if config.BaseURL = .null then getenv "POPSINK_BASE_URL"
          else config.BaseURL.ValueString,
         if config.Token = .null then getenv "POPSINK_TOKEN" else config.Token.ValueString) := by
  unfold provider.popsinkProvider.resolve
  cases config.BaseURL <;> cases config.Token <;> simp [basetypes.Attr.IsNull]

theorem provider.Configure_eq (getenv : String → String)
    (config : provider.popsinkProviderModel) (b t : String)
    (h : provider.popsinkProvider.resolve getenv config = (b, t)) :
    (b = "" → t = "" → ∃ d1 d2,
      provider.popsinkProvider.Configure getenv config = ⟨[d1, d2], none, none⟩ ∧
      d1.Summary = "Missing Base URL" ∧ d1.Severity = diag.Severity.Error ∧
      d1.Path = some "base_url" ∧
      d2.Summary = "Missing API Token" ∧ d2.Severity = diag.Severity.Error ∧
      d2.Path = some "token") ∧
    (b = "" → t ≠ "" → ∃ d1,
      provider.popsinkProvider.Configure getenv config = ⟨[d1], none, none⟩ ∧
      d1.Summary = "Missing Base URL" ∧ d1.Severity = diag.Severity.Error ∧
      d1.Path = some "base_url") ∧
    (b ≠ "" → t = "" → ∃ d2,
      provider.popsinkProvider.Configure getenv config = ⟨[d2], none, none⟩ ∧
      d2.Summary = "Missing API Token" ∧ d2.Severity = diag.Severity.Error ∧
      d2.Path = some "token") ∧
    (b ≠ "" → t ≠ "" →
      provider.popsinkProvider.Configure getenv config
        = ⟨[], some (client.NewClient b t), some (client.NewClient b t)⟩) := by
  unfold provider.popsinkProvider.Configure
  rw [h]
  refine ⟨fun hb ht => ?_, fun hb ht => ?_, fun hb ht => ?_, fun hb ht => ?_⟩
  · simp [hb, ht, diag.AddAttributeError, diag.HasError]
    exact ⟨_, _, ⟨rfl, rfl⟩, rfl, rfl, rfl, rfl, rfl, rfl⟩
  · simp [hb, ht, diag.AddAttributeError, diag.HasError]
  · simp [hb, ht, diag.AddAttributeError, diag.HasError]
  · simp [hb, ht, diag.HasError]

theorem provider.Configure_client (getenv : String → String)
    (config : provider.popsinkProviderModel) (cl : client.Client)
    (h : (provider.popsinkProvider.Configure getenv config).ResourceData = some cl) :
    (provider.popsinkProvider.resolve getenv config).1 ≠ "" ∧
    (provider.popsinkProvider.resolve getenv config).2 ≠ "" ∧
    cl = client.NewClient (provider.popsinkProvider.resolve getenv config).1
      (provider.popsinkProvider.resolve getenv config).2 := by
  obtain ⟨h1, h2, h3, h4⟩ := provider.Configure_eq getenv config
    (provider.popsinkProvider.resolve getenv config).1
    (provider.popsinkProvider.resolve getenv config).2 rfl
  by_cases hb : (provider.popsinkProvider.resolve getenv config).1 = "" <;>
    by_cases ht : (provider.popsinkProvider.resolve getenv config).2 = ""
  · obtain ⟨d1, d2, e, -⟩ := h1 hb ht
    rw [e] at h
    simp at h
  · obtain ⟨d1, e, -⟩ := h2 hb ht
    rw [e] at h
    simp at h
  · obtain ⟨d2, e, -⟩ := h3 hb ht
    rw [e] at h
    simp at h
  · rw [h4 hb ht] at h
    simp only [Option.some.injEq] at h
    exact ⟨hb, ht, h.symm⟩

/-- C17: in the provider's Configure, for the base URL and for the token alike, the value
used is the explicit configuration attribute whenever that attribute is not null (even when
it is the empty string), and otherwise the value of the environment variable
POPSINK_BASE_URL / POPSINK_TOKEN; a non-null attribute makes the value independent of the
environment.  The value used is the one the client handed to resources carries. -/
theorem C17_configure_explicit_over_environment (getenv : String → String)
    (config : provider.popsinkProviderModel) :
    ((config.BaseURL = .null →
        (provider.popsinkProvider.resolve getenv config).1 = getenv "POPSINK_BASE_URL") ∧
      (config.BaseURL ≠ .null →
        (provider.popsinkProvider.resolve getenv config).1 = config.BaseURL.ValueString) ∧
      (∀ v, config.BaseURL = .known v →
        (provider.popsinkProvider.resolve getenv config).1 = v) ∧
      (∀ getenv2 : String → String, config.BaseURL ≠ .null →
        (provider.popsinkProvider.resolve getenv2 config).1
          = (provider.popsinkProvider.resolve getenv config).1)) ∧
    ((config.Token = .null →
        (provider.popsinkProvider.resolve getenv config).2 = getenv "POPSINK_TOKEN") ∧
      (config.Token ≠ .null →
        (provider.popsinkProvider.resolve getenv config).2 = config.Token.ValueString) ∧
      (∀ v, config.Token = .known v →
        (provider.popsinkProvider.resolve getenv config).2 = v) ∧
      (∀ getenv2 : String → String, config.Token ≠ .null →
        (provider.popsinkProvider.resolve getenv2 config).2
          = (provider.popsinkProvider.resolve getenv config).2)) ∧
    (∀ cl, (provider.popsinkProvider.Configure getenv config).ResourceData = some cl →
      cl.BaseURL = (provider.popsinkProvider.resolve getenv config).1 ∧
      cl.Token = (provider.popsinkProvider.resolve getenv config).2) := by
  refine ⟨⟨fun h => ?_, fun h => ?_, fun v h => ?_, fun g h => ?_⟩,
    ⟨fun h => ?_, fun h => ?_, fun v h => ?_, fun g h => ?_⟩, fun cl h => ?_⟩
  · rw [provider.resolve_eq]; simp [h]
  · rw [provider.resolve_eq]; simp [h]
  · rw [provider.resolve_eq]; simp [h, basetypes.Attr.ValueString]
  · rw [provider.resolve_eq, provider.resolve_eq]; simp [h]
  · rw [provider.resolve_eq]; simp [h]
  · rw [provider.resolve_eq]; simp [h]
  · rw [provider.resolve_eq]; simp [h, basetypes.Attr.ValueString]
  · rw [provider.resolve_eq, provider.resolve_eq]; simp [h]
  · obtain ⟨-, -, e⟩ := provider.Configure_client getenv config cl h
    rw [e]
    exact ⟨rfl, rfl⟩

/-- Witness of C17: with POPSINK_BASE_URL and POPSINK_TOKEN both set in the environment, a
configuration with base_url = "" and no token resolves to the base URL "" (the attribute)
and the token of the environment; a configuration with a base_url and no token hands over a
client with that base URL and the token of the environment. -/
theorem C17_configure_explicit_over_environment_witness :
    sample.emptyBaseConfig.BaseURL = .known "" ∧ sample.emptyBaseConfig.Token = .null ∧
    (provider.popsinkProvider.resolve sample.getenv sample.emptyBaseConfig).1 = "" ∧
    (provider.popsinkProvider.resolve sample.getenv sample.emptyBaseConfig).2 = "env-token" ∧
    (provider.popsinkProvider.Configure sample.getenv sample.baseOnlyConfig).ResourceData
      = some ⟨"https://api.example.com", "env-token"⟩ ∧
    (provider.popsinkProvider.resolve sample.getenv sample.baseOnlyConfig).1
      = "https://api.example.com" := by
  have h := C17_configure_explicit_over_environment sample.getenv sample.emptyBaseConfig
  have h2 := C17_configure_explicit_over_environment sample.getenv sample.baseOnlyConfig
  have hr : (provider.popsinkProvider.Configure sample.getenv sample.baseOnlyConfig).ResourceData
      = some ⟨"https://api.example.com", "env-token"⟩ := by decide
  refine ⟨rfl, rfl, h.1.2.2.1 "" rfl, ?_, hr, ?_⟩
  · rw [h.2.1.1 rfl]; decide
  · rw [← (h2.2.2 _ hr).1]

/-- C18: in the provider's Configure, a "Missing Base URL" error is added if and only if the
resolved base URL is the empty string, and a "Missing API Token" error if and only if the
resolved token is the empty string (both, and nothing else, when both are empty); an API
client is handed to resources and data sources if and only if neither is empty, and then it
is NewClient of the resolved values: its BaseURL and Token equal them. -/
theorem C18_configure_missing_values (getenv : String → String)
    (config : provider.popsinkProviderModel) :
    ((∃ d ∈ (provider.popsinkProvider.Configure getenv config).Diagnostics,
        d.Summary = "Missing Base URL" ∧ d.Severity = diag.Severity.Error) ↔
      (provider.popsinkProvider.resolve getenv config).1 = "") ∧
    ((∃ d ∈ (provider.popsinkProvider.Configure getenv config).Diagnostics,
        d.Summary = "Missing API Token" ∧ d.Severity = diag.Severity.Error) ↔
      (provider.popsinkProvider.resolve getenv config).2 = "") ∧
    ((provider.popsinkProvider.resolve getenv config).1 = "" →
      (provider.popsinkProvider.resolve getenv config).2 = "" →
      (provider.popsinkProvider.Configure getenv config).Diagnostics.length = 2) ∧
    (∀ d ∈ (provider.popsinkProvider.Configure getenv config).Diagnostics,
      d.Summary = "Missing Base URL" ∨ d.Summary = "Missing API Token") ∧
    ((provider.popsinkProvider.Configure getenv config).ResourceData ≠ none ↔
      (provider.popsinkProvider.resolve getenv config).1 ≠ "" ∧
      (provider.popsinkProvider.resolve getenv config).2 ≠ "") ∧
    (provider.popsinkProvider.Configure getenv config).DataSourceData
      = (provider.popsinkProvider.Configure getenv config).ResourceData ∧
    (∀ cl, (provider.popsinkProvider.Configure getenv config).ResourceData = some cl →
      cl = client.NewClient (provider.popsinkProvider.resolve getenv config).1
        (provider.popsinkProvider.resolve getenv config).2 ∧
      cl.BaseURL = (provider.popsinkProvider.resolve getenv config).1 ∧
      cl.Token = (provider.popsinkProvider.resolve getenv config).2) := by
  obtain ⟨h1, h2, h3, h4⟩ := provider.Configure_eq getenv config
    (provider.popsinkProvider.resolve getenv config).1
    (provider.popsinkProvider.resolve getenv config).2 rfl
  have hcl : ∀ cl, (provider.popsinkProvider.Configure getenv config).ResourceData = some cl →
      cl = client.NewClient (provider.popsinkProvider.resolve getenv config).1
        (provider.popsinkProvider.resolve getenv config).2 ∧
      cl.BaseURL = (provider.popsinkProvider.resolve getenv config).1 ∧
      cl.Token = (provider.popsinkProvider.resolve getenv config).2 := by
    intro cl h
    obtain ⟨-, -, e⟩ := provider.Configure_client getenv config cl h
    rw [e]
    exact ⟨rfl, rfl, rfl⟩
  by_cases hb : (provider.popsinkProvider.resolve getenv config).1 = "" <;>
    by_cases ht : (provider.popsinkProvider.resolve getenv config).2 = ""
  · obtain ⟨d1, d2, e, s1, v1, -, s2, v2, -⟩ := h1 hb ht
    refine ⟨?_, ?_, ?_, ?_, ?_, ?_, hcl⟩ <;> rw [e]
    · simp [hb, s1, v1]
    · simp [ht, s2, v2]
    · simp
    · simp [s1, s2]
    · simp [hb]
  · obtain ⟨d1, e, s1, v1, -⟩ := h2 hb ht
    refine ⟨?_, ?_, ?_, ?_, ?_, ?_, hcl⟩ <;> rw [e]
    · simp [hb, s1, v1]
    · simp [ht, s1]
    · exact fun _ h => absurd h ht
    · simp [s1]
    · simp [hb]
  · obtain ⟨d2, e, s2, v2, -⟩ := h3 hb ht
    refine ⟨?_, ?_, ?_, ?_, ?_, ?_, hcl⟩ <;> rw [e]
    · simp [hb, s2]
    · simp [ht, s2, v2]
    · exact fun h _ => absurd h hb
    · simp [s2]
    · simp [ht]
  · have e := h4 hb ht
    refine ⟨?_, ?_, ?_, ?_, ?_, ?_, hcl⟩ <;> rw [e]
    · simp [hb]
    · simp [ht]
    · exact fun h _ => absurd h hb
    · simp
    · simp [hb, ht]

/-- Witness of C18: nothing configured and nothing in the environment gives the two errors
and no client; base_url = "" with both environment variables set gives the "Missing Base URL"
error and no client; a base_url with the token of the environment gives a client with these
two values. -/
theorem C18_configure_missing_values_witness :
    ((provider.popsinkProvider.resolve sample.noEnv sample.noConfig).1 = "" ∧
      (provider.popsinkProvider.resolve sample.noEnv sample.noConfig).2 = "" ∧
      (provider.popsinkProvider.Configure sample.noEnv sample.noConfig).Diagnostics.length
        = 2) ∧
    ((provider.popsinkProvider.resolve sample.getenv sample.emptyBaseConfig).1 = "" ∧
      (∃ d ∈ (provider.popsinkProvider.Configure sample.getenv
          sample.emptyBaseConfig).Diagnostics,
        d.Summary = "Missing Base URL" ∧ d.Severity = diag.Severity.Error) ∧
      ¬ (provider.popsinkProvider.Configure sample.getenv
          sample.emptyBaseConfig).ResourceData ≠ none) ∧
    ((provider.popsinkProvider.Configure sample.getenv sample.baseOnlyConfig).ResourceData
        = some ⟨"https://api.example.com", "env-token"⟩ ∧
      (provider.popsinkProvider.resolve sample.getenv sample.baseOnlyConfig).1
        = "https://api.example.com" ∧
      (provider.popsinkProvider.resolve sample.getenv sample.baseOnlyConfig).2
        = "env-token") := by
  have hN := C18_configure_missing_values sample.noEnv sample.noConfig
  have hE := C18_configure_missing_values sample.getenv sample.emptyBaseConfig
  have hB := C18_configure_missing_values sample.getenv sample.baseOnlyConfig
  have hr : (provider.popsinkProvider.Configure sample.getenv sample.baseOnlyConfig).ResourceData
      = some ⟨"https://api.example.com", "env-token"⟩ := by decide
  have hb : (provider.popsinkProvider.resolve sample.getenv sample.emptyBaseConfig).1 = "" :=
    rfl
  obtain ⟨-, e1, e2⟩ := hB.2.2.2.2.2.2 _ hr
  exact ⟨⟨rfl, rfl, hN.2.2.1 rfl rfl⟩,
    ⟨hb, hE.1.2 hb, fun h => (hE.2.2.2.2.1.1 h).1 hb⟩, ⟨hr, e1.symm, e2.symm⟩⟩

/-! ### Validators of the pipeline resource -/

theorem provider.isValidConnectorType_iff (t : String) :
    provider.isValidConnectorType t = true ↔
      t = "JOB_SMT" ∨ t = "KAFKA_SOURCE" ∨ t = "ORACLE_TARGET" := by
  simp [provider.isValidConnectorType, provider.validConnectorTypes]

theorem provider.not_validConnectorType {t : String}
    (h : ¬ provider.isValidConnectorType t = true) :
    ¬t = "JOB_SMT" ∧ ¬t = "KAFKA_SOURCE" ∧ ¬t = "ORACLE_TARGET" := by
  simpa [not_or] using fun h2 => h ((provider.isValidConnectorType_iff t).2 h2)

/-- C19: for a null or unknown value the connector-type validator adds no diagnostic; for a
known string that does not parse as a pipeline configuration it adds exactly one "Invalid
JSON" error; and for a known string that parses it adds no error (indeed no diagnostic) if
and only if source_type is absent or one of JOB_SMT, KAFKA_SOURCE, ORACLE_TARGET and
target_type is absent or one of JOB_SMT, KAFKA_SOURCE, ORACLE_TARGET. -/
theorem C19_connector_type_validator (rt : Runtime) (path : String) :
    (provider.jsonConnectorTypeValidator.ValidateString rt path .null = [] ∧
      provider.jsonConnectorTypeValidator.ValidateString rt path .unknown = []) ∧
    (∀ (s : String) (err : GoError),
      client.unmarshal rt "client.PipelineConfiguration" client.PipelineConfiguration.setField
        s client.PipelineConfiguration.zero = .error err →
      ∃ d, provider.jsonConnectorTypeValidator.ValidateString rt path (.known s) = [d] ∧
        d.Summary = "Invalid JSON" ∧ d.Severity = diag.Severity.Error ∧
        d.Path = some path) ∧
    (∀ (s : String) (config : client.PipelineConfiguration),
      client.unmarshal rt "client.PipelineConfiguration" client.PipelineConfiguration.setField
        s client.PipelineConfiguration.zero = .ok config →
      (diag.HasError (provider.jsonConnectorTypeValidator.ValidateString rt path (.known s))
          = false ↔
        (config.SourceType = none ∨ ∃ t, config.SourceType = some t ∧
          (t = "JOB_SMT" ∨ t = "KAFKA_SOURCE" ∨ t = "ORACLE_TARGET")) ∧
        (config.TargetType = none ∨ ∃ t, config.TargetType = some t ∧
          (t = "JOB_SMT" ∨ t = "KAFKA_SOURCE" ∨ t = "ORACLE_TARGET"))) ∧
      (diag.HasError (provider.jsonConnectorTypeValidator.ValidateString rt path (.known s))
          = false ↔
        provider.jsonConnectorTypeValidator.ValidateString rt path (.known s) = [])) := by
  refine ⟨⟨rfl, rfl⟩, fun s err h => ?_, fun s config h => ?_⟩
  · refine ⟨⟨diag.Severity.Error, "Invalid JSON", "Configuration must be valid JSON: " ++ err,
      some path⟩, ?_, rfl, rfl, rfl⟩
    simp [provider.jsonConnectorTypeValidator.ValidateString, basetypes.Attr.IsNull,
      basetypes.Attr.IsUnknown, basetypes.Attr.ValueString, h, diag.AddAttributeError]
  · have hv : provider.jsonConnectorTypeValidator.ValidateString rt path (.known s)
        = (match config.SourceType with
            | some sourceType =>
              if !provider.isValidConnectorType sourceType then
                diag.AddAttributeError [] path "Invalid Source Type"
                  ("source_type must be one of: "
                    ++ provider.fmtStrings provider.validConnectorTypes
                    ++ ", got: " ++ sourceType)
              else []
            | none => [])
          ++ (match config.TargetType with
            | some targetType =>
              if !provider.isValidConnectorType targetType then
                diag.AddAttributeError [] path "Invalid Target Type"
                  ("target_type must be one of: "
                    ++ provider.fmtStrings provider.validConnectorTypes
                    ++ ", got: " ++ targetType)
              else []
            | none => []) := by
      simp only [provider.jsonConnectorTypeValidator.ValidateString, basetypes.Attr.IsNull,
        basetypes.Attr.IsUnknown, basetypes.Attr.ValueString, h, Bool.or_self,
        Bool.false_eq_true, if_false]
      cases config.SourceType <;> cases config.TargetType <;>
        (simp [diag.AddAttributeError]; try (split_ifs <;> simp))
    rw [hv]
    cases hs : config.SourceType with
    | none =>
      cases ht : config.TargetType with
      | none => simp [diag.HasError]
      | some t =>
        by_cases hvt : provider.isValidConnectorType t = true
        · simp [diag.HasError, hvt, (provider.isValidConnectorType_iff t).1 hvt]
        · have hn := provider.not_validConnectorType hvt
          simp [diag.HasError, hvt, diag.AddAttributeError, hn]
    | some st =>
      by_cases hvs : provider.isValidConnectorType st = true
      · cases ht : config.TargetType with
        | none => simp [diag.HasError, hvs, (provider.isValidConnectorType_iff st).1 hvs]
        | some t =>
          by_cases hvt : provider.isValidConnectorType t = true
          · simp [diag.HasError, hvs, hvt, (provider.isValidConnectorType_iff st).1 hvs,
              (provider.isValidConnectorType_iff t).1 hvt]
          · have hn := provider.not_validConnectorType hvt
            simp [diag.HasError, hvs, hvt, diag.AddAttributeError, hn]
      · have hn := provider.not_validConnectorType hvs
        cases ht : config.TargetType with
        | none => simp [diag.HasError, hvs, diag.AddAttributeError, hn]
        | some t =>
          by_cases hvt : provider.isValidConnectorType t = true
          · simp [diag.HasError, hvs, hvt, diag.AddAttributeError, hn]
          · simp [diag.HasError, hvs, hvt, diag.AddAttributeError, hn]

/-- Witness of C19: a configuration text naming KAFKA_SOURCE and ORACLE_TARGET parses and
gets no diagnostic; a text the JSON layer rejects gets exactly one "Invalid JSON" error. -/
theorem C19_connector_type_validator_witness :
    (∃ config, client.unmarshal sample.connectorRuntime "client.PipelineConfiguration"
        client.PipelineConfiguration.setField sample.connectorText
        client.PipelineConfiguration.zero = .ok config ∧
      config.SourceType = some "KAFKA_SOURCE" ∧ config.TargetType = some "ORACLE_TARGET") ∧
    provider.jsonConnectorTypeValidator.ValidateString sample.connectorRuntime
      "json_configuration" (.known sample.connectorText) = [] ∧
    (client.unmarshal sample.connectorRuntime "client.PipelineConfiguration"
        client.PipelineConfiguration.setField "not json"
        client.PipelineConfiguration.zero = .error "invalid character" ∧
      ∃ d, provider.jsonConnectorTypeValidator.ValidateString sample.connectorRuntime
          "json_configuration" (.known "not json") = [d] ∧ d.Summary = "Invalid JSON") := by
  have h := C19_connector_type_validator sample.connectorRuntime "json_configuration"
  have hok : client.unmarshal sample.connectorRuntime "client.PipelineConfiguration"
      client.PipelineConfiguration.setField sample.connectorText
      client.PipelineConfiguration.zero
      = .ok { client.PipelineConfiguration.zero with
          SourceType := some "KAFKA_SOURCE", TargetType := some "ORACLE_TARGET" } := by rfl
  have herr : client.unmarshal sample.connectorRuntime "client.PipelineConfiguration"
      client.PipelineConfiguration.setField "not json"
      client.PipelineConfiguration.zero = .error "invalid character" := by rfl
  obtain ⟨hiff, hnone⟩ := h.2.2 _ _ hok
  obtain ⟨d, hd, hsum, -⟩ := h.2.1 _ _ herr
  refine ⟨⟨_, hok, rfl, rfl⟩, hnone.1 (hiff.2 ⟨Or.inr ⟨_, rfl, Or.inr (Or.inl rfl)⟩,
    Or.inr ⟨_, rfl, Or.inr (Or.inr rfl)⟩⟩), herr, d, hd, hsum⟩

/-- C20: the pipeline states the state attribute accepts (validPipelineStates, checked by
stringvalidator.OneOf) are exactly the five lifecycle states draft, paused, live, error,
building, which are the five PipelineState constants of the client: no other string is
accepted and none of the five is rejected. -/
theorem C20_valid_pipeline_states :
    provider.validPipelineStates
      = [client.PipelineStateDraft, client.PipelineStatePaused, client.PipelineStateLive,
          client.PipelineStateError, client.PipelineStateBuilding] ∧
    provider.validPipelineStates = ["draft", "paused", "live", "error", "building"] ∧
    (∀ s : String, stringvalidator.OneOf provider.validPipelineStates s = true ↔
      s = "draft" ∨ s = "paused" ∨ s = "live" ∨ s = "error" ∨ s = "building") ∧
    (∀ s : String, stringvalidator.OneOf provider.validPipelineStates s = true ↔
      s = client.PipelineStateDraft ∨ s = client.PipelineStatePaused ∨
      s = client.PipelineStateLive ∨ s = client.PipelineStateError ∨
      s = client.PipelineStateBuilding) ∧
    provider.validPipelineStates.Nodup ∧ provider.validPipelineStates.length = 5 := by
  refine ⟨rfl, rfl, fun s => ?_, fun s => ?_, by decide, rfl⟩
  · simp [stringvalidator.OneOf, provider.validPipelineStates]
  · simp [stringvalidator.OneOf, provider.validPipelineStates, client.PipelineStateDraft,
      client.PipelineStatePaused, client.PipelineStateLive, client.PipelineStateError,
      client.PipelineStateBuilding]

/-! ### The operations of the client that delete -/

theorem client.delete_path_ne_envs (base id id2 : String) :
    base ++ ("/teams/" ++ id) ≠ base ++ ("/envs/" ++ id2) ∧
    base ++ ("/pipelines/" ++ id) ≠ base ++ ("/envs/" ++ id2) := by
  constructor <;> intro h <;>
  · have hd := congrArg String.data h
    simp only [String.data_append] at hd
    have hd2 := List.append_cancel_left hd
    simp at hd2

theorem client.Operation.request_of_mem (rt : Runtime) (c : client.Client)
    (op : client.Operation) (req : Request) (h : req ∈ op.sent rt c) :
    (req.Method = "POST" ∨ req.Method = "GET" ∨ req.Method = "PATCH") ∨
    (req.Method = "DELETE" ∧
      ((∃ id, req.URL = c.BaseURL ++ ("/teams/" ++ id)) ∨
        (∃ id, req.URL = c.BaseURL ++ ("/pipelines/" ++ id)))) := by
  cases op with
  | CreateEnv env =>
    rw [client.Operation.sent, client.CreateEnv_sent] at h
    rw [client.body_of_mem_doRequest_sent h]; exact Or.inl (Or.inl rfl)
  | GetEnv id =>
    rw [client.Operation.sent, client.GetEnv_sent] at h
    rw [client.body_of_mem_doRequest_sent h]; exact Or.inl (Or.inr (Or.inl rfl))
  | UpdateEnv id env =>
    rw [client.Operation.sent, client.UpdateEnv_sent] at h
    rw [client.body_of_mem_doRequest_sent h]; exact Or.inl (Or.inr (Or.inr rfl))
  | CreateTeam team =>
    rw [client.Operation.sent, client.CreateTeam_sent] at h
    rw [client.body_of_mem_doRequest_sent h]; exact Or.inl (Or.inl rfl)
  | GetTeam id =>
    rw [client.Operation.sent, client.GetTeam_sent] at h
    rw [client.body_of_mem_doRequest_sent h]; exact Or.inl (Or.inr (Or.inl rfl))
  | UpdateTeam id team =>
    rw [client.Operation.sent, client.UpdateTeam_sent] at h
    rw [client.body_of_mem_doRequest_sent h]; exact Or.inl (Or.inr (Or.inr rfl))
  | DeleteTeam id =>
    rw [client.Operation.sent, client.DeleteTeam_sent] at h
    rw [client.body_of_mem_doRequest_sent h]; exact Or.inr ⟨rfl, Or.inl ⟨id, rfl⟩⟩
  | CreatePipeline p =>
    rw [client.Operation.sent, client.CreatePipeline_sent] at h
    rw [client.body_of_mem_doRequest_sent h]; exact Or.inl (Or.inl rfl)
  | GetPipeline id =>
    rw [client.Operation.sent, client.GetPipeline_sent] at h
    rw [client.body_of_mem_doRequest_sent h]; exact Or.inl (Or.inr (Or.inl rfl))
  | UpdatePipeline id p =>
    rw [client.Operation.sent, client.UpdatePipeline_sent] at h
    rw [client.body_of_mem_doRequest_sent h]; exact Or.inl (Or.inr (Or.inr rfl))
  | DeletePipeline id =>
    rw [client.Operation.sent, client.DeletePipeline_sent] at h
    rw [client.body_of_mem_doRequest_sent h]; exact Or.inr ⟨rfl, Or.inr ⟨id, rfl⟩⟩

theorem client.Operation.delete_of_mem (rt : Runtime) (c : client.Client)
    (op : client.Operation) (req : Request) (h : req ∈ op.sent rt c)
    (hdel : req.Method = "DELETE") :
    (∃ id, req.URL = c.BaseURL ++ ("/teams/" ++ id)) ∨
    (∃ id, req.URL = c.BaseURL ++ ("/pipelines/" ++ id)) := by
  rcases client.Operation.request_of_mem rt c op req h with (hm | hm | hm) | ⟨-, hu⟩
  · rw [hm] at hdel; exact absurd hdel (by decide)
  · rw [hm] at hdel; exact absurd hdel (by decide)
  · rw [hm] at hdel; exact absurd hdel (by decide)
  · exact hu

/-- Counterexample to C21: the client offers no DeleteEnv.  Against the server of
TestDeleteEnv (status 204) no operation of the client, whatever its arguments, issues a
DELETE request for the environment "env-123"; and against the server of
TestDeleteEnv_NotFound (status 404) none issues one for "nonexistent". -/
theorem C21_counterexample_no_delete_env :
    (¬ ∃ op : client.Operation, ∃ req ∈ op.sent sample.noContentRuntime testClient,
      req.Method = "DELETE" ∧ req.URL = testClient.BaseURL ++ ("/envs/" ++ "env-123")) ∧
    (¬ ∃ op : client.Operation, ∃ req ∈ op.sent sample.notFoundRuntime testClient,
      req.Method = "DELETE" ∧ req.URL = testClient.BaseURL ++ ("/envs/" ++ "nonexistent")) := by
  constructor
  · rintro ⟨op, req, hmem, hdel, hurl⟩
    rcases client.Operation.delete_of_mem _ _ op req hmem hdel with ⟨id, h⟩ | ⟨id, h⟩
    · exact (client.delete_path_ne_envs _ id "env-123").1 (h.symm.trans hurl)
    · exact (client.delete_path_ne_envs _ id "env-123").2 (h.symm.trans hurl)
  · rintro ⟨op, req, hmem, hdel, hurl⟩
    rcases client.Operation.delete_of_mem _ _ op req hmem hdel with ⟨id, h⟩ | ⟨id, h⟩
    · exact (client.delete_path_ne_envs _ id "nonexistent").1 (h.symm.trans hurl)
    · exact (client.delete_path_ne_envs _ id "nonexistent").2 (h.symm.trans hurl)

/-- C21 (amended): the client offers no DeleteEnv operation.  The only operations of the
client that issue a DELETE request are DeleteTeam and DeletePipeline: every DELETE request an
operation of the client issues goes to "/teams/" or "/pipelines/" followed by an identifier,
never to "/envs/" followed by an identifier; and the environment resource's Delete handler
issues no request. -/
theorem C21_client_deletes_teams_and_pipelines_only (rt : Runtime) (c : client.Client) :
    (∀ (op : client.Operation) (req : Request), req ∈ op.sent rt c → req.Method = "DELETE" →
      ((∃ id, op = .DeleteTeam id ∧ req.URL = c.BaseURL ++ ("/teams/" ++ id)) ∨
        (∃ id, op = .DeletePipeline id ∧ req.URL = c.BaseURL ++ ("/pipelines/" ++ id))) ∧
      ∀ envID : String, req.URL ≠ c.BaseURL ++ ("/envs/" ++ envID)) ∧
    (∀ state : provider.envResourceModel, (provider.envResource.Delete rt c state).sent = []) := by
  refine ⟨fun op req hmem hdel => ⟨?_, fun envID hurl => ?_⟩, fun state => rfl⟩
  · cases op with
    | DeleteTeam id =>
      rw [client.Operation.sent, client.DeleteTeam_sent] at hmem
      rw [client.body_of_mem_doRequest_sent hmem]
      exact Or.inl ⟨id, rfl, rfl⟩
    | DeletePipeline id =>
      rw [client.Operation.sent, client.DeletePipeline_sent] at hmem
      rw [client.body_of_mem_doRequest_sent hmem]
      exact Or.inr ⟨id, rfl, rfl⟩
    | CreateEnv env =>
      rw [client.Operation.sent, client.CreateEnv_sent] at hmem
      rw [client.body_of_mem_doRequest_sent hmem] at hdel
      simp [client.buildRequest] at hdel
    | GetEnv id =>
      rw [client.Operation.sent, client.GetEnv_sent] at hmem
      rw [client.body_of_mem_doRequest_sent hmem] at hdel
      simp [client.buildRequest] at hdel
    | UpdateEnv id env =>
      rw [client.Operation.sent, client.UpdateEnv_sent] at hmem
      rw [client.body_of_mem_doRequest_sent hmem] at hdel
      simp [client.buildRequest] at hdel
    | CreateTeam team =>
      rw [client.Operation.sent, client.CreateTeam_sent] at hmem
      rw [client.body_of_mem_doRequest_sent hmem] at hdel
      simp [client.buildRequest] at hdel
    | GetTeam id =>
      rw [client.Operation.sent, client.GetTeam_sent] at hmem
      rw [client.body_of_mem_doRequest_sent hmem] at hdel
      simp [client.buildRequest] at hdel
    | UpdateTeam id team =>
      rw [client.Operation.sent, client.UpdateTeam_sent] at hmem
      rw [client.body_of_mem_doRequest_sent hmem] at hdel
      simp [client.buildRequest] at hdel
    | CreatePipeline p =>
      rw [client.Operation.sent, client.CreatePipeline_sent] at hmem
      rw [client.body_of_mem_doRequest_sent hmem] at hdel
      simp [client.buildRequest] at hdel
    | GetPipeline id =>
      rw [client.Operation.sent, client.GetPipeline_sent] at hmem
      rw [client.body_of_mem_doRequest_sent hmem] at hdel
      simp [client.buildRequest] at hdel
    | UpdatePipeline id p =>
      rw [client.Operation.sent, client.UpdatePipeline_sent] at hmem
      rw [client.body_of_mem_doRequest_sent hmem] at hdel
      simp [client.buildRequest] at hdel
  · rcases client.Operation.delete_of_mem rt c op req hmem hdel with ⟨id, h⟩ | ⟨id, h⟩
    · exact (client.delete_path_ne_envs _ id envID).1 (h.symm.trans hurl)
    · exact (client.delete_path_ne_envs _ id envID).2 (h.symm.trans hurl)

/-- Witness of C21 (amended): DeleteTeam of "team-123" against the server of TestDeleteTeam
issues one request; it is a DELETE, and it goes to /teams/team-123. -/
theorem C21_client_deletes_teams_and_pipelines_only_witness :
    client.buildRequest testClient "DELETE" "/teams/team-123" none
      ∈ (client.Operation.DeleteTeam "team-123").sent sample.noContentRuntime testClient ∧
    (client.buildRequest testClient "DELETE" "/teams/team-123" none).Method = "DELETE" ∧
    ((∃ id, client.Operation.DeleteTeam "team-123" = .DeleteTeam id ∧
        (client.buildRequest testClient "DELETE" "/teams/team-123" none).URL
          = testClient.BaseURL ++ ("/teams/" ++ id)) ∨
      (∃ id, client.Operation.DeleteTeam "team-123" = .DeletePipeline id ∧
        (client.buildRequest testClient "DELETE" "/teams/team-123" none).URL
          = testClient.BaseURL ++ ("/pipelines/" ++ id))) := by
  have hmem : client.buildRequest testClient "DELETE" "/teams/team-123" none
      ∈ (client.Operation.DeleteTeam "team-123").sent sample.noContentRuntime testClient :=
    List.mem_singleton.mpr rfl
  exact ⟨hmem, rfl,
    ((C21_client_deletes_teams_and_pipelines_only sample.noContentRuntime testClient).1
      _ _ hmem rfl).1⟩

/-! ### Clearing an optional field in an update -/

/-- C22 (evaluation at the failing input): a team plan that sets env_id to null while the
tracked env_id is "env-123", and an environment plan that sets retention_configuration to
null while the tracked one is a non-empty configuration.  In both handlers the difference is
detected and the field of the update request is set to nil, which `omitempty` leaves out:
the update request has no field set, the payload is the empty object, and the request sent
is the very request sent when plan and state are equal. -/
theorem C22_clearing_sends_unchanged_payload :
    (sample.detachTeamPlan.EnvID = .null ∧ sample.attachedTeamState.EnvID = .known "env-123" ∧
      provider.teamResource.updateReq sample.detachTeamPlan sample.attachedTeamState
        = { Name := none, Description := none, EnvID := none } ∧
      client.TeamUpdate.toJson
        (provider.teamResource.updateReq sample.detachTeamPlan sample.attachedTeamState)
        = Json.obj [] ∧
      (provider.teamResource.Update sample.okRuntime testClient sample.detachTeamPlan
          sample.attachedTeamState).sent
        = [client.buildRequest testClient "PATCH" "/teams/team-123" (some (Json.obj []))] ∧
      (provider.teamResource.Update sample.okRuntime testClient sample.attachedTeamState
          sample.attachedTeamState).sent
        = [client.buildRequest testClient "PATCH" "/teams/team-123" (some (Json.obj []))]) ∧
    (sample.dropRetentionPlan.RetentionConfiguration = .null ∧
      sample.retainingEnvState.RetentionConfiguration.ValueString ≠ "" ∧
      (∃ updateReq, provider.envResource.updateReq sample.okRuntime sample.dropRetentionPlan
          sample.retainingEnvState = .ok updateReq ∧
        updateReq.Name = none ∧ updateReq.UseRetention = none ∧
        updateReq.RetentionConfiguration = none ∧
        client.EnvUpdate.toJson updateReq = Json.obj []) ∧
      (provider.envResource.Update sample.okRuntime testClient sample.dropRetentionPlan
          sample.retainingEnvState).sent
        = [client.buildRequest testClient "PATCH" "/envs/env-123" (some (Json.obj []))] ∧
      (provider.envResource.Update sample.okRuntime testClient sample.retainingEnvState
          sample.retainingEnvState).sent
        = [client.buildRequest testClient "PATCH" "/envs/env-123" (some (Json.obj []))]) := by
  refine ⟨⟨rfl, rfl, by decide, rfl, rfl, rfl⟩, ⟨rfl, by decide, ⟨_, rfl, rfl, rfl, rfl, rfl⟩,
    rfl, rfl⟩⟩

/-! ### Updates that change nothing -/

theorem provider.teamUpdateReq_of_equal (plan state : provider.teamResourceModel)
    (h1 : plan.Name = state.Name) (h2 : plan.Description = state.Description)
    (h3 : plan.EnvID = state.EnvID) :
    provider.teamResource.updateReq plan state
      = { Name := none, Description := none, EnvID := none } := by
  obtain ⟨a, b, c⟩ := provider.teamUpdateReq_unset plan state
  have ha := a h1
  have hb := b h2
  have hc := c h3
  rcases hu : provider.teamResource.updateReq plan state with ⟨n, d, e⟩
  rw [hu] at ha hb hc
  simp only at ha hb hc
  rw [ha, hb, hc]

theorem provider.envUpdateReq_of_equal (rt : Runtime) (plan state : provider.envResourceModel)
    (h1 : plan.Name = state.Name) (h2 : plan.UseRetention = state.UseRetention)
    (h3 : plan.RetentionConfiguration = state.RetentionConfiguration) :
    provider.envResource.updateReq rt plan state
      = .ok { Name := none, UseRetention := none, RetentionConfiguration := none } := by
  simp [provider.envResource.updateReq, basetypes.Attr.Equal, h1, h2, h3]

theorem provider.pipelineUpdateReq_of_equal (plan state : provider.pipelineResourceModel)
    (config : client.PipelineConfiguration)
    (h1 : plan.Name = state.Name) (h2 : plan.TeamID = state.TeamID)
    (h3 : plan.State = state.State)
    (h4 : plan.JSONConfiguration = state.JSONConfiguration) :
    provider.pipelineResource.updateReq plan state config
      = { Name := none, TeamID := none, State := none, JSONConfiguration := none } := by
  simp [provider.pipelineResource.updateReq, basetypes.Attr.Equal, h1, h2, h3, h4]

/-- Counterexample to C23: a tracked pipeline whose json_configuration is the string
"not json", and a plan equal to the tracked state in every field.  The server accepts every
request, yet the Update handler issues none: it stops at the parse of the planned string
with one "Invalid JSON Configuration" error. -/
theorem C23_counterexample_unparsable_configuration :
    client.Created sample.okRuntime testClient "PATCH" "/pipelines/pipeline-123"
      (some (Json.obj [])) ∧
    (provider.pipelineResource.Update sample.okRuntime testClient sample.brokenPipelineState
      sample.brokenPipelineState).sent = [] ∧
    (provider.pipelineResource.Update sample.okRuntime testClient sample.brokenPipelineState
      sample.brokenPipelineState).Diagnostics
      = [⟨diag.Severity.Error, "Invalid JSON Configuration",
          "Could not parse json_configuration: invalid character", none⟩] :=
  ⟨⟨rfl, rfl⟩, rfl, by decide⟩

/-- C23 (amended): in the Update handlers of the team and environment resources, and of the
pipeline resource when the planned json_configuration parses, when every mutable field of
the plan equals the tracked state the handler still calls the client's update operation
once on the tracked identifier, with an update request in which every field is unset and
whose payload is the empty JSON object: the requests of the handler are those of that one
call, a single PATCH to "/teams/", "/envs/" or "/pipelines/" followed by the identifier
whenever the request can be created. -/
theorem C23_update_without_change_still_calls (rt : Runtime) (c : client.Client) :
    (∀ plan state : provider.teamResourceModel,
      plan.Name = state.Name → plan.Description = state.Description →
      plan.EnvID = state.EnvID →
      provider.teamResource.updateReq plan state
        = { Name := none, Description := none, EnvID := none } ∧
      (provider.teamResource.Update rt c plan state).sent
        = (client.UpdateTeam rt c state.ID.ValueString
            (some { Name := none, Description := none, EnvID := none })).sent ∧
      client.Issues rt c (provider.teamResource.Update rt c plan state).sent "PATCH"
        ("/teams/" ++ state.ID.ValueString) (some (Json.obj []))) ∧
    (∀ plan state : provider.envResourceModel,
      plan.Name = state.Name → plan.UseRetention = state.UseRetention →
      plan.RetentionConfiguration = state.RetentionConfiguration →
      provider.envResource.updateReq rt plan state
        = .ok { Name := none, UseRetention := none, RetentionConfiguration := none } ∧
      (provider.envResource.Update rt c plan state).sent
        = (client.UpdateEnv rt c state.ID.ValueString
            (some ⟨none, none, none⟩)).sent ∧
      client.Issues rt c (provider.envResource.Update rt c plan state).sent "PATCH"
        ("/envs/" ++ state.ID.ValueString) (some (Json.obj []))) ∧
    (∀ (plan state : provider.pipelineResourceModel) (config : client.PipelineConfiguration),
      client.unmarshal rt "client.PipelineConfiguration" client.PipelineConfiguration.setField
        plan.JSONConfiguration.ValueString client.PipelineConfiguration.zero = .ok config →
      plan.Name = state.Name → plan.TeamID = state.TeamID → plan.State = state.State →
      plan.JSONConfiguration = state.JSONConfiguration →
      provider.pipelineResource.updateReq plan state config
        = { Name := none, TeamID := none, State := none, JSONConfiguration := none } ∧
      (provider.pipelineResource.Update rt c plan state).sent
        = (client.UpdatePipeline rt c state.ID.ValueString
            (some ⟨none, none, none, none⟩)).sent ∧
      client.Issues rt c (provider.pipelineResource.Update rt c plan state).sent "PATCH"
        ("/pipelines/" ++ state.ID.ValueString) (some (Json.obj []))) := by
  refine ⟨fun plan state h1 h2 h3 => ?_, fun plan state h1 h2 h3 => ?_,
    fun plan state config hp h1 h2 h3 h4 => ?_⟩
  · have hu := provider.teamUpdateReq_of_equal plan state h1 h2 h3
    have hs := provider.teamUpdate_sent rt c plan state
    rw [hu] at hs
    refine ⟨hu, hs, ?_⟩
    rw [hs, client.UpdateTeam_sent]
    exact client.issues_doRequest _ _ _ _ _
  · have hu := provider.envUpdateReq_of_equal rt plan state h1 h2 h3
    have hs := provider.envUpdate_sent rt c plan state _ hu
    refine ⟨hu, hs, ?_⟩
    rw [hs, client.UpdateEnv_sent]
    exact client.issues_doRequest _ _ _ _ _
  · have hu := provider.pipelineUpdateReq_of_equal plan state config h1 h2 h3 h4
    have hs := provider.pipelineUpdate_sent rt c plan state config hp
    rw [hu] at hs
    refine ⟨hu, hs, ?_⟩
    rw [hs, client.UpdatePipeline_sent]
    exact client.issues_doRequest _ _ _ _ _

/-- Witness of C23 (amended): updating the tracked team "team-123", the tracked environment
"env-123" and the tracked pipeline "pipeline-123" with plans equal to their states sends, in
each case, one PATCH request with the empty object as payload. -/
theorem C23_update_without_change_still_calls_witness :
    (provider.teamResource.Update sample.okRuntime testClient sample.teamState
        sample.teamState).sent
      = [client.buildRequest testClient "PATCH" "/teams/team-123" (some (Json.obj []))] ∧
    (provider.envResource.Update sample.okRuntime testClient sample.envState
        sample.envState).sent
      = [client.buildRequest testClient "PATCH" "/envs/env-123" (some (Json.obj []))] ∧
    (provider.pipelineResource.Update sample.okRuntime testClient sample.pipelineState
        sample.pipelineState).sent
      = [client.buildRequest testClient "PATCH" "/pipelines/pipeline-123"
          (some (Json.obj []))] := by
  have h := C23_update_without_change_still_calls sample.okRuntime testClient
  have hT := (h.1 sample.teamState sample.teamState rfl rfl rfl).2.2
  have hE := (h.2.1 sample.envState sample.envState rfl rfl rfl).2.2
  have hP := (h.2.2 sample.pipelineState sample.pipelineState client.PipelineConfiguration.zero
    (by rfl) rfl rfl rfl rfl).2.2
  refine ⟨?_, ?_, ?_⟩
  · obtain ⟨req, hreq⟩ := hT.2.1 ⟨rfl, rfl⟩
    rfl
  · obtain ⟨req, hreq⟩ := hE.2.1 ⟨rfl, rfl⟩
    rfl
  · obtain ⟨req, hreq⟩ := hP.2.1 ⟨rfl, rfl⟩
    rfl

/-! ### The tracked json_configuration of a pipeline -/

/-- C24: the pipeline resource never writes the API's configuration into tracked state.
After a successful Read the tracked id and json_configuration are those of the prior tracked
state; after a successful Create or Update the tracked json_configuration is the planned
string, whatever json_configuration the response record r carries.  In all three, name,
team_id, team_name and state are those of r (Create and Update also take the id from r). -/
theorem C24_pipeline_state_keeps_configuration (rt : Runtime) (c : client.Client) :
    (∀ (state : provider.pipelineResourceModel) (r : client.PipelineRead),
      (client.GetPipeline rt c state.ID.ValueString).val = some r →
      (client.GetPipeline rt c state.ID.ValueString).err = none →
      (provider.pipelineResource.Read rt c state).Diagnostics = [] ∧
      (provider.pipelineResource.Read rt c state).State = .set
        { ID := state.ID, Name := .known r.Name, TeamID := .known r.TeamID,
          TeamName := .known r.TeamName, State := .known r.State,
          JSONConfiguration := state.JSONConfiguration }) ∧
    (∀ (plan : provider.pipelineResourceModel) (config : client.PipelineConfiguration)
      (r : client.PipelineRead),
      client.unmarshal rt "client.PipelineConfiguration" client.PipelineConfiguration.setField
        plan.JSONConfiguration.ValueString client.PipelineConfiguration.zero = .ok config →
      (client.CreatePipeline rt c (some
        { Name := plan.Name.ValueString, TeamID := plan.TeamID.ValueString,
          State := plan.State.ValueString, JSONConfiguration := some config })).val = some r →
      (client.CreatePipeline rt c (some
        { Name := plan.Name.ValueString, TeamID := plan.TeamID.ValueString,
          State := plan.State.ValueString, JSONConfiguration := some config })).err = none →
      (provider.pipelineResource.Create rt c plan).Diagnostics = [] ∧
      (provider.pipelineResource.Create rt c plan).State = .set
        { ID := .known r.ID, Name := .known r.Name, TeamID := .known r.TeamID,
          TeamName := .known r.TeamName, State := .known r.State,
          JSONConfiguration := plan.JSONConfiguration }) ∧
    (∀ (plan state : provider.pipelineResourceModel) (config : client.PipelineConfiguration)
      (r : client.PipelineRead),
      client.unmarshal rt "client.PipelineConfiguration" client.PipelineConfiguration.setField
        plan.JSONConfiguration.ValueString client.PipelineConfiguration.zero = .ok config →
      (client.UpdatePipeline rt c state.ID.ValueString
        (some (provider.pipelineResource.updateReq plan state config))).val = some r →
      (client.UpdatePipeline rt c state.ID.ValueString
        (some (provider.pipelineResource.updateReq plan state config))).err = none →
      (provider.pipelineResource.Update rt c plan state).Diagnostics = [] ∧
      (provider.pipelineResource.Update rt c plan state).State = .set
        { ID := .known r.ID, Name := .known r.Name, TeamID := .known r.TeamID,
          TeamName := .known r.TeamName, State := .known r.State,
          JSONConfiguration := plan.JSONConfiguration }) := by
  refine ⟨fun state r hv he => ?_, fun plan config r hp hv he => ?_,
    fun plan state config r hp hv he => ?_⟩
  · unfold provider.pipelineResource.Read
    generalize client.GetPipeline rt c state.ID.ValueString = call at hv he
    rcases call with ⟨sent, _ | p, _ | err⟩
    · simp at hv
    · simp at hv
    · simp only [Option.some.injEq] at hv
      subst hv
      exact ⟨rfl, rfl⟩
    · simp at he
  · unfold provider.pipelineResource.Create
    rw [hp]
    dsimp only
    generalize client.CreatePipeline rt c _ = call at hv he
    rcases call with ⟨sent, _ | p, _ | err⟩
    · simp at hv
    · simp at hv
    · simp only [Option.some.injEq] at hv
      subst hv
      exact ⟨rfl, rfl⟩
    · simp at he
  · unfold provider.pipelineResource.Update
    rw [hp]
    dsimp only
    generalize client.UpdatePipeline rt c _ _ = call at hv he
    rcases call with ⟨sent, _ | p, _ | err⟩
    · simp at hv
    · simp at hv
    · simp only [Option.some.injEq] at hv
      subst hv
      exact ⟨rfl, rfl⟩
    · simp at he

/-- Witness of C24: reading the tracked pipeline "pipeline-123" (json_configuration `{}`)
from a server that answers with the record of TestCreatePipeline, which carries no
configuration: the state written keeps the id and the string `{}`. -/
theorem C24_pipeline_state_keeps_configuration_witness :
    (client.GetPipeline sample.createdRuntime testClient "pipeline-123").val
      = some sample.pipelineRead ∧
    (client.GetPipeline sample.createdRuntime testClient "pipeline-123").err = none ∧
    (provider.pipelineResource.Read sample.createdRuntime testClient
      sample.pipelineState).State = .set
        { ID := .known "pipeline-123", Name := .known "test-pipeline",
          TeamID := .known "team-123", TeamName := .known "Test Team",
          State := .known "draft", JSONConfiguration := .known "\x7b\x7d" } := by
  have hv : (client.GetPipeline sample.createdRuntime testClient "pipeline-123").val
      = some sample.pipelineRead := by rfl
  have he : (client.GetPipeline sample.createdRuntime testClient "pipeline-123").err = none :=
    by rfl
  exact ⟨hv, he, ((C24_pipeline_state_keeps_configuration sample.createdRuntime testClient).1
    sample.pipelineState sample.pipelineRead hv he).2⟩

/-- C25: in the pipeline resource's Create and Update handlers, when the planned
json_configuration string does not parse as a pipeline configuration, the handler adds
exactly one diagnostic, the error "Invalid JSON Configuration", issues no request and writes
no tracked state; for Update this holds whatever the tracked state is, also when its
json_configuration string equals the planned one. -/
theorem C25_pipeline_unparsable_configuration (rt : Runtime) (c : client.Client)
    (plan : provider.pipelineResourceModel) (err : GoError)
    (hparse : client.unmarshal rt "client.PipelineConfiguration"
      client.PipelineConfiguration.setField plan.JSONConfiguration.ValueString
      client.PipelineConfiguration.zero = .error err) :
    (provider.pipelineResource.Create rt c plan
      = { Diagnostics := [⟨diag.Severity.Error, "Invalid JSON Configuration",
            "Could not parse json_configuration: " ++ err, none⟩],
          State := .kept, sent := [], panicked := false }) ∧
    (∀ state : provider.pipelineResourceModel,
      provider.pipelineResource.Update rt c plan state
        = { Diagnostics := [⟨diag.Severity.Error, "Invalid JSON Configuration",
              "Could not parse json_configuration: " ++ err, none⟩],
            State := .kept, sent := [], panicked := false }) ∧
    (provider.pipelineResource.Update rt c plan plan).sent = [] ∧
    (provider.pipelineResource.Update rt c plan
      { plan with Name := .known "other" }).sent = [] := by
  have hU : ∀ state : provider.pipelineResourceModel,
      provider.pipelineResource.Update rt c plan state
        = { Diagnostics := [⟨diag.Severity.Error, "Invalid JSON Configuration",
              "Could not parse json_configuration: " ++ err, none⟩],
            State := .kept, sent := [], panicked := false } := by
    intro state
    unfold provider.pipelineResource.Update
    rw [hparse]
    rfl
  refine ⟨?_, hU, by rw [hU], by rw [hU]⟩
  unfold provider.pipelineResource.Create
  rw [hparse]
  rfl

/-- Witness of C25: the plan whose json_configuration is "not json", against a server that
accepts every request: Create and Update (with the tracked state equal to the plan) each add
the one error and send nothing. -/
theorem C25_pipeline_unparsable_configuration_witness :
    client.unmarshal sample.okRuntime "client.PipelineConfiguration"
      client.PipelineConfiguration.setField
      sample.brokenPipelineState.JSONConfiguration.ValueString
      client.PipelineConfiguration.zero = .error "invalid character" ∧
    (provider.pipelineResource.Create sample.okRuntime testClient
      sample.brokenPipelineState).sent = [] ∧
    (provider.pipelineResource.Create sample.okRuntime testClient
      sample.brokenPipelineState).Diagnostics.length = 1 ∧
    (provider.pipelineResource.Update sample.okRuntime testClient sample.brokenPipelineState
      sample.brokenPipelineState).sent = [] ∧
    (provider.pipelineResource.Update sample.okRuntime testClient sample.brokenPipelineState
      sample.brokenPipelineState).Diagnostics.length = 1 := by
  have hp : client.unmarshal sample.okRuntime "client.PipelineConfiguration"
      client.PipelineConfiguration.setField
      sample.brokenPipelineState.JSONConfiguration.ValueString
      client.PipelineConfiguration.zero = .error "invalid character" := by rfl
  have h := C25_pipeline_unparsable_configuration sample.okRuntime testClient
    sample.brokenPipelineState "invalid character" hp
  refine ⟨hp, ?_, ?_, ?_, ?_⟩
  · rw [h.1]
  · rw [h.1]; rfl
  · rw [h.2.1]
  · rw [h.2.1]; rfl

/-! ### When a get or delete call reports absence -/

theorem client.readResult_cases {α : Type} (rt : Runtime) (ty : String)
    (setField : α → String → Json → Except GoError α) (zero : α) (sent : List Request)
    (resp : Response) :
    ((client.readResult rt ty setField zero sent resp).val ≠ none ∧
        (client.readResult rt ty setField zero sent resp).err = none) ∨
    ((client.readResult rt ty setField zero sent resp).val = none ∧
        (client.readResult rt ty setField zero sent resp).err ≠ none) := by
  unfold client.readResult
  split
  · simp
  · split <;> simp

theorem client.GetEnv_of_answered (rt : Runtime) (c : client.Client) (id : String)
    (resp : Response) (ha : client.Answered rt c "GET" ("/envs/" ++ id) none resp) :
    client.GetEnv rt c id
      = if resp.StatusCode = 404 then ⟨[client.buildRequest c "GET" ("/envs/" ++ id) none],
          none, none⟩
        else match client.checkResponse resp with
          | some err => ⟨[client.buildRequest c "GET" ("/envs/" ++ id) none], none, some err⟩
          | none => client.readResult rt "client.EnvRead" client.EnvRead.setField
              client.EnvRead.zero [client.buildRequest c "GET" ("/envs/" ++ id) none] resp := by
  simp only [client.GetEnv, http.MethodGet, client.doRequest_of_answered ha,
    http.StatusNotFound]

theorem client.GetTeam_of_answered (rt : Runtime) (c : client.Client) (id : String)
    (resp : Response) (ha : client.Answered rt c "GET" ("/teams/" ++ id) none resp) :
    client.GetTeam rt c id
      = if resp.StatusCode = 404 then ⟨[client.buildRequest c "GET" ("/teams/" ++ id) none],
          none, none⟩
        else match client.checkResponse resp with
          | some err => ⟨[client.buildRequest c "GET" ("/teams/" ++ id) none], none, some err⟩
          | none => client.readResult rt "client.TeamRead" client.TeamRead.setField
              client.TeamRead.zero [client.buildRequest c "GET" ("/teams/" ++ id) none] resp := by
  simp only [client.GetTeam, http.MethodGet, client.doRequest_of_answered ha,
    http.StatusNotFound]

theorem client.GetPipeline_of_answered (rt : Runtime) (c : client.Client) (id : String)
    (resp : Response) (ha : client.Answered rt c "GET" ("/pipelines/" ++ id) none resp) :
    client.GetPipeline rt c id
      = if resp.StatusCode = 404 ∨ resp.StatusCode = 403 then
          ⟨[client.buildRequest c "GET" ("/pipelines/" ++ id) none], none, none⟩
        else match client.checkResponse resp with
          | some err =>
            ⟨[client.buildRequest c "GET" ("/pipelines/" ++ id) none], none, some err⟩
          | none => client.readResult rt "client.PipelineRead" client.PipelineRead.setField
              client.PipelineRead.zero
              [client.buildRequest c "GET" ("/pipelines/" ++ id) none] resp := by
  simp only [client.GetPipeline, http.MethodGet, client.doRequest_of_answered ha,
    http.StatusNotFound, http.StatusForbidden]

theorem client.get_shape {α : Type} (rt : Runtime) (ty : String)
    (setField : α → String → Json → Except GoError α) (zero : α) (sent : List Request)
    (resp : Response) (P : Prop) [Decidable P] (call : client.Call α)
    (hP : P → ¬ (200 ≤ resp.StatusCode ∧ resp.StatusCode < 300))
    (hcall : call = if P then ⟨sent, none, none⟩
      else match client.checkResponse resp with
        | some err => ⟨sent, none, some err⟩
        | none => client.readResult rt ty setField zero sent resp) :
    ((call.val = none ∧ call.err = none) ↔ P) ∧
    (200 ≤ resp.StatusCode ∧ resp.StatusCode < 300 →
      ((call.val ≠ none ∧ call.err = none) ∨ (call.val = none ∧ call.err ≠ none)) ∧
      (∀ r, resp.Body.readErr = none →
        client.unmarshal rt ty setField resp.Body.data zero = .ok r →
        call.val = some r ∧ call.err = none) ∧
      (resp.Body.readErr = none →
        rt.parse resp.Body.data = .ok Json.null ∨ rt.parse resp.Body.data = .ok (Json.obj []) →
        call.val = some zero ∧ call.err = none)) := by
  have hdec : ∀ r, resp.Body.readErr = none →
      client.unmarshal rt ty setField resp.Body.data zero = .ok r →
      client.readResult rt ty setField zero sent resp = ⟨sent, some r, none⟩ := by
    intro r hr hu
    simp [client.readResult, io.ReadAll, hr, hu]
  have hzero : resp.Body.readErr = none →
      rt.parse resp.Body.data = .ok Json.null ∨ rt.parse resp.Body.data = .ok (Json.obj []) →
      client.unmarshal rt ty setField resp.Body.data zero = .ok zero := by
    intro _ hp
    rcases hp with hp | hp <;> simp [client.unmarshal, hp, gojson.intoStruct, gojson.object]
  by_cases hp : P
  · rw [if_pos hp] at hcall
    subst hcall
    exact ⟨by simp [hp], fun h2 => absurd h2 (hP hp)⟩
  · rw [if_neg hp] at hcall
    cases hc : client.checkResponse resp with
    | some err =>
      rw [hc] at hcall
      subst hcall
      refine ⟨by simp [hp], fun h2 => ?_⟩
      rw [(client.checkResponse_eq_none_iff resp).2 h2] at hc
      simp at hc
    | none =>
      rw [hc] at hcall
      dsimp only at hcall
      subst hcall
      refine ⟨?_, fun _ => ⟨client.readResult_cases _ _ _ _ _ _, fun r hr hu => ?_,
        fun hr hpz => ?_⟩⟩
      · constructor
        · intro h
          exact absurd h (client.readResult_not_absent _ _ _ _ _ _)
        · intro h
          exact absurd h hp
      · rw [hdec r hr hu]
        exact ⟨rfl, rfl⟩
      · rw [hdec zero hr (hzero hr hpz)]
        exact ⟨rfl, rfl⟩

/-- C26: given that the server answered, GetEnv and GetTeam return a nil record with a nil
error if and only if the status is 404, and GetPipeline if and only if it is 404 or 403; for
every 2xx answer exactly one of the record and the error is non-nil, and a body that can be
read and decoded, even the JSON value null or {}, yields a non-nil record (for these two
bodies the zero record, whose identifier is the empty string). -/
theorem C26_get_absence_iff_status (rt : Runtime) (c : client.Client) (id : String)
    (resp : Response) :
    (client.Answered rt c "GET" ("/envs/" ++ id) none resp →
      (((client.GetEnv rt c id).val = none ∧ (client.GetEnv rt c id).err = none) ↔
        resp.StatusCode = 404) ∧
      (200 ≤ resp.StatusCode ∧ resp.StatusCode < 300 →
        (((client.GetEnv rt c id).val ≠ none ∧ (client.GetEnv rt c id).err = none) ∨
          ((client.GetEnv rt c id).val = none ∧ (client.GetEnv rt c id).err ≠ none)) ∧
        (∀ r, resp.Body.readErr = none →
          client.unmarshal rt "client.EnvRead" client.EnvRead.setField resp.Body.data
            client.EnvRead.zero = .ok r →
          (client.GetEnv rt c id).val = some r ∧ (client.GetEnv rt c id).err = none) ∧
        (resp.Body.readErr = none →
          rt.parse resp.Body.data = .ok Json.null ∨
            rt.parse resp.Body.data = .ok (Json.obj []) →
          (client.GetEnv rt c id).val = some client.EnvRead.zero ∧
          (client.GetEnv rt c id).err = none))) ∧
    (client.Answered rt c "GET" ("/teams/" ++ id) none resp →
      (((client.GetTeam rt c id).val = none ∧ (client.GetTeam rt c id).err = none) ↔
        resp.StatusCode = 404) ∧
      (200 ≤ resp.StatusCode ∧ resp.StatusCode < 300 →
        (((client.GetTeam rt c id).val ≠ none ∧ (client.GetTeam rt c id).err = none) ∨
          ((client.GetTeam rt c id).val = none ∧ (client.GetTeam rt c id).err ≠ none)) ∧
        (∀ r, resp.Body.readErr = none →
          client.unmarshal rt "client.TeamRead" client.TeamRead.setField resp.Body.data
            client.TeamRead.zero = .ok r →
          (client.GetTeam rt c id).val = some r ∧ (client.GetTeam rt c id).err = none) ∧
        (resp.Body.readErr = none →
          rt.parse resp.Body.data = .ok Json.null ∨
            rt.parse resp.Body.data = .ok (Json.obj []) →
          (client.GetTeam rt c id).val = some client.TeamRead.zero ∧
          (client.GetTeam rt c id).err = none))) ∧
    (client.Answered rt c "GET" ("/pipelines/" ++ id) none resp →
      (((client.GetPipeline rt c id).val = none ∧ (client.GetPipeline rt c id).err = none) ↔
        (resp.StatusCode = 404 ∨ resp.StatusCode = 403)) ∧
      (200 ≤ resp.StatusCode ∧ resp.StatusCode < 300 →
        (((client.GetPipeline rt c id).val ≠ none ∧ (client.GetPipeline rt c id).err = none) ∨
          ((client.GetPipeline rt c id).val = none ∧
            (client.GetPipeline rt c id).err ≠ none)) ∧
        (∀ r, resp.Body.readErr = none →
          client.unmarshal rt "client.PipelineRead" client.PipelineRead.setField
            resp.Body.data client.PipelineRead.zero = .ok r →
          (client.GetPipeline rt c id).val = some r ∧
          (client.GetPipeline rt c id).err = none) ∧
        (resp.Body.readErr = none →
          rt.parse resp.Body.data = .ok Json.null ∨
            rt.parse resp.Body.data = .ok (Json.obj []) →
          (client.GetPipeline rt c id).val = some client.PipelineRead.zero ∧
          (client.GetPipeline rt c id).err = none))) ∧
    client.EnvRead.zero.ID = "" ∧ client.TeamRead.zero.ID = "" ∧
    client.PipelineRead.zero.ID = "" := by
  refine ⟨fun ha => ?_, fun ha => ?_, fun ha => ?_, rfl, rfl, rfl⟩
  · exact client.get_shape rt _ _ _ _ resp (resp.StatusCode = 404) _ (fun h => by omega)
      (client.GetEnv_of_answered rt c id resp ha)
  · exact client.get_shape rt _ _ _ _ resp (resp.StatusCode = 404) _ (fun h => by omega)
      (client.GetTeam_of_answered rt c id resp ha)
  · exact client.get_shape rt _ _ _ _ resp (resp.StatusCode = 404 ∨ resp.StatusCode = 403) _
      (fun h => by omega) (client.GetPipeline_of_answered rt c id resp ha)

theorem C26_get_absence_iff_status_witness :
    ((client.GetEnv sample.okRuntime testClient "env-123").val = some client.EnvRead.zero ∧
      (client.GetEnv sample.okRuntime testClient "env-123").err = none) ∧
    ((client.GetTeam sample.okRuntime testClient "env-123").val = some client.TeamRead.zero ∧
      (client.GetTeam sample.okRuntime testClient "env-123").err = none) ∧
    ((client.GetPipeline sample.okRuntime testClient "env-123").val =
        some client.PipelineRead.zero ∧
      (client.GetPipeline sample.okRuntime testClient "env-123").err = none) :=
  have h := C26_get_absence_iff_status sample.okRuntime testClient "env-123"
    ⟨200, ⟨"\x7b\x7d", none⟩⟩
  ⟨((h.1 (testRuntime_answered _ _ _ _ _ _ _)).2 ⟨by decide, by decide⟩).2.2 rfl (Or.inr rfl),
    ((h.2.1 (testRuntime_answered _ _ _ _ _ _ _)).2 ⟨by decide, by decide⟩).2.2 rfl
      (Or.inr rfl),
    ((h.2.2.1 (testRuntime_answered _ _ _ _ _ _ _)).2 ⟨by decide, by decide⟩).2.2 rfl
      (Or.inr rfl)⟩

/-! ### Delete calls -/

theorem client.DeleteTeam_of_answered (rt : Runtime) (c : client.Client) (id : String)
    (resp : Response) (ha : client.Answered rt c "DELETE" ("/teams/" ++ id) none resp) :
    (client.DeleteTeam rt c id).err =
      if resp.StatusCode = 404 then none else client.checkResponse resp := by
  simp only [client.DeleteTeam, http.MethodDelete, client.doRequest_of_answered ha,
    http.StatusNotFound]
  split_ifs
  · rfl
  · cases client.checkResponse resp <;> rfl

theorem client.DeletePipeline_of_answered (rt : Runtime) (c : client.Client) (id : String)
    (resp : Response) (ha : client.Answered rt c "DELETE" ("/pipelines/" ++ id) none resp) :
    (client.DeletePipeline rt c id).err =
      if resp.StatusCode = 404 then none else client.checkResponse resp := by
  simp only [client.DeletePipeline, http.MethodDelete, client.doRequest_of_answered ha,
    http.StatusNotFound]
  split_ifs
  · rfl
  · cases client.checkResponse resp <;> rfl

theorem client.delete_err_iff (resp : Response) :
    ((if resp.StatusCode = 404 then none else client.checkResponse resp) = none) ↔
      (resp.StatusCode = 404 ∨ (200 ≤ resp.StatusCode ∧ resp.StatusCode < 300)) := by
  by_cases h : resp.StatusCode = 404
  · simp [h]
  · rw [if_neg h, client.checkResponse_eq_none_iff]
    simp [h]

/-- C27: given that the server answered, DeleteTeam and DeletePipeline return a nil error if
and only if the status is 404 or lies in 200..299; in particular on status 403 DeletePipeline
returns an error, although GetPipeline answered with 403 returns a nil record and a nil
error. -/
theorem C27_delete_nil_error_iff_status (rt : Runtime) (c : client.Client) (id : String)
    (resp : Response) :
    (client.Answered rt c "DELETE" ("/teams/" ++ id) none resp →
      ((client.DeleteTeam rt c id).err = none ↔
        (resp.StatusCode = 404 ∨ (200 ≤ resp.StatusCode ∧ resp.StatusCode < 300)))) ∧
    (client.Answered rt c "DELETE" ("/pipelines/" ++ id) none resp →
      ((client.DeletePipeline rt c id).err = none ↔
        (resp.StatusCode = 404 ∨ (200 ≤ resp.StatusCode ∧ resp.StatusCode < 300)))) ∧
    (resp.StatusCode = 403 →
      (client.Answered rt c "DELETE" ("/pipelines/" ++ id) none resp →
        (client.DeletePipeline rt c id).err ≠ none) ∧
      (client.Answered rt c "GET" ("/pipelines/" ++ id) none resp →
        (client.GetPipeline rt c id).val = none ∧ (client.GetPipeline rt c id).err = none)) := by
  refine ⟨fun ha => ?_, fun ha => ?_, fun h403 => ⟨fun ha => ?_, fun ha => ?_⟩⟩
  · rw [client.DeleteTeam_of_answered rt c id resp ha]
    exact client.delete_err_iff resp
  · rw [client.DeletePipeline_of_answered rt c id resp ha]
    exact client.delete_err_iff resp
  · rw [client.DeletePipeline_of_answered rt c id resp ha]
    intro h
    have := (client.delete_err_iff resp).1 h
    omega
  · rw [client.GetPipeline_of_answered rt c id resp ha, if_pos (Or.inr h403)]
    exact ⟨rfl, rfl⟩

theorem C27_delete_nil_error_iff_status_witness :
    (client.DeleteTeam sample.noContentRuntime testClient "team-123").err = none ∧
    (client.DeletePipeline sample.noContentRuntime testClient "pipeline-123").err = none ∧
    (client.DeletePipeline sample.forbiddenRuntime testClient "pipeline-123").err ≠ none ∧
    ((client.GetPipeline sample.forbiddenRuntime testClient "pipeline-123").val = none ∧
      (client.GetPipeline sample.forbiddenRuntime testClient "pipeline-123").err = none) :=
  ⟨((C27_delete_nil_error_iff_status sample.noContentRuntime testClient "team-123"
      ⟨204, ⟨"", none⟩⟩).1 (testRuntime_answered _ _ _ _ _ _ _)).2
      (Or.inr ⟨by decide, by decide⟩),
    ((C27_delete_nil_error_iff_status sample.noContentRuntime testClient "pipeline-123"
      ⟨204, ⟨"", none⟩⟩).2.1 (testRuntime_answered _ _ _ _ _ _ _)).2
      (Or.inr ⟨by decide, by decide⟩),
    ((C27_delete_nil_error_iff_status sample.forbiddenRuntime testClient "pipeline-123"
      ⟨403, ⟨"forbidden", none⟩⟩).2.2 rfl).1 (testRuntime_answered _ _ _ _ _ _ _),
    ((C27_delete_nil_error_iff_status sample.forbiddenRuntime testClient "pipeline-123"
      ⟨403, ⟨"forbidden", none⟩⟩).2.2 rfl).2 (testRuntime_answered _ _ _ _ _ _ _)⟩

/-! ### The normalized retention configuration -/

theorem GoMap.set_perm (k : String) (v : Json) (es : List (String × Json))
    (hk : k ∉ es.map Prod.fst) : (GoMap.set k v es).Perm ((k, v) :: es) := by
  induction es with
  | nil => exact List.Perm.refl _
  | cons e rest ih =>
    obtain ⟨k1, v1⟩ := e
    have hne : k ≠ k1 := fun h => hk (by simp [h])
    have hrest : k ∉ rest.map Prod.fst := fun h => hk (by simp at h ⊢; exact Or.inr h)
    unfold GoMap.set
    rw [if_neg hne]
    split_ifs
    · exact List.Perm.refl _
    · exact ((ih hrest).cons (k1, v1)).trans (List.Perm.swap _ _ _)

theorem provider.isNilOrEmptyString_eq_false (v : Json) :
    provider.isNilOrEmptyString v = false ↔ (v ≠ Json.null ∧ v ≠ Json.str "") := by
  cases v <;> simp [provider.isNilOrEmptyString]

theorem provider.normalize_fold_perm (es acc : List (String × Json))
    (hes : (es.map Prod.fst).Nodup)
    (hdis : ∀ k, k ∈ es.map Prod.fst → k ∉ acc.map Prod.fst) :
    (es.foldl (fun normalized kv =>
        if provider.isNilOrEmptyString kv.2 then normalized
        else GoMap.set kv.1 kv.2 normalized) acc).Perm
      (acc ++ es.filter (fun kv => !provider.isNilOrEmptyString kv.2)) := by
  induction es generalizing acc with
  | nil => simp
  | cons e rest ih =>
    obtain ⟨k, v⟩ := e
    rw [List.map_cons, List.nodup_cons] at hes
    rw [List.foldl_cons]
    by_cases hv : provider.isNilOrEmptyString v = true
    · simp only [hv, if_true]
      have := ih acc hes.2 (fun k1 hk1 => hdis k1 (by simp at hk1 ⊢; exact Or.inr hk1))
      simpa [List.filter_cons, hv] using this
    · simp only [hv, if_false]
      have hkacc : k ∉ acc.map Prod.fst := hdis k (by simp)
      have hp := GoMap.set_perm k v acc hkacc
      have := ih (GoMap.set k v acc) hes.2 (by
        intro k1 hk1 hmem
        have hmem2 := ((hp.map Prod.fst).mem_iff).1 hmem
        rw [List.map_cons, List.mem_cons] at hmem2
        rcases hmem2 with h | h
        · exact hes.1 (h ▸ hk1)
        · exact hdis k1 (by simp at hk1 ⊢; exact Or.inr hk1) h)
      refine this.trans ?_
      have hf : List.filter (fun kv => !provider.isNilOrEmptyString kv.2) ((k, v) :: rest) =
          (k, v) :: List.filter (fun kv => !provider.isNilOrEmptyString kv.2) rest := by
        simp [List.filter_cons, hv]
      rw [hf]
      exact (hp.append_right _).trans (List.perm_middle.symm)

theorem provider.normalizeRetentionConfig_perm (m : client.BrokerConfiguration)
    (hm : ((m.getD []).map Prod.fst).Nodup) :
    ∃ r, provider.normalizeRetentionConfig m = some r ∧
      r.Perm ((m.getD []).filter (fun kv => !provider.isNilOrEmptyString kv.2)) := by
  refine ⟨_, rfl, ?_⟩
  simpa using provider.normalize_fold_perm (m.getD []) [] hm (by simp)

theorem provider.MapHeap.getD_set_self (h : provider.MapHeap) (n : Nat)
    (x : List (String × Json)) (hn : n < h.length) : (h.set n x).getD n [] = x := by
  simp [List.getD_eq_getElem?_getD, hn]

theorem provider.MapHeap.set_getD_self (h : provider.MapHeap) (n : Nat) (hn : n < h.length) :
    h.set n (h.getD n []) = h := by
  apply List.ext_getElem? 
  intro i
  by_cases hi : n = i
  · subst hi
    simp [List.getD_eq_getElem?_getD, hn]
  · simp [List.getElem?_set, hi]

theorem provider.normalize_heap_fold (n : Nat) (es : List (String × Json))
    (hp : provider.MapHeap) (hn : n < hp.length) :
    es.foldl (fun hp kv =>
        if provider.isNilOrEmptyString kv.2 then hp else hp.assign n kv.1 kv.2) hp =
      hp.set n (es.foldl (fun normalized kv =>
        if provider.isNilOrEmptyString kv.2 then normalized
        else GoMap.set kv.1 kv.2 normalized) (hp.getD n [])) := by
  induction es generalizing hp with
  | nil => exact (provider.MapHeap.set_getD_self hp n hn).symm
  | cons e rest ih =>
    rw [List.foldl_cons, List.foldl_cons]
    by_cases hv : provider.isNilOrEmptyString e.2 = true
    · simp only [hv, if_true]
      exact ih hp hn
    · rw [if_neg hv, if_neg hv]
      have hn2 : n < (hp.assign n e.1 e.2).length := by
        simpa [provider.MapHeap.assign] using hn
      rw [ih _ hn2]
      simp only [provider.MapHeap.assign]
      rw [provider.MapHeap.getD_set_self hp n _ hn, List.set_set]

theorem provider.normalizeRetentionConfig.inMemory_eq (h : provider.MapHeap)
    (config : Option Nat) (hlive : ∀ a, config = some a → a < h.length) :
    provider.normalizeRetentionConfig.inMemory h config =
      ((h ++ [[]]).set h.length
        ((provider.normalizeRetentionConfig (h.read config)).getD []), h.length) := by
  have hent : provider.MapHeap.entries (h ++ [[]]) config = (h.read config).getD [] := by
    cases config with
    | none => rfl
    | some a =>
      have := hlive a rfl
      simp [provider.MapHeap.entries, provider.MapHeap.read, List.getD_eq_getElem?_getD,
        List.getElem?_append_left this]
  simp only [provider.normalizeRetentionConfig.inMemory, provider.MapHeap.make, hent]
  rw [provider.normalize_heap_fold h.length _ _ (by simp)]
  simp [provider.normalizeRetentionConfig, List.getD_eq_getElem?_getD]

/-- C28: for every retention configuration m (a Go map: no key occurs twice),
normalizeRetentionConfig(m) is a non-nil map r that contains exactly the entries (k, v) of m
whose value is neither null nor the empty string, each with its value unchanged; r has no
key twice, its keys are keys of m, and no value in it is null or the empty string.  Run on
a memory in which `config` refers to m, the function returns a reference to r and leaves m,
and every other map allocated before the call, as it was. -/
theorem C28_normalized_retention_config (m : client.BrokerConfiguration)
    (hkeys : ((m.getD []).map Prod.fst).Nodup) :
    ∃ r, provider.normalizeRetentionConfig m = some r ∧
      (∀ k v, (k, v) ∈ r ↔ ((k, v) ∈ m.getD [] ∧ v ≠ Json.null ∧ v ≠ Json.str "")) ∧
      (r.map Prod.fst).Nodup ∧
      (∀ k, k ∈ r.map Prod.fst → k ∈ (m.getD []).map Prod.fst) ∧
      (∀ k v, (k, v) ∈ r → v ≠ Json.null ∧ v ≠ Json.str "") ∧
      (∀ (h : provider.MapHeap) (config : Option Nat),
        h.read config = m → (∀ a, config = some a → a < h.length) →
        (provider.normalizeRetentionConfig.inMemory h config).1.read
            (some (provider.normalizeRetentionConfig.inMemory h config).2) = some r ∧
          (provider.normalizeRetentionConfig.inMemory h config).1.read config = m ∧
          (∀ a, a < h.length →
            (provider.normalizeRetentionConfig.inMemory h config).1.getD a [] =
              h.getD a [])) := by
  obtain ⟨r, hr, hperm⟩ := provider.normalizeRetentionConfig_perm m hkeys
  have hmem : ∀ k v, (k, v) ∈ r ↔ ((k, v) ∈ m.getD [] ∧ v ≠ Json.null ∧ v ≠ Json.str "") := by
    intro k v
    rw [hperm.mem_iff, List.mem_filter, ← provider.isNilOrEmptyString_eq_false]
    simp
  have hold : ∀ (h : provider.MapHeap) (x : List (String × Json)) (a : Nat),
      a < h.length → ((h ++ [[]]).set h.length x).getD a [] = h.getD a [] := by
    intro h x a ha
    have hne : h.length ≠ a := by omega
    simp [List.getD_eq_getElem?_getD, List.getElem?_set, hne, List.getElem?_append_left ha]
  refine ⟨r, hr, hmem, ?_, ?_, fun k v hkv => ((hmem k v).1 hkv).2, ?_⟩
  · exact (hperm.map Prod.fst).nodup_iff.2
      (hkeys.sublist ((List.filter_sublist _).map Prod.fst))
  · intro k hk
    obtain ⟨⟨k1, v1⟩, hin, rfl⟩ := List.mem_map.1 hk
    exact List.mem_map.2 ⟨(k1, v1), ((hmem k1 v1).1 hin).1, rfl⟩
  · intro h config hread hlive
    rw [provider.normalizeRetentionConfig.inMemory_eq h config hlive, hread, hr]
    refine ⟨?_, ?_, fun a ha => hold h _ a ha⟩
    · simp [provider.MapHeap.read, List.getD_eq_getElem?_getD]
    · rw [← hread]
      cases config with
      | none => rfl
      | some a => simp only [provider.MapHeap.read, hold h _ a (hlive a rfl)]

theorem C28_normalized_retention_config_witness :
    ((sample.retentionConfig.getD []).map Prod.fst).Nodup ∧
    ∃ r, provider.normalizeRetentionConfig sample.retentionConfig = some r ∧
      ("cleanup.policy", Json.str "delete") ∈ r ∧ ("max.bytes", Json.null) ∉ r ∧
      ("note", Json.str "") ∉ r ∧
      (provider.normalizeRetentionConfig.inMemory sample.retentionHeap (some 1)).1.read
        (some (provider.normalizeRetentionConfig.inMemory sample.retentionHeap (some 1)).2) =
          some r ∧
      (provider.normalizeRetentionConfig.inMemory sample.retentionHeap (some 1)).1.read
        (some 1) = sample.retentionConfig := by
  have hk : ((sample.retentionConfig.getD []).map Prod.fst).Nodup := by
    simp [sample.retentionConfig]
  obtain ⟨r, hr, hmem, -, -, hval, hheap⟩ :=
    C28_normalized_retention_config sample.retentionConfig hk
  have hh := hheap sample.retentionHeap (some 1) rfl
    (fun a ha => by cases ha; decide)
  exact ⟨hk, r, hr,
    (hmem _ _).2 ⟨by simp [sample.retentionConfig], by simp, by simp⟩,
    fun hn => (hval _ _ hn).1 rfl, fun hn => (hval _ _ hn).2 rfl, hh.1, hh.2.1⟩
